import Mathlib

/-!
# KozakScript bundler (`kozak_bundler.cpp`): a shallow embedding

The bundler copies the base interpreter `main.exe` to `build_exe/<stem>.exe`, appends
marker-delimited payload segments (script, assets, data files, manifest) and optionally
hands the result to an external resource editor.

Modelling conventions
* a `std::string` / `std::vector<char>` is a list of byte values (`Bytes`); a string
  literal of the source is written `str "..."`;
* the filesystem is a map from path to node (regular file with its bytes, or directory);
  `stat` succeeds on every node, `ifstream` opens regular files only, `ofstream` opens
  every path that is not a directory, `::remove` erases the entry;
* a C++ exception is the `false` component of a `Bool × St` result, the state reached so
  far is kept (the `catch` block of `bundle` undoes nothing);
* what the source takes from outside (the line typed at the prompt, the regex matches of
  the scanned script, the child process started by `system`, the Win32 resource API) is a
  field of an environment record.
-/

namespace Kozak

/-! ## Bytes and strings -/

abbrev Bytes := List Nat

/-- The bytes of a string literal of the source. -/
def str (s : String) : Bytes := s.toList.map Char.toNat

/-- The one-byte string with the newline character. -/
def nl : Bytes := [10]

/-! ## The `fs` helper namespace of the source (lines 12–63) -/

inductive Node where
  | file (data : Bytes)
  | dir
  deriving DecidableEq, Repr

abbrev FS := Bytes → Option Node

/-- Replace the node at one path. -/
def FS.set (f : FS) (p : Bytes) (n : Option Node) : FS :=
  fun q => if q = p then n else f q

/-- Source `fs::exists`: `stat` succeeds. -/
def fs_exists (f : FS) (path : Bytes) : Bool := (f path).isSome

/-- Source `fs::create_directories`: one `_mkdir`, result ignored. -/
def fs_create_directories (f : FS) (path : Bytes) : FS :=
  match f path with
  | none => f.set path (some Node.dir)
  | some _ => f

/-- Source `fs::remove`: `::remove(path)`. -/
def fs_remove (f : FS) (path : Bytes) : FS := f.set path none

/-- Opening an `ifstream`: the bytes of a regular file. -/
def openRead (f : FS) (path : Bytes) : Option Bytes :=
  match f path with
  | some (Node.file d) => some d
  | _ => none

/-- Source `std::string::find_last_of`: the last index holding one of `chars`. -/
def find_last_of : Bytes → Bytes → Option Nat
  | [], _ => none
  | c :: cs, chars =>
    match find_last_of cs chars with
    | some k => some (k + 1)
    | none => if chars.contains c then some 0 else none

/-- The folder a path sits in is there: what precedes the last `/` or `\` of the path names
a directory. A path without separator sits in the working directory, and one whose only
separator is its first character in a root directory; both are always there. -/
def parentIsDir (f : FS) (path : Bytes) : Bool :=
  match find_last_of path (str "/\\") with
  | none => true
  | some 0 => true
  | some (k + 1) => decide (f (path.take (k + 1)) = some Node.dir)

/-- Can an `ofstream` be opened on the path: the folder it sits in is there and the path
itself is not a directory. -/
def canOpenWrite (f : FS) (path : Bytes) : Bool :=
  parentIsDir f path &&
  match f path with
  | some Node.dir => false
  | _ => true

/-- Source `fs::copy_file`: both streams are opened (the destination is truncated by the
open) before the check; `false` is the thrown `runtime_error`. -/
def fs_copy_file (f : FS) (src dst : Bytes) : Bool × FS :=
  let srcOk := (openRead f src).isSome
  let dstOk := canOpenWrite f dst
  let f1 := if dstOk then f.set dst (some (Node.file [])) else f
  if !srcOk || !dstOk then (false, f1)
  else (true, f1.set dst (some (Node.file ((openRead f1 src).getD []))))

/-- Source `std::string::substr(pos, len)`. -/
def substr (p : Bytes) (pos len : Nat) : Bytes := (p.drop pos).take len

/-- Source `fs::path::stem`. -/
def path_stem (p : Bytes) : Bytes :=
  let lastSlash := find_last_of p (str "/\\")
  let lastDot := find_last_of p (str ".")
  let filename := match lastSlash with
    | none => p
    | some k => p.drop (k + 1)
  match lastDot with
  | some d =>
    if d > (match lastSlash with | none => 0 | some k => k) then
      let start := match lastSlash with | none => 0 | some k => k + 1
      substr p start (d - start)
    else filename
  | none => filename

/-! ## Configuration and markers (lines 65–75) -/

def INTERPRETER_EXE : Bytes := str "main.exe"
def OUTPUT_FOLDER : Bytes := str "build_exe"

def MARKER : Bytes := str "---KOZAK_PAYLOAD_START---"
def SCRIPT_END : Bytes := str "---KOZAK_PAYLOAD_END---"
def ASSET_START : Bytes := str "---ASSET_START---"
def ASSET_END : Bytes := str "---ASSET_END---"
def DATA_MANIFEST_START : Bytes := str "---DATA_MANIFEST_START---"
def DATA_MANIFEST_END : Bytes := str "---DATA_MANIFEST_END---"
/-- The literal used in step 4 of `bundle` (line 526). -/
def DATA_FILE_START : Bytes := str "---DATA_FILE_START---"
/-- The literal used in step 4 of `bundle` (line 528). -/
def DATA_FILE_END : Bytes := str "---DATA_FILE_END---"

structure BundleOptions where
  kozak_file : Bytes
  icon_file : Bytes
  add_data : List (Bytes × Bytes)

/-! ## State, effects, environment -/

/-- What `bundle` does to the outside world, in order. -/
inductive Event where
  | toolProbe
  | prompt
  | mkdir (path : Bytes)
  | copy (src dst : Bytes)
  | append (path data : Bytes)
  | create (path data : Bytes)
  | run (cmd : Bytes)
  | remove (path : Bytes)
  deriving DecidableEq, Repr

structure St where
  fs : FS
  log : List Event

/-- Result of the regex searches on one line of the script: the second capture group of
`import_pattern` and of `asset_pattern`, when they match. -/
structure LineMatch where
  importName : Option Bytes
  assetName : Option Bytes
  deriving DecidableEq, Repr

structure Env where
  /-- the line `std::getline(std::cin, response)` reads -/
  response : Bytes
  /-- `std::getline` over the script and the two `std::regex_search` calls per line -/
  scan : Bytes → List LineMatch
  /-- the child process started by `system(cmd)`: exit status and what it leaves on disk -/
  system : Bytes → FS → Int × FS


def St.emit (s : St) (e : Event) : St := { s with log := s.log ++ [e] }

/-! ## File helpers (lines 94–211) -/

/-- Source `readBinaryFile`: `none` is the thrown `runtime_error`. -/
def readBinaryFile (f : FS) (filename : Bytes) : Option Bytes := openRead f filename

/-- Source `appendToFile` (both overloads): `false` is the thrown `runtime_error`. -/
def appendToFile (filename data : Bytes) (s : St) : Bool × St :=
  let s1 := s.emit (Event.append filename data)
  if !parentIsDir s1.fs filename then (false, s1)
  else
    match s1.fs filename with
    | some Node.dir => (false, s1)
    | some (Node.file old) =>
      (true, { s1 with fs := s1.fs.set filename (some (Node.file (old ++ data))) })
    | none => (true, { s1 with fs := s1.fs.set filename (some (Node.file data)) })

/-- Sequencing inside the `try` block: a thrown exception skips the rest. -/
def andThen (r : Bool × St) (k : St → Bool × St) : Bool × St :=
  if r.1 then k r.2 else r

/-! ## ResourceHacker (lines 112–168) -/

def possible_paths : List Bytes :=
  [ str "ResourceHacker.exe",
    str "C:\\Program Files (x86)\\Resource Hacker\\ResourceHacker.exe",
    str "C:\\Program Files\\Resource Hacker\\ResourceHacker.exe" ]

/-- Source `findResourceHacker`: the first candidate that exists, else the empty string. -/
def findResourceHacker (f : FS) : Bytes :=
  match possible_paths.find? (fun path => fs_exists f path) with
  | some path => path
  | none => []

def rh_script_path : Bytes := OUTPUT_FOLDER ++ str "/_rh_script.txt"
def rh_log_path : Bytes := OUTPUT_FOLDER ++ str "/_rh_log.txt"

/-- The instruction file written for the tool (lines 138–143). -/
def rh_script (exe_path icon_path : Bytes) : Bytes :=
  str "[FILENAMES]\n" ++
  str "Exe=" ++ exe_path ++ str "\n" ++
  str "SaveAs=" ++ exe_path ++ str "\n" ++
  str "Log=" ++ OUTPUT_FOLDER ++ str "/_rh_log.txt\n" ++
  str "[COMMANDS]\n" ++
  str "-addoverwrite " ++ icon_path ++ str ", ICONGROUP,MAINICON,0\n"

/-- Source `applyIconWithResourceHacker`. The `ofstream` of the instruction file is not
checked: when it cannot be opened nothing is written. -/
def applyIconWithResourceHacker (env : Env) (exe_path icon_path rh_path : Bytes) (s : St) :
    Bool × St :=
  let script_path := rh_script_path
  let body := rh_script exe_path icon_path
  let s1 := s.emit (Event.create script_path body)
  let s2 : St := if canOpenWrite s1.fs script_path
    then { s1 with fs := s1.fs.set script_path (some (Node.file body)) } else s1
  let cmd := rh_path ++ str " -script \"" ++ script_path ++ str "\""
  let s3 := s2.emit (Event.run cmd)
  let r := env.system cmd s3.fs
  let result := r.1
  let s4 : St := { s3 with fs := r.2 }
  let s5 : St := { (s4.emit (Event.remove script_path)) with fs := fs_remove s4.fs script_path }
  let s6 : St := if fs_exists s5.fs rh_log_path
    then { (s5.emit (Event.remove rh_log_path)) with fs := fs_remove s5.fs rh_log_path } else s5
  (decide (result = 0), s6)

/-! ## Asset scan (lines 369–409) -/

/-- The `// Check for imports` block of the loop body (lines 386–397). -/
def collectImport (f : FS) : Option Bytes → List Bytes
  | some mod_name =>
    if fs_exists f (mod_name ++ str ".kozak") then [mod_name ++ str ".kozak"]
    else if fs_exists f (mod_name ++ str ".koz") then [mod_name ++ str ".koz"]
    else if fs_exists f mod_name then [mod_name]
    else []
  | none => []

/-- The `// Check for assets` block of the loop body (lines 399–405). -/
def collectAsset (f : FS) : Option Bytes → List Bytes
  | some asset_file => if fs_exists f asset_file then [asset_file] else []
  | none => []

/-- The body of the `while (std::getline ...)` loop for one line. -/
def collectLine (f : FS) (m : LineMatch) : List Bytes :=
  collectImport f m.importName ++ collectAsset f m.assetName

/-- Source `collectAssets`: an unopenable script gives the empty list. -/
def collectAssets (env : Env) (f : FS) (kozak_file : Bytes) : List Bytes :=
  match openRead f kozak_file with
  | none => []
  | some text => (env.scan text).flatMap (collectLine f)

/-! ## `bundle` (lines 411–566) -/

/-- Decimal digits, most significant first; `fuel` bounds the number of digits. -/
def decimal : Nat → Nat → Bytes
  | 0, _ => []
  | fuel + 1, n => if n < 10 then [48 + n] else decimal fuel (n / 10) ++ [48 + n % 10]

/-- Source `to_string` / `operator<<` on a `size_t`. -/
def to_string (value : Nat) : Bytes := decimal (value + 1) value

/-- The record text built with the `ostringstream` (lines 520–522). -/
def manifestRecord (dst : Bytes) (size : Nat) (src : Bytes) : Bytes :=
  str "\n  \x7b\"destination\":\"" ++ dst ++ str "\",\"size\":" ++ to_string size ++
  str ",\"original\":\"" ++ src ++ str "\"\x7d"

/-- Step 2: the script between `MARKER` and `SCRIPT_END`. -/
def embedScript (o : BundleOptions) (output_exe : Bytes) (s : St) : Bool × St :=
  andThen (appendToFile output_exe (nl ++ MARKER ++ nl) s) fun s1 =>
  match readBinaryFile s1.fs o.kozak_file with
  | none => (false, s1)
  | some script_data =>
    andThen (appendToFile output_exe script_data s1) fun s2 =>
    appendToFile output_exe (nl ++ SCRIPT_END ++ nl) s2

/-- Step 3: the `for` loop over `assets`. -/
def embedAssets (output_exe : Bytes) : List Bytes → St → Bool × St
  | [], s => (true, s)
  | asset :: rest, s =>
    andThen (appendToFile output_exe (nl ++ ASSET_START ++ nl) s) fun s1 =>
    match readBinaryFile s1.fs asset with
    | none => (false, s1)
    | some asset_data =>
      andThen (appendToFile output_exe asset_data s1) fun s2 =>
      andThen (appendToFile output_exe (nl ++ ASSET_END ++ nl) s2) fun s3 =>
      embedAssets output_exe rest s3

/-- Step 4: the `for` loop over `options.add_data`, carrying `manifest` and `first`. -/
def embedData (output_exe : Bytes) :
    List (Bytes × Bytes) → Bytes → Bool → St → Bool × Bytes × St
  | [], manifest, _, s => (true, manifest, s)
  | (src, dst) :: rest, manifest, first, s =>
    if !fs_exists s.fs src then embedData output_exe rest manifest first s
    else
      match readBinaryFile s.fs src with
      | none => (false, manifest, s)
      | some content =>
        let manifest1 := if !first then manifest ++ str "," else manifest
        let manifest2 := manifest1 ++ manifestRecord dst content.length src
        let r1 := appendToFile output_exe (nl ++ DATA_FILE_START ++ nl) s
        if !r1.1 then (false, manifest2, r1.2) else
        let r2 := appendToFile output_exe content r1.2
        if !r2.1 then (false, manifest2, r2.2) else
        let r3 := appendToFile output_exe (nl ++ DATA_FILE_END ++ nl) r2.2
        if !r3.1 then (false, manifest2, r3.2) else
        embedData output_exe rest manifest2 false r3.2

/-- Step 4 as a whole (lines 497–539). -/
def embedDataFiles (o : BundleOptions) (output_exe : Bytes) (s : St) : Bool × St :=
  if o.add_data.isEmpty then (true, s)
  else
    let r := embedData output_exe o.add_data (str "[") true s
    if !r.1 then (false, r.2.2) else
    let manifest := r.2.1 ++ str "\n]"
    andThen (appendToFile output_exe (nl ++ DATA_MANIFEST_START ++ nl) r.2.2) fun s1 =>
    andThen (appendToFile output_exe manifest s1) fun s2 =>
    appendToFile output_exe (nl ++ DATA_MANIFEST_END ++ nl) s2

/-- The path of the artifact (lines 458–459). -/
def output_exe (o : BundleOptions) : Bytes :=
  OUTPUT_FOLDER ++ str "/" ++ path_stem o.kozak_file ++ str ".exe"

/-- Steps 1 to 4 of the `try` block (lines 462–539). -/
def payloadSteps (env : Env) (o : BundleOptions) (s : St) : Bool × St :=
  let out := output_exe o
  let s0 := s.emit (Event.copy INTERPRETER_EXE out)
  let c := fs_copy_file s0.fs INTERPRETER_EXE out
  andThen (c.1, { s0 with fs := c.2 }) fun s1 =>
  andThen (embedScript o out s1) fun s2 =>
  andThen (embedAssets out (collectAssets env s2.fs o.kozak_file) s2) fun s3 =>
  embedDataFiles o out s3

/-- Step 5 (lines 541–550); the result of the tool is only reported. -/
def iconStep (env : Env) (o : BundleOptions) (rh_path : Bytes) (has_icon_support : Bool)
    (s : St) : St :=
  if !o.icon_file.isEmpty && has_icon_support && fs_exists s.fs o.icon_file then
    (applyIconWithResourceHacker env (output_exe o) o.icon_file rh_path s).2
  else s

/-- What lines 433–453 leave behind: the tool path, whether icon support is there, whether
the user cancelled at the prompt, and the state. -/
structure IconSupport where
  rh_path : Bytes
  has_icon_support : Bool
  cancelled : Bool
  st : St

/-- The check for ResourceHacker when an icon is requested (lines 433–453). -/
def checkIconSupport (env : Env) (o : BundleOptions) (s : St) : IconSupport :=
  if o.icon_file.isEmpty then ⟨[], false, false, s⟩
  else
    let s1 := s.emit Event.toolProbe
    let rh_path := findResourceHacker s1.fs
    let has_icon_support := !rh_path.isEmpty
    if !has_icon_support then
      ⟨rh_path, has_icon_support, env.response != str "y" && env.response != str "Y",
        s1.emit Event.prompt⟩
    else ⟨rh_path, has_icon_support, false, s1⟩

/-- Source `bundle`. -/
def bundle (env : Env) (o : BundleOptions) (s : St) : Bool × St :=
  if !fs_exists s.fs INTERPRETER_EXE then (false, s)
  else if !fs_exists s.fs o.kozak_file then (false, s)
  else
    let c := checkIconSupport env o s
    if c.cancelled then (false, c.st)
    else
      let s3 : St :=
        { (c.st.emit (Event.mkdir OUTPUT_FOLDER)) with
          fs := fs_create_directories c.st.fs OUTPUT_FOLDER }
      let r := payloadSteps env o s3
      if !r.1 then (false, r.2)
      else (true, iconStep env o c.rh_path c.has_icon_support r.2)

/-- A segment: begin marker and end marker, each on a line of its own, around the content. -/
def segment (b e content : Bytes) : Bytes := (nl ++ b ++ nl) ++ content ++ (nl ++ e ++ nl)

/-- The bytes of a regular file (empty for anything else). -/
def fileBytes (f : FS) (p : Bytes) : Bytes := (openRead f p).getD []

/-- Records separated by commas. -/
def commaSep : List Bytes → Bytes
  | [] => []
  | r :: rs => r ++ rs.flatMap (fun x => str "," ++ x)

/-- The manifest body: a bracket-delimited list of records (destination, size, original). -/
def manifestBody (recs : List (Bytes × Nat × Bytes)) : Bytes :=
  str "[" ++ commaSep (recs.map fun r => manifestRecord r.1 r.2.1 r.2.2) ++ str "\n]"

/-- The data-file mappings whose source exists, in request order. -/
def presentData (f : FS) (o : BundleOptions) : List (Bytes × Bytes) :=
  o.add_data.filter fun m => fs_exists f m.1

/-- The manifest records of a request: one per present mapping. -/
def manifestRecords (f : FS) (o : BundleOptions) : List (Bytes × Nat × Bytes) :=
  (presentData f o).map fun m => (m.2, (fileBytes f m.1).length, m.1)

def scriptSegment (f : FS) (o : BundleOptions) : Bytes :=
  segment MARKER SCRIPT_END (fileBytes f o.kozak_file)

def assetSegments (f : FS) (assets : List Bytes) : Bytes :=
  assets.flatMap fun a => segment ASSET_START ASSET_END (fileBytes f a)

def dataSegments (f : FS) (o : BundleOptions) : Bytes :=
  (presentData f o).flatMap fun m => segment DATA_FILE_START DATA_FILE_END (fileBytes f m.1)

def manifestSegment (f : FS) (o : BundleOptions) : Bytes :=
  segment DATA_MANIFEST_START DATA_MANIFEST_END (manifestBody (manifestRecords f o))

/-- The artifact the code assembles: the data part (data segments and manifest) is present
only when the request has a data-file mapping. -/
def expectedArtifact (env : Env) (f : FS) (o : BundleOptions) : Bytes :=
  fileBytes f INTERPRETER_EXE ++ scriptSegment f o ++
  assetSegments f (collectAssets env f o.kozak_file) ++
  (if o.add_data.isEmpty then [] else dataSegments f o ++ manifestSegment f o)

/-- Every path a line of the scan makes `collectAssets` probe. -/
def lineCandidates (m : LineMatch) : List Bytes :=
  (match m.importName with
   | some mod_name => [mod_name ++ str ".kozak", mod_name ++ str ".koz", mod_name]
   | none => []) ++
  (match m.assetName with
   | some asset_file => [asset_file]
   | none => [])

/-- Every path the payload steps probe or read besides the interpreter: the script, the
names its scan refers to, the data sources. -/
def sourcePaths (env : Env) (f : FS) (o : BundleOptions) : List Bytes :=
  o.kozak_file :: ((env.scan (fileBytes f o.kozak_file)).flatMap lineCandidates ++
    o.add_data.map Prod.fst)

/-- What the loop of step 4 adds to `manifest`: a comma before every record but the first. -/
def joinFrom (first : Bool) (recs : List Bytes) : Bytes :=
  if first then commaSep recs else recs.flatMap (fun x => str "," ++ x)

def recordTexts (F : FS) (l : List (Bytes × Bytes)) : List Bytes :=
  (l.filter fun m => fs_exists F m.1).map fun m =>
    manifestRecord m.2 (fileBytes F m.1).length m.1

def dataSegs (F : FS) (l : List (Bytes × Bytes)) : Bytes :=
  (l.filter fun m => fs_exists F m.1).flatMap fun m =>
    segment DATA_FILE_START DATA_FILE_END (fileBytes F m.1)

/-- Every read the payload steps make finds a regular file, and the artifact can be opened. -/
def Readable (env : Env) (F : FS) (o : BundleOptions) : Prop :=
  (openRead F INTERPRETER_EXE).isSome = true ∧ canOpenWrite F (output_exe o) = true ∧
  (openRead F o.kozak_file).isSome = true ∧
  (∀ a ∈ collectAssets env F o.kozak_file, (openRead F a).isSome = true) ∧
  (∀ m ∈ o.add_data, fs_exists F m.1 = true → (openRead F m.1).isSome = true)

/-- No path the payload steps probe or read is, letter for letter, the artifact path. -/
def Apart (env : Env) (f : FS) (o : BundleOptions) : Prop :=
  ∀ p ∈ sourcePaths env f o, p ≠ output_exe o

/-- ASCII lower case of a byte. -/
def toLower (c : Nat) : Nat := if 65 ≤ c ∧ c ≤ 90 then c + 32 else c

/-- The pieces of a path between the separators `/`, `\` and `:`. -/
def components : Bytes → List Bytes
  | [] => [[]]
  | c :: cs =>
    if c = 47 ∨ c = 92 ∨ c = 58 then [] :: components cs
    else
      match components cs with
      | [] => [[c]]
      | x :: xs => (c :: x) :: xs

/-- A component without the dots and blanks at its end. -/
def trimEnd (c : Bytes) : Bytes :=
  (c.reverse.dropWhile fun b => decide (b = 46 ∨ b = 32)).reverse

/-- The path may pass through the output folder: one of its components is `build_exe`,
whatever the case of its letters and whatever dots and blanks follow it, or holds a `~`, as
the short names do that the file system gives to long ones. Every spelling of the artifact
path `build_exe/<stem>.exe` and of the folder itself does: with `/` or `\` as separator,
with `.` or `..` components, absolute or with a drive letter, in upper or lower case. -/
def inOutputFolder (p : Bytes) : Bool :=
  (components (p.map toLower)).any fun c => trimEnd c == OUTPUT_FOLDER || c.contains 126

/-- No path the payload steps probe or read passes through the output folder, so none of
them is another spelling of the artifact path or of the folder. The filesystem is a map
from path strings to files: that two strings name one file is seen from the spelling
alone, and links and junctions are not part of it. -/
def NoAlias (env : Env) (f : FS) (o : BundleOptions) : Prop :=
  ∀ p ∈ sourcePaths env f o, inOutputFolder p = false

/-- The second filesystem is the first one plus, possibly, new directories. -/
def DirExt (F f0 : FS) : Prop := ∀ p, F p = f0 p ∨ (F p = some Node.dir ∧ f0 p = none)


/-! ## `applyIconNative` (lines 213–367)

The Win32 calls are recorded in order; their results come from `WinApi`. The structs of the
source are read from and written to byte buffers with the layout the compiler gives them:
no `#pragma pack` is in force, so every member sits at a multiple of its size and the size
of a struct is a multiple of its largest member. -/

/-- Offsets of the members of a struct with natural alignment, from the member sizes. -/
def memberOffsets : List Nat → Nat → List Nat
  | [], _ => []
  | sz :: rest, off =>
    let o := (off + sz - 1) / sz * sz
    o :: memberOffsets rest (o + sz)

/-- Source `sizeof` of a struct with natural alignment: the end of the last member, rounded
up to the largest member size. -/
def structSize (sizes : List Nat) : Nat :=
  let e := (sizes.zip (memberOffsets sizes 0)).foldl (fun _ p => p.1 + p.2) 0
  let a := sizes.foldl max 1
  (e + a - 1) / a * a

/-- Member sizes of `ICONDIR` and `GRPICONDIR`: three `WORD`s. -/
def ICONDIR_members : List Nat := [2, 2, 2]
/-- Member sizes of `ICONDIRENTRY`: four `BYTE`s, two `WORD`s, two `DWORD`s. -/
def ICONDIRENTRY_members : List Nat := [1, 1, 1, 1, 2, 2, 4, 4]
/-- Member sizes of `GRPICONDIRENTRY`: four `BYTE`s, two `WORD`s, a `DWORD`, a `WORD`. -/
def GRPICONDIRENTRY_members : List Nat := [1, 1, 1, 1, 2, 2, 4, 2]

def sizeof_ICONDIR : Nat := structSize ICONDIR_members
def sizeof_ICONDIRENTRY : Nat := structSize ICONDIRENTRY_members
def sizeof_GRPICONDIR : Nat := structSize ICONDIR_members
def sizeof_GRPICONDIRENTRY : Nat := structSize GRPICONDIRENTRY_members

/-- A byte of a buffer (0 beyond its end). -/
def u8 (m : Bytes) (i : Nat) : Nat := m.getD i 0 % 256
/-- A little-endian `WORD` of a buffer. -/
def u16 (m : Bytes) (i : Nat) : Nat := u8 m i + 256 * u8 m (i + 1)
/-- A little-endian `DWORD` of a buffer. -/
def u32 (m : Bytes) (i : Nat) : Nat :=
  u8 m i + 256 * u8 m (i + 1) + 65536 * u8 m (i + 2) + 16777216 * u8 m (i + 3)

/-- The bytes of a `WORD` (the value is truncated to 16 bits). -/
def le16 (v : Nat) : Bytes := [v % 256, v / 256 % 256]
/-- The bytes of a `DWORD` (the value is truncated to 32 bits). -/
def le32 (v : Nat) : Bytes := [v % 256, v / 256 % 256, v / 65536 % 256, v / 16777216 % 256]

structure ICONDIR where
  idReserved : Nat
  idType : Nat
  idCount : Nat
  deriving DecidableEq, Repr

structure ICONDIRENTRY where
  bWidth : Nat
  bHeight : Nat
  bColorCount : Nat
  bReserved : Nat
  wPlanes : Nat
  wBitCount : Nat
  dwBytesInRes : Nat
  dwImageOffset : Nat
  deriving DecidableEq, Repr

structure GRPICONDIRENTRY where
  bWidth : Nat
  bHeight : Nat
  bColorCount : Nat
  bReserved : Nat
  wPlanes : Nat
  wBitCount : Nat
  dwBytesInRes : Nat
  nID : Nat
  deriving DecidableEq, Repr

/-- An `ICONDIR` (or `GRPICONDIR`) seen through a pointer into a buffer. -/
def readICONDIR (m : Bytes) : ICONDIR := ⟨u16 m 0, u16 m 2, u16 m 4⟩

/-- Element `i` of an array of `ICONDIRENTRY` that starts at offset `base` of a buffer. -/
def readICONDIRENTRY (m : Bytes) (base i : Nat) : ICONDIRENTRY :=
  let o := base + sizeof_ICONDIRENTRY * i
  ⟨u8 m o, u8 m (o + 1), u8 m (o + 2), u8 m (o + 3), u16 m (o + 4), u16 m (o + 6),
    u32 m (o + 8), u32 m (o + 12)⟩

/-- Element `i` of an array of `GRPICONDIRENTRY` that starts at offset `base` of a buffer. -/
def readGRPICONDIRENTRY (m : Bytes) (base i : Nat) : GRPICONDIRENTRY :=
  let o := base + sizeof_GRPICONDIRENTRY * i
  ⟨u8 m o, u8 m (o + 1), u8 m (o + 2), u8 m (o + 3), u16 m (o + 4), u16 m (o + 6),
    u32 m (o + 8), u16 m (o + 12)⟩

/-- The bytes of one `GRPICONDIRENTRY` after the assignments of lines 335–342; the two
bytes after `nID` are padding and keep the zeros of the vector. -/
def writeGRPICONDIRENTRY (e : ICONDIRENTRY) (nID : Nat) : Bytes :=
  [e.bWidth % 256, e.bHeight % 256, e.bColorCount % 256, e.bReserved % 256] ++
  le16 e.wPlanes ++ le16 e.wBitCount ++ le32 e.dwBytesInRes ++ le16 nID ++
  List.replicate (sizeof_GRPICONDIRENTRY - 14) 0

/-- An input file stream: the bytes, the read position and the fail bit. -/
structure IStream where
  data : Bytes
  pos : Nat
  fail : Bool

/-- Source `istream::read(buf, n)`: the bytes read overwrite the front of `buf`; a short
read sets the fail bit; a failed stream reads nothing. -/
def IStream.read (st : IStream) (buf : Bytes) (n : Nat) : Bytes × IStream :=
  if st.fail then (buf, st)
  else
    let got := (st.data.drop st.pos).take n
    (got ++ buf.drop got.length, { st with pos := st.pos + got.length, fail := decide (got.length < n) })

/-- Source `istream::seekg(off)`: ignored by a failed stream. -/
def IStream.seekg (st : IStream) (off : Nat) : IStream :=
  if st.fail then st else { st with pos := off }

/-- The Win32 calls `applyIconNative` makes. -/
inductive Call where
  | LoadImageW (path : Bytes)
  | BeginUpdateResourceW (exe : Bytes)
  | UpdateResourceW (type id : Nat) (data : Bytes)
  | EndUpdateResourceW (fDiscard : Bool)
  | DestroyIcon
  deriving DecidableEq, Repr

/-- Results of the Win32 calls. -/
structure WinApi where
  /-- `LoadImageW` returned a handle -/
  loadImage : Bool
  /-- `BeginUpdateResourceW` returned a handle -/
  beginUpdate : Bool
  /-- result of `UpdateResourceW` for a resource type, identifier and data -/
  updateResource : Nat → Nat → Bytes → Bool
  /-- result of `EndUpdateResourceW(hUpdate, FALSE)` -/
  endUpdate : Bool

/-- State of the `for` loop of lines 319–343. -/
structure LoopState where
  ico_file : IStream
  success : Bool
  calls : List Call
  /-- the entries of `group_data` written so far -/
  groupEntries : Bytes

/-- One iteration of the loop, for index `i`. -/
def iconLoopBody (api : WinApi) (entries : Bytes) (i : Nat) (st : LoopState) : LoopState :=
  let entry := readICONDIRENTRY entries 0 i
  let f1 := st.ico_file.seekg entry.dwImageOffset
  let r := f1.read (List.replicate entry.dwBytesInRes 0) entry.dwBytesInRes
  let icon_data := r.1
  let id := (i + 1) % 65536
  let ok := api.updateResource 3 id icon_data
  { ico_file := r.2
    success := if ok then st.success else false
    calls := st.calls ++ [Call.UpdateResourceW 3 id icon_data]
    groupEntries := st.groupEntries ++ writeGRPICONDIRENTRY entry ((i + 1) % 65536) }

/-- The loop `for (int i = 0; i < icondir.idCount; i++)`: `n` iterations from index `i`. -/
def iconLoop (api : WinApi) (entries : Bytes) : Nat → Nat → LoopState → LoopState
  | 0, _, st => st
  | n + 1, i, st => iconLoop api entries n (i + 1) (iconLoopBody api entries i st)

/-- Source `applyIconNative`. `uninit` is what the six bytes of the local `icondir` hold
before the unchecked `read`; `f` is the filesystem the icon file is opened in. -/
def applyIconNative (api : WinApi) (uninit : Bytes) (f : FS) (exe_path icon_path : Bytes) :
    Bool × List Call :=
  let c0 := [Call.LoadImageW icon_path]
  if !api.loadImage then (false, c0)
  else
    let c1 := c0 ++ [Call.BeginUpdateResourceW exe_path]
    if !api.beginUpdate then (false, c1 ++ [Call.DestroyIcon])
    else
      match openRead f icon_path with
      | none => (false, c1 ++ [Call.EndUpdateResourceW true, Call.DestroyIcon])
      | some bytes =>
        let ico_file : IStream := ⟨bytes, 0, false⟩
        let r0 := ico_file.read (uninit.take sizeof_ICONDIR ++
          List.replicate (sizeof_ICONDIR - uninit.length) 0) sizeof_ICONDIR
        let icondir := readICONDIR r0.1
        if icondir.idReserved != 0 || icondir.idType != 1 then
          (false, c1 ++ [Call.EndUpdateResourceW true, Call.DestroyIcon])
        else
          let r1 := r0.2.read (List.replicate (sizeof_ICONDIRENTRY * icondir.idCount) 0)
            (sizeof_ICONDIRENTRY * icondir.idCount)
          let entries := r1.1
          let header := le16 0 ++ le16 1 ++ le16 icondir.idCount
          let st := iconLoop api entries icondir.idCount 0 ⟨r1.2, true, c1, []⟩
          let group_data := header ++ st.groupEntries
          let okGroup := api.updateResource 14 1 group_data
          let success := if okGroup then st.success else false
          let c2 := st.calls ++ [Call.UpdateResourceW 14 1 group_data]
          if !api.endUpdate then (false, c2 ++ [Call.EndUpdateResourceW false, Call.DestroyIcon])
          else (success, c2 ++ [Call.EndUpdateResourceW false, Call.DestroyIcon])

/-! ## Concrete requests used to exercise the model -/

/-- A small project directory: interpreter, script, one image, one data file, and
two directories, `sounds` and `mods.kozak`. -/
def demoFS : FS := fun p =>
  if p = str "main.exe" then some (Node.file [77, 90, 144])
  else if p = str "game.kozak" then some (Node.file [112, 114, 105, 110, 116])
  else if p = str "hero.png" then some (Node.file [137, 80])
  else if p = str "level.dat" then some (Node.file [1, 2, 3, 4, 5])
  else if p = str "sounds" then some Node.dir
  else if p = str "mods.kozak" then some Node.dir
  else none

def demoSt : St := ⟨demoFS, []⟩

/-- The demo project with a regular file in the place of the output folder. -/
def blockedFS : FS := fun p =>
  if p = str "build_exe" then some (Node.file [120]) else demoFS p

def blockedSt : St := ⟨blockedFS, []⟩

/-- The scan finds `sprite("hero.png")` and an import of a module `lib` that is not there;
the external tool does nothing and exits with status 0. -/
def demoEnv : Env :=
  { response := []
    scan := fun _ => [⟨none, some (str "hero.png")⟩, ⟨some (str "lib"), none⟩]
    system := fun _ f => (0, f) }

/-- A request with two data mappings, the second one missing. -/
def demoOptions : BundleOptions :=
  ⟨str "game.kozak", [], [(str "level.dat", str "data/level.dat"), (str "gone.dat", str "gone.dat")]⟩

/-- The same request without data mappings. -/
def plainOptions : BundleOptions := ⟨str "game.kozak", [], []⟩

/-- A project whose script already sits in the output folder under the name the artifact
will get. -/
def aliasFS : FS := fun p =>
  if p = str "main.exe" then some (Node.file [77, 90, 144])
  else if p = str "build_exe/a.koz.exe" then some (Node.file [112, 114, 105, 110, 116])
  else if p = str "build_exe" then some Node.dir
  else if p = str "level.dat" then some (Node.file [1, 2, 3, 4, 5])
  else none

def aliasSt : St := ⟨aliasFS, []⟩

/-- The script path is `build_exe/a.koz.exe`, whose stem is `a.koz`. -/
def aliasOptions : BundleOptions :=
  ⟨str "build_exe/a.koz.exe", [], [(str "level.dat", str "level.dat")]⟩

/-- The demo project with a script that contains the text of the Script end wrapper:
`a`, `"\n---KOZAK_PAYLOAD_END---\n"`, `b`. -/
def collisionFS : FS := fun p =>
  if p = str "game.kozak" then some (Node.file ([97] ++ (nl ++ SCRIPT_END ++ nl) ++ [98]))
  else demoFS p

def collisionSt : St := ⟨collisionFS, []⟩

/-- Two data mappings, destinations `a` and `b`. -/
def twoOptions : BundleOptions :=
  ⟨str "game.kozak", [], [(str "level.dat", str "a"), (str "hero.png", str "b")]⟩

/-- One data mapping whose destination spells the end of a record for `level.dat` and the
start of a record with destination `b`. -/
def forgedOptions : BundleOptions :=
  ⟨str "game.kozak", [],
    [(str "hero.png",
      str "a\",\"size\":5,\"original\":\"level.dat\"\x7d,\n  \x7b\"destination\":\"b")]⟩

/-- One data mapping whose source is the artifact path itself. -/
def selfOptions : BundleOptions :=
  ⟨str "game.kozak", [], [(str "build_exe/game.exe", str "self.bin")]⟩

/-- The scan finds `sound("sounds")`, a directory, and then `sprite("hero.png")`. -/
def dirAssetEnv : Env :=
  { demoEnv with scan := fun _ => [⟨none, some (str "sounds")⟩, ⟨none, some (str "hero.png")⟩] }

/-- The end-to-end example of the specification: interpreter of 500,000 bytes, script of
2,000 bytes, one referenced asset of 50,000 bytes. -/
def bigFS : FS := fun p =>
  if p = str "main.exe" then some (Node.file (List.replicate 500000 0))
  else if p = str "game.kozak" then some (Node.file (List.replicate 2000 32))
  else if p = str "hero.png" then some (Node.file (List.replicate 50000 1))
  else none

def bigSt : St := ⟨bigFS, []⟩

/-- The demo project with `ResourceHacker.exe` in the working directory and an icon. -/
def iconFS : FS := fun p =>
  if p = str "ResourceHacker.exe" then some (Node.file [77, 90])
  else if p = str "app.ico" then some (Node.file [0, 0, 1, 0, 0, 0])
  else demoFS p

def iconSt : St := ⟨iconFS, []⟩

def iconOptions : BundleOptions := ⟨str "game.kozak", str "app.ico", []⟩

/-- The tool appends a byte to every file named `build_exe/game.exe`, writes its log and
exits with status 0. -/
def iconEnv : Env :=
  { demoEnv with
    system := fun _ f =>
      (0, (f.set (str "build_exe/game.exe") (some (Node.file (fileBytes f (str "build_exe/game.exe") ++ [255])))).set
        rh_log_path (some (Node.file [111, 107]))) }

/-- A well-formed icon file with two images of 3 and 2 bytes: header, two directory
entries (16x16 and 32x32, 1 plane, 32 bits), image bytes at offsets 38 and 41. -/
def demoIcon : Bytes :=
  [0, 0, 1, 0, 2, 0] ++
  [16, 16, 0, 0, 1, 0, 32, 0, 3, 0, 0, 0, 38, 0, 0, 0] ++
  [32, 32, 0, 0, 1, 0, 32, 0, 2, 0, 0, 0, 41, 0, 0, 0] ++
  [1, 2, 3] ++ [4, 5]

/-- A folder with the icon `app.ico` and a file `cursor.ico` whose header has type 2. -/
def iconFileFS : FS := fun p =>
  if p = str "app.ico" then some (Node.file demoIcon)
  else if p = str "cursor.ico" then some (Node.file [0, 0, 2, 0, 1, 0, 7, 7])
  else none

/-- Every Win32 call succeeds. -/
def okApi : WinApi := ⟨true, true, fun _ _ _ => true, true⟩

/-! ## Reading an artifact back

The load side (the interpreter that scans its own executable) is not part of the bundler
source; the reader below follows the specification: a segment is recovered by locating its
begin marker and the next end marker. -/

/-- Offset of the first occurrence of `pat` in `s`. -/
def firstIndex (pat : Bytes) : Bytes → Option Nat
  | [] => if pat.isEmpty then some 0 else none
  | c :: cs =>
    if pat.isPrefixOf (c :: cs) then some 0
    else (firstIndex pat cs).map (· + 1)

/-- A marker on a line of its own, as `bundle` writes it. -/
def wrapper (t : Bytes) : Bytes := nl ++ t ++ nl

/-- Cut `s` at the first occurrence of `pat`: what precedes it and what follows it. -/
def splitAtFirst (pat s : Bytes) : Option (Bytes × Bytes) :=
  (firstIndex pat s).map fun i => (s.take i, s.drop (i + pat.length))

/-- Modelled from the spec: the reader that scans for the first begin wrapper and the next
end wrapper; it returns the bytes between them and the rest of the input. -/
def between (b e s : Bytes) : Option (Bytes × Bytes) :=
  match splitAtFirst (wrapper b) s with
  | none => none
  | some (_, r) => splitAtFirst (wrapper e) r

/-- Modelled from the spec: the content of the `n`-th begin/end marker pair, counting from 0
and scanning from the start. -/
def nthBetween (b e : Bytes) : Nat → Bytes → Option Bytes
  | 0, s => (between b e s).map Prod.fst
  | n + 1, s =>
    match between b e s with
    | none => none
    | some (_, r) => nthBetween b e n r

/-- The marker `t` does not stand on a line of its own in `x`: `x` does not hold the
wrapper of `t`, that is a newline, the marker and a newline. -/
def LineFree (t x : Bytes) : Prop := firstIndex (wrapper t) x = none

/-! ## Reading a manifest back

The consumer of the manifest is not part of the bundler source either; the reader below
takes the record syntax that `bundle` writes: a string field ends at the next double quote,
a size is a run of decimal digits. -/

/-- Remove a literal from the front of the input. -/
def dropLiteral (lit s : Bytes) : Option Bytes :=
  if lit.isPrefixOf s then some (s.drop lit.length) else none

/-- The bytes up to the next double quote, and the rest (starting at the quote). -/
def readString : Bytes → Bytes × Bytes
  | [] => ([], [])
  | c :: cs => if c = 34 then ([], c :: cs) else ((readString cs).1.cons c, (readString cs).2)

/-- The value of a run of decimal digits, and the rest. -/
def readDigits (acc : Nat) : Bytes → Nat × Bytes
  | [] => (acc, [])
  | c :: cs => if 48 ≤ c ∧ c ≤ 57 then readDigits (10 * acc + (c - 48)) cs else (acc, c :: cs)

/-- Modelled from the spec: one record with its fields destination, size, original. -/
def readRecord (s : Bytes) : Option ((Bytes × Nat × Bytes) × Bytes) :=
  match dropLiteral (str "\n  \x7b\"destination\":\"") s with
  | none => none
  | some s1 =>
    match dropLiteral (str "\",\"size\":") (readString s1).2 with
    | none => none
    | some s3 =>
      match dropLiteral (str ",\"original\":\"") (readDigits 0 s3).2 with
      | none => none
      | some s5 =>
        match dropLiteral (str "\"\x7d") (readString s5).2 with
        | none => none
        | some s7 => some (((readString s1).1, (readDigits 0 s3).1, (readString s5).1), s7)

/-- The records after the first one, each preceded by a comma, up to the closing bracket. -/
def readMore : Nat → Bytes → Option (List (Bytes × Nat × Bytes))
  | 0, _ => none
  | fuel + 1, s =>
    if s = str "\n]" then some []
    else
      match dropLiteral (str ",") s with
      | none => none
      | some s1 =>
        match readRecord s1 with
        | none => none
        | some (r, rest) => (readMore fuel rest).map (List.cons r)

/-- Modelled from the spec: the reader of a manifest body, a bracket-delimited list of
records. -/
def readManifest (m : Bytes) : Option (List (Bytes × Nat × Bytes)) :=
  match dropLiteral (str "[") m with
  | none => none
  | some s =>
    if s = str "\n]" then some []
    else
      match readRecord s with
      | none => none
      | some (r, rest) => (readMore m.length rest).map (List.cons r)

/-! ## Intermediate values of `applyIconNative`

Names for what the body of `applyIconNative` computes on the way, so that statements can
refer to them. -/

/-- Line 263: the unchecked `read` of the header into `icondir`; the memory of `icondir`
afterwards and the stream. -/
def readHeader (uninit bytes : Bytes) : Bytes × IStream :=
  (⟨bytes, 0, false⟩ : IStream).read (uninit.take sizeof_ICONDIR ++
    List.replicate (sizeof_ICONDIR - uninit.length) 0) sizeof_ICONDIR

/-- The `icondir` that line 265 checks. -/
def decodedHeader (uninit bytes : Bytes) : ICONDIR := readICONDIR (readHeader uninit bytes).1

/-- The check of line 265 lets the header pass. -/
def headerAccepted (uninit bytes : Bytes) : Bool :=
  !((decodedHeader uninit bytes).idReserved != 0 || (decodedHeader uninit bytes).idType != 1)

/-- Lines 286–287: the vector `entries` after the unchecked `read`, and the stream. -/
def readEntries (uninit bytes : Bytes) : Bytes × IStream :=
  (readHeader uninit bytes).2.read
    (List.replicate (sizeof_ICONDIRENTRY * (decodedHeader uninit bytes).idCount) 0)
    (sizeof_ICONDIRENTRY * (decodedHeader uninit bytes).idCount)

/-- The state in which the loop of lines 319–343 ends. -/
def loopResult (api : WinApi) (uninit exe_path icon_path bytes : Bytes) : LoopState :=
  iconLoop api (readEntries uninit bytes).1 (decodedHeader uninit bytes).idCount 0
    ⟨(readEntries uninit bytes).2, true,
      [Call.LoadImageW icon_path] ++ [Call.BeginUpdateResourceW exe_path], []⟩

/-- The buffer `group_data` handed to `UpdateResourceW` in line 346. -/
def groupData (api : WinApi) (uninit exe_path icon_path bytes : Bytes) : Bytes :=
  le16 0 ++ le16 1 ++ le16 (decodedHeader uninit bytes).idCount ++
    (loopResult api uninit exe_path icon_path bytes).groupEntries

/-- The bytes of one image of a file, lines 321–323: the range that a directory entry
names. -/
def imageBytes (bytes : Bytes) (e : ICONDIRENTRY) : Bytes :=
  (bytes.drop e.dwImageOffset).take e.dwBytesInRes

/-- The 14 bytes of one entry of an icon group in the resource format: width, height,
colour count, reserved (one byte each), planes, bit count (two bytes each), byte size (four
bytes), identifier (two bytes), little-endian, nothing after them. -/
def packedGroupEntry (e : ICONDIRENTRY) (id : Nat) : Bytes :=
  [e.bWidth % 256, e.bHeight % 256, e.bColorCount % 256, e.bReserved % 256] ++
  le16 e.wPlanes ++ le16 e.wBitCount ++ le32 e.dwBytesInRes ++ le16 id

/-- The icon group of the resource format for the first `N` directory entries of an icon
file: the six-byte header and `N` entries of 14 bytes, with the identifiers 1, …, N. -/
def packedGroupData (bytes : Bytes) (N : Nat) : Bytes :=
  le16 0 ++ le16 1 ++ le16 N ++
    (List.range N).flatMap fun i => packedGroupEntry (readICONDIRENTRY bytes 6 i) (i + 1)

/-! ## The frame of `bundle` -/

/-- An effect stays within what `bundle` is meant to touch for a request: the output
folder is created, the interpreter is copied to the artifact, data is appended to the
artifact, the instruction file of the tool is created, and the instruction file and the
log file of the tool are removed. -/
def Event.within (o : BundleOptions) : Event → Prop
  | Event.toolProbe => True
  | Event.prompt => True
  | Event.mkdir path => path = OUTPUT_FOLDER
  | Event.copy src dst => src = INTERPRETER_EXE ∧ dst = output_exe o
  | Event.append path _ => path = output_exe o
  | Event.create path _ => path = rh_script_path
  | Event.run _ => True
  | Event.remove path => path = rh_script_path ∨ path = rh_log_path

/-- From state `s` to state `t`, effects were only added, each of them within the request,
and every path other than the output folder, the artifact and the two files of the tool
holds what it held, as far as the external tool leaves that path alone. -/
def Within (env : Env) (o : BundleOptions) (s t : St) : Prop :=
  (∃ added : List Event, t.log = s.log ++ added ∧ ∀ e ∈ added, Event.within o e) ∧
  ∀ p : Bytes, p ≠ OUTPUT_FOLDER → p ≠ output_exe o → p ≠ rh_script_path → p ≠ rh_log_path →
    (∀ cmd f, (env.system cmd f).2 p = f p) → t.fs p = s.fs p

/-! # Theorems

## Filesystem and step lemmas -/

/-! ## Filesystem lemmas -/

@[simp] theorem FS.set_same (f : FS) (p : Bytes) (n : Option Node) : (f.set p n) p = n := by
  simp [FS.set]

theorem FS.set_ne (f : FS) {p q : Bytes} (n : Option Node) (h : q ≠ p) : (f.set p n) q = f q := by
  simp [FS.set, h]

@[simp] theorem FS.set_set (f : FS) (p : Bytes) (a b : Option Node) :
    (f.set p a).set p b = f.set p b := by
  funext q
  by_cases h : q = p <;> simp [FS.set, h]

theorem openRead_set_ne (f : FS) {p q : Bytes} (n : Option Node) (h : q ≠ p) :
    openRead (f.set p n) q = openRead f q := by
  simp [openRead, FS.set_ne f n h]

theorem fs_exists_set_ne (f : FS) {p q : Bytes} (n : Option Node) (h : q ≠ p) :
    fs_exists (f.set p n) q = fs_exists f q := by
  simp [fs_exists, FS.set_ne f n h]

theorem find_last_of_lt (chars : Bytes) :
    ∀ (p : Bytes) (k : Nat), find_last_of p chars = some k → k < p.length := by
  intro p
  induction p with
  | nil => intro k h; cases h
  | cons x rest ih =>
    intro k h
    rw [find_last_of] at h
    cases hr : find_last_of rest chars with
    | some j =>
      rw [hr] at h
      simp only [Option.some.injEq] at h
      subst h
      have := ih j hr
      simp only [List.length_cons]
      omega
    | none =>
      rw [hr] at h
      cases hx : chars.contains x with
      | true =>
        rw [hx] at h
        simp only [if_true, Option.some.injEq] at h
        subst h
        simp
      | false => rw [hx] at h; simp at h

/-- Writing to a path does not change the folder the path sits in. -/
theorem parentIsDir_set (F : FS) (out : Bytes) (n : Option Node) :
    parentIsDir (F.set out n) out = parentIsDir F out := by
  unfold parentIsDir
  cases h : find_last_of out (str "/\\") with
  | none => rfl
  | some k =>
    cases k with
    | zero => rfl
    | succ j =>
      have hlt := find_last_of_lt _ out _ h
      have hne : out.take (j + 1) ≠ out := by
        intro he
        have := congrArg List.length he
        rw [List.length_take] at this
        omega
      simp only [FS.set_ne F n hne]

theorem canOpenWrite_parent (F : FS) (out : Bytes) (h : canOpenWrite F out = true) :
    parentIsDir F out = true := by
  unfold canOpenWrite at h
  exact (Bool.and_eq_true _ _ ▸ h).1

/-- Appending to a path that holds a regular file cannot throw and extends the file. -/
theorem appendToFile_file (F : FS) (out : Bytes) (hp : parentIsDir F out = true) (X d : Bytes)
    (s : St) (h : s.fs = F.set out (some (Node.file X))) :
    (appendToFile out d s).1 = true ∧
    (appendToFile out d s).2.fs = F.set out (some (Node.file (X ++ d))) := by
  simp [appendToFile, St.emit, h, parentIsDir_set, hp]

theorem andThen_true (r : Bool × St) (k : St → Bool × St) (h : r.1 = true) :
    andThen r k = k r.2 := by
  simp [andThen, h]

theorem embedScript_ok (o : BundleOptions) (F : FS) (out : Bytes)
    (hp : parentIsDir F out = true) (X sc : Bytes) (s : St)
    (h : s.fs = F.set out (some (Node.file X))) (hne : o.kozak_file ≠ out)
    (hr : openRead F o.kozak_file = some sc) :
    (embedScript o out s).1 = true ∧
    (embedScript o out s).2.fs = F.set out (some (Node.file (X ++ segment MARKER SCRIPT_END sc))) := by
  obtain ⟨a1, a2⟩ := appendToFile_file F out hp X (nl ++ MARKER ++ nl) s h
  unfold embedScript
  rw [andThen_true _ _ a1]
  have hr1 : readBinaryFile (appendToFile out (nl ++ MARKER ++ nl) s).2.fs o.kozak_file = some sc := by
    rw [readBinaryFile, a2, openRead_set_ne F _ hne, hr]
  simp only [hr1]
  obtain ⟨b1, b2⟩ := appendToFile_file F out hp _ sc _ a2
  rw [andThen_true _ _ b1]
  obtain ⟨c1, c2⟩ := appendToFile_file F out hp _ (nl ++ SCRIPT_END ++ nl) _ b2
  refine ⟨c1, ?_⟩
  rw [c2]
  simp [segment, List.append_assoc]

theorem embedScript_fail (o : BundleOptions) (F : FS) (out : Bytes)
    (hp : parentIsDir F out = true) (X : Bytes) (s : St)
    (h : s.fs = F.set out (some (Node.file X))) (hne : o.kozak_file ≠ out)
    (hr : openRead F o.kozak_file = none) :
    (embedScript o out s).1 = false := by
  obtain ⟨a1, a2⟩ := appendToFile_file F out hp X (nl ++ MARKER ++ nl) s h
  unfold embedScript
  rw [andThen_true _ _ a1]
  have hr1 : readBinaryFile (appendToFile out (nl ++ MARKER ++ nl) s).2.fs o.kozak_file = none := by
    rw [readBinaryFile, a2, openRead_set_ne F _ hne, hr]
  simp only [hr1]

theorem embedAssets_ok (F : FS) (out : Bytes) (hp : parentIsDir F out = true)
    (assets : List Bytes) :
    ∀ (X : Bytes) (s : St), s.fs = F.set out (some (Node.file X)) →
    (∀ a ∈ assets, a ≠ out) → (∀ a ∈ assets, (openRead F a).isSome = true) →
    (embedAssets out assets s).1 = true ∧
    (embedAssets out assets s).2.fs = F.set out (some (Node.file (X ++ assetSegments F assets))) := by
  induction assets with
  | nil => intro X s h _ _; simp [embedAssets, assetSegments, h]
  | cons a rest ih =>
    intro X s h hne hr
    obtain ⟨a1, a2⟩ := appendToFile_file F out hp X (nl ++ ASSET_START ++ nl) s h
    have hra := hr a (List.mem_cons_self _ _)
    obtain ⟨d, hd⟩ := Option.isSome_iff_exists.mp hra
    have hr1 : readBinaryFile (appendToFile out (nl ++ ASSET_START ++ nl) s).2.fs a = some d := by
      rw [readBinaryFile, a2, openRead_set_ne F _ (hne a (List.mem_cons_self _ _)), hd]
    obtain ⟨b1, b2⟩ := appendToFile_file F out hp _ d _ a2
    obtain ⟨c1, c2⟩ := appendToFile_file F out hp _ (nl ++ ASSET_END ++ nl) _ b2
    have := ih _ _ c2 (fun x hx => hne x (List.mem_cons_of_mem _ hx))
      (fun x hx => hr x (List.mem_cons_of_mem _ hx))
    unfold embedAssets
    rw [andThen_true _ _ a1]
    simp only [hr1]
    rw [andThen_true _ _ b1, andThen_true _ _ c1]
    refine ⟨this.1, ?_⟩
    rw [this.2]
    simp [assetSegments, segment, fileBytes, hd, List.append_assoc]

theorem embedAssets_reads (F : FS) (out : Bytes) (hp : parentIsDir F out = true)
    (assets : List Bytes) :
    ∀ (X : Bytes) (s : St), s.fs = F.set out (some (Node.file X)) →
    (∀ a ∈ assets, a ≠ out) → (embedAssets out assets s).1 = true →
    ∀ a ∈ assets, (openRead F a).isSome = true := by
  induction assets with
  | nil => intro X s _ _ _ a ha; cases ha
  | cons a rest ih =>
    intro X s h hne hs
    obtain ⟨a1, a2⟩ := appendToFile_file F out hp X (nl ++ ASSET_START ++ nl) s h
    unfold embedAssets at hs
    rw [andThen_true _ _ a1] at hs
    have hrd : readBinaryFile (appendToFile out (nl ++ ASSET_START ++ nl) s).2.fs a = openRead F a := by
      rw [readBinaryFile, a2, openRead_set_ne F _ (hne a (List.mem_cons_self _ _))]
    rw [hrd] at hs
    cases hd : openRead F a with
    | none => rw [hd] at hs; simp at hs
    | some d =>
      rw [hd] at hs
      simp only at hs
      obtain ⟨b1, b2⟩ := appendToFile_file F out hp _ d _ a2
      obtain ⟨c1, c2⟩ := appendToFile_file F out hp _ (nl ++ ASSET_END ++ nl) _ b2
      rw [andThen_true _ _ b1, andThen_true _ _ c1] at hs
      have := ih _ _ c2 (fun x hx => hne x (List.mem_cons_of_mem _ hx)) hs
      intro x hx
      rcases List.mem_cons.mp hx with rfl | hx
      · simp [hd]
      · exact this x hx

theorem embedData_ok (F : FS) (out : Bytes) (hp : parentIsDir F out = true)
    (l : List (Bytes × Bytes)) :
    ∀ (X M : Bytes) (first : Bool) (s : St), s.fs = F.set out (some (Node.file X)) →
    (∀ m ∈ l, m.1 ≠ out) →
    (∀ m ∈ l, fs_exists F m.1 = true → (openRead F m.1).isSome = true) →
    (embedData out l M first s).1 = true ∧
    (embedData out l M first s).2.1 = M ++ joinFrom first (recordTexts F l) ∧
    (embedData out l M first s).2.2.fs = F.set out (some (Node.file (X ++ dataSegs F l))) := by
  induction l with
  | nil => intro X M first s h _ _; cases first <;> simp [embedData, joinFrom, recordTexts, dataSegs, commaSep, h]
  | cons m rest ih =>
    intro X M first s h hne hr
    obtain ⟨src, dst⟩ := m
    have hsrc : src ≠ out := hne (src, dst) (List.mem_cons_self _ _)
    have hex : fs_exists s.fs src = fs_exists F src := by rw [h, fs_exists_set_ne F _ hsrc]
    have hne2 : ∀ m ∈ rest, m.1 ≠ out := fun x hx => hne x (List.mem_cons_of_mem _ hx)
    have hr2 : ∀ m ∈ rest, fs_exists F m.1 = true → (openRead F m.1).isSome = true :=
      fun x hx => hr x (List.mem_cons_of_mem _ hx)
    unfold embedData
    rw [hex]
    cases he : fs_exists F src with
    | false =>
      have := ih X M first s h hne2 hr2
      simpa [recordTexts, dataSegs, he] using this
    | true =>
      obtain ⟨d, hd⟩ := Option.isSome_iff_exists.mp (hr (src, dst) (List.mem_cons_self _ _) he)
      have hrd : readBinaryFile s.fs src = some d := by
        rw [readBinaryFile, h, openRead_set_ne F _ hsrc, hd]
      obtain ⟨a1, a2⟩ := appendToFile_file F out hp X (nl ++ DATA_FILE_START ++ nl) s h
      obtain ⟨b1, b2⟩ := appendToFile_file F out hp _ d _ a2
      obtain ⟨c1, c2⟩ := appendToFile_file F out hp _ (nl ++ DATA_FILE_END ++ nl) _ b2
      have := ih _ ((if !first then M ++ str "," else M) ++ manifestRecord dst d.length src)
        false _ c2 hne2 hr2
      simp only [hrd, a1, b1, c1, Bool.not_true, Bool.false_eq_true, if_false, Bool.not_false]
      refine ⟨this.1, ?_, ?_⟩
      · rw [this.2.1]
        cases first <;>
          simp [joinFrom, recordTexts, he, commaSep, fileBytes, hd, List.append_assoc]
      · rw [this.2.2]
        simp [dataSegs, he, segment, fileBytes, hd, List.append_assoc]

theorem embedData_reads (F : FS) (out : Bytes) (hp : parentIsDir F out = true)
    (l : List (Bytes × Bytes)) :
    ∀ (X M : Bytes) (first : Bool) (s : St), s.fs = F.set out (some (Node.file X)) →
    (∀ m ∈ l, m.1 ≠ out) → (embedData out l M first s).1 = true →
    ∀ m ∈ l, fs_exists F m.1 = true → (openRead F m.1).isSome = true := by
  induction l with
  | nil => intro X M first s _ _ _ m hm; cases hm
  | cons m rest ih =>
    intro X M first s h hne hs
    obtain ⟨src, dst⟩ := m
    have hsrc : src ≠ out := hne (src, dst) (List.mem_cons_self _ _)
    have hex : fs_exists s.fs src = fs_exists F src := by rw [h, fs_exists_set_ne F _ hsrc]
    have hne2 : ∀ m ∈ rest, m.1 ≠ out := fun x hx => hne x (List.mem_cons_of_mem _ hx)
    have hrd : readBinaryFile s.fs src = openRead F src := by
      rw [readBinaryFile, h, openRead_set_ne F _ hsrc]
    unfold embedData at hs
    rw [hex, hrd] at hs
    cases he : fs_exists F src with
    | false =>
      rw [he] at hs
      simp only [Bool.not_false, if_true] at hs
      have := ih X M first s h hne2 hs
      intro x hx hxe
      rcases List.mem_cons.mp hx with rfl | hx
      · simp [he] at hxe
      · exact this x hx hxe
    | true =>
      rw [he] at hs
      simp only [Bool.not_true, Bool.false_eq_true, if_false] at hs
      cases hd : openRead F src with
      | none => rw [hd] at hs; simp at hs
      | some d =>
        rw [hd] at hs
        obtain ⟨a1, a2⟩ := appendToFile_file F out hp X (nl ++ DATA_FILE_START ++ nl) s h
        obtain ⟨b1, b2⟩ := appendToFile_file F out hp _ d _ a2
        obtain ⟨c1, c2⟩ := appendToFile_file F out hp _ (nl ++ DATA_FILE_END ++ nl) _ b2
        simp only [a1, b1, c1, Bool.not_true, Bool.false_eq_true, if_false] at hs
        have := ih _ _ _ _ c2 hne2 hs
        intro x hx hxe
        rcases List.mem_cons.mp hx with rfl | hx
        · simp [hd]
        · exact this x hx hxe

theorem interpreter_ne_output (o : BundleOptions) : INTERPRETER_EXE ≠ output_exe o := by
  intro h
  have h2 := congrArg List.head? h
  simp [INTERPRETER_EXE, output_exe, OUTPUT_FOLDER, str] at h2

theorem collectLine_congr (f g : FS) (m : LineMatch)
    (h : ∀ p ∈ lineCandidates m, fs_exists f p = fs_exists g p) :
    collectLine f m = collectLine g m := by
  obtain ⟨i, a⟩ := m
  cases i <;> cases a <;> simp [lineCandidates] at h <;>
    simp [collectLine, collectImport, collectAsset, h]

theorem collectAssets_set (env : Env) (F : FS) (o : BundleOptions) (n : Option Node)
    (h : Apart env F o) :
    collectAssets env (F.set (output_exe o) n) o.kozak_file = collectAssets env F o.kozak_file := by
  have hs : o.kozak_file ≠ output_exe o := h _ (List.mem_cons_self _ _)
  unfold collectAssets
  rw [openRead_set_ne F _ hs]
  cases hr : openRead F o.kozak_file with
  | none => rfl
  | some text =>
    simp only
    apply List.flatMap_congr
    intro m hm
    apply collectLine_congr
    intro p hp
    apply fs_exists_set_ne
    apply h
    simp only [sourcePaths, fileBytes, hr, Option.getD_some, List.mem_cons, List.mem_append,
      List.mem_flatMap]
    exact Or.inr (Or.inl ⟨m, hm, hp⟩)

theorem collectLine_subset (F : FS) (m : LineMatch) (a : Bytes)
    (hp : a ∈ collectLine F m) : a ∈ lineCandidates m := by
  obtain ⟨i, x⟩ := m
  cases i <;> cases x <;>
    simp only [collectLine, collectImport, collectAsset, lineCandidates, List.mem_append] at hp ⊢
  · simp at hp
  · right
    split at hp <;> simp_all
  · left
    rcases hp with hp | hp
    · (repeat' split at hp) <;> simp_all
    · simp at hp
  · rcases hp with hp | hp
    · left
      (repeat' split at hp) <;> simp_all
    · right
      split at hp <;> simp_all

theorem mem_collectAssets_source (env : Env) (F : FS) (o : BundleOptions) (a : Bytes)
    (ha : a ∈ collectAssets env F o.kozak_file) : a ∈ sourcePaths env F o := by
  unfold collectAssets at ha
  cases hr : openRead F o.kozak_file with
  | none => rw [hr] at ha; cases ha
  | some text =>
    rw [hr] at ha
    simp only [List.mem_flatMap] at ha
    obtain ⟨m, hm, hp⟩ := ha
    simp only [sourcePaths, fileBytes, hr, Option.getD_some, List.mem_cons, List.mem_append,
      List.mem_flatMap]
    exact Or.inr (Or.inl ⟨m, hm, collectLine_subset F m a hp⟩)

theorem fs_copy_file_ok (F : FS) (src dst : Bytes) (hne : src ≠ dst)
    (hs : (openRead F src).isSome = true) (hd : canOpenWrite F dst = true) :
    fs_copy_file F src dst = (true, F.set dst (some (Node.file (fileBytes F src)))) := by
  simp [fs_copy_file, hs, hd, openRead_set_ne F _ hne, fileBytes]

theorem fs_copy_file_true (F : FS) (src dst : Bytes) (h : (fs_copy_file F src dst).1 = true) :
    (openRead F src).isSome = true ∧ canOpenWrite F dst = true := by
  unfold fs_copy_file at h
  cases hs : (openRead F src).isSome <;> cases hd : canOpenWrite F dst <;> simp [hs, hd] at h ⊢

theorem embedDataFiles_ok (F : FS) (o : BundleOptions) (out : Bytes)
    (hp : parentIsDir F out = true) (X : Bytes) (s : St)
    (h : s.fs = F.set out (some (Node.file X))) (hne : ∀ m ∈ o.add_data, m.1 ≠ out)
    (hr : ∀ m ∈ o.add_data, fs_exists F m.1 = true → (openRead F m.1).isSome = true) :
    (embedDataFiles o out s).1 = true ∧
    (embedDataFiles o out s).2.fs = F.set out (some (Node.file (X ++
      (if o.add_data.isEmpty then [] else dataSegments F o ++ manifestSegment F o)))) := by
  unfold embedDataFiles
  cases he : o.add_data.isEmpty with
  | true => simp [h]
  | false =>
    obtain ⟨d1, d2, d3⟩ := embedData_ok F out hp o.add_data X (str "[") true s h hne hr
    simp only [Bool.false_eq_true, if_false, d1, Bool.not_true]
    obtain ⟨a1, a2⟩ := appendToFile_file F out hp _ (nl ++ DATA_MANIFEST_START ++ nl) _ d3
    rw [andThen_true _ _ a1]
    obtain ⟨b1, b2⟩ := appendToFile_file F out hp _
      ((embedData out o.add_data (str "[") true s).2.1 ++ str "\n]") _ a2
    rw [andThen_true _ _ b1]
    obtain ⟨c1, c2⟩ := appendToFile_file F out hp _ (nl ++ DATA_MANIFEST_END ++ nl) _ b2
    refine ⟨c1, ?_⟩
    rw [c2, d2]
    simp [dataSegments, manifestSegment, manifestBody, manifestRecords, presentData, dataSegs,
      recordTexts, joinFrom, segment, List.append_assoc, List.map_map, Function.comp_def]

theorem embedDataFiles_reads (F : FS) (o : BundleOptions) (out : Bytes)
    (hp : parentIsDir F out = true) (X : Bytes) (s : St)
    (h : s.fs = F.set out (some (Node.file X))) (hne : ∀ m ∈ o.add_data, m.1 ≠ out)
    (hs : (embedDataFiles o out s).1 = true) :
    ∀ m ∈ o.add_data, fs_exists F m.1 = true → (openRead F m.1).isSome = true := by
  unfold embedDataFiles at hs
  cases he : o.add_data.isEmpty with
  | true =>
    intro m hm
    rw [List.isEmpty_iff.mp he] at hm
    cases hm
  | false =>
    rw [he] at hs
    simp only [Bool.false_eq_true, if_false] at hs
    cases hd : (embedData out o.add_data (str "[") true s).1 with
    | false => simp [hd] at hs
    | true => exact embedData_reads F out hp o.add_data X _ _ s h hne hd

theorem payloadSteps_ok (env : Env) (o : BundleOptions) (s : St)
    (hna : Apart env s.fs o) (hr : Readable env s.fs o) :
    (payloadSteps env o s).1 = true ∧
    (payloadSteps env o s).2.fs =
      s.fs.set (output_exe o) (some (Node.file (expectedArtifact env s.fs o))) := by
  obtain ⟨r1, r2, r3, r4, r5⟩ := hr
  have hp := canOpenWrite_parent _ _ r2
  have hcopy := fs_copy_file_ok s.fs _ _ (interpreter_ne_output o) r1 r2
  obtain ⟨sc, hsc⟩ := Option.isSome_iff_exists.mp r3
  have hsne : o.kozak_file ≠ output_exe o := hna _ (List.mem_cons_self _ _)
  have hdne : ∀ m ∈ o.add_data, m.1 ≠ output_exe o := by
    intro m hm
    apply hna
    simp only [sourcePaths, List.mem_cons, List.mem_append, List.mem_map]
    exact Or.inr (Or.inr ⟨m, hm, rfl⟩)
  unfold payloadSteps
  simp only [St.emit, hcopy]
  rw [andThen_true _ _ rfl]
  obtain ⟨a1, a2⟩ := embedScript_ok o s.fs (output_exe o) hp (fileBytes s.fs INTERPRETER_EXE) sc
    ⟨s.fs.set (output_exe o) (some (Node.file (fileBytes s.fs INTERPRETER_EXE))),
      s.log ++ [Event.copy INTERPRETER_EXE (output_exe o)]⟩ rfl hsne hsc
  rw [andThen_true _ _ a1, a2, collectAssets_set env s.fs o _ hna]
  obtain ⟨b1, b2⟩ := embedAssets_ok s.fs (output_exe o) hp (collectAssets env s.fs o.kozak_file) _ _ a2
    (fun a ha => hna a (mem_collectAssets_source env s.fs o a ha)) r4
  rw [andThen_true _ _ b1]
  obtain ⟨c1, c2⟩ := embedDataFiles_ok s.fs o (output_exe o) hp _ _ b2 hdne r5
  refine ⟨c1, ?_⟩
  rw [c2]
  simp [expectedArtifact, scriptSegment, fileBytes, hsc, List.append_assoc]

theorem payloadSteps_reads (env : Env) (o : BundleOptions) (s : St)
    (hna : Apart env s.fs o) (hs : (payloadSteps env o s).1 = true) :
    Readable env s.fs o := by
  have hsne : o.kozak_file ≠ output_exe o := hna _ (List.mem_cons_self _ _)
  have hdne : ∀ m ∈ o.add_data, m.1 ≠ output_exe o := by
    intro m hm
    apply hna
    simp only [sourcePaths, List.mem_cons, List.mem_append, List.mem_map]
    exact Or.inr (Or.inr ⟨m, hm, rfl⟩)
  unfold payloadSteps at hs
  simp only [St.emit] at hs
  cases hc : (fs_copy_file s.fs INTERPRETER_EXE (output_exe o)).1 with
  | false => simp [andThen, hc] at hs
  | true =>
    obtain ⟨r1, r2⟩ := fs_copy_file_true _ _ _ hc
    have hp := canOpenWrite_parent _ _ r2
    have hcopy := fs_copy_file_ok s.fs _ _ (interpreter_ne_output o) r1 r2
    simp only [hcopy] at hs
    rw [andThen_true _ _ rfl] at hs
    cases hr : openRead s.fs o.kozak_file with
    | none =>
      have := embedScript_fail o s.fs (output_exe o) hp (fileBytes s.fs INTERPRETER_EXE)
        ⟨s.fs.set (output_exe o) (some (Node.file (fileBytes s.fs INTERPRETER_EXE))),
          s.log ++ [Event.copy INTERPRETER_EXE (output_exe o)]⟩ rfl hsne hr
      simp [andThen, this] at hs
    | some sc =>
      obtain ⟨a1, a2⟩ := embedScript_ok o s.fs (output_exe o) hp (fileBytes s.fs INTERPRETER_EXE) sc
        ⟨s.fs.set (output_exe o) (some (Node.file (fileBytes s.fs INTERPRETER_EXE))),
          s.log ++ [Event.copy INTERPRETER_EXE (output_exe o)]⟩ rfl hsne hr
      rw [andThen_true _ _ a1, a2, collectAssets_set env s.fs o _ hna] at hs
      have hane : ∀ a ∈ collectAssets env s.fs o.kozak_file, a ≠ output_exe o :=
        fun a ha => hna a (mem_collectAssets_source env s.fs o a ha)
      cases hb : (embedAssets (output_exe o) (collectAssets env s.fs o.kozak_file)
          (embedScript o (output_exe o)
            ⟨s.fs.set (output_exe o) (some (Node.file (fileBytes s.fs INTERPRETER_EXE))),
              s.log ++ [Event.copy INTERPRETER_EXE (output_exe o)]⟩).2).1 with
      | false => simp [andThen, hb] at hs
      | true =>
        have r4 := embedAssets_reads s.fs (output_exe o) hp _ _ _ a2 hane hb
        obtain ⟨b1, b2⟩ := embedAssets_ok s.fs (output_exe o) hp _ _ _ a2 hane r4
        rw [andThen_true _ _ b1] at hs
        have r5 := embedDataFiles_reads s.fs o (output_exe o) hp _ _ b2 hdne hs
        exact ⟨r1, r2, by simp [hr], r4, r5⟩

theorem dirExt_create (f0 : FS) (p : Bytes) : DirExt (fs_create_directories f0 p) f0 := by
  intro q
  unfold fs_create_directories
  cases h : f0 p with
  | some n => left; rfl
  | none =>
    by_cases hq : q = p
    · right; subst hq; simp [h]
    · left; simp [FS.set_ne _ _ hq]

theorem DirExt.openRead {F f0 : FS} (h : DirExt F f0) (p : Bytes) :
    openRead F p = openRead f0 p := by
  rcases h p with h1 | ⟨h1, h2⟩
  · simp [Kozak.openRead, h1]
  · simp [Kozak.openRead, h1, h2]

theorem DirExt.fileBytes {F f0 : FS} (h : DirExt F f0) (p : Bytes) :
    fileBytes F p = fileBytes f0 p := by
  simp [Kozak.fileBytes, h.openRead p]

theorem DirExt.exists_false {F f0 : FS} (h : DirExt F f0) (p : Bytes)
    (hp : fs_exists F p = false) : fs_exists f0 p = false := by
  rcases h p with h1 | ⟨h1, _⟩
  · simpa [fs_exists, h1] using hp
  · simp [fs_exists, h1] at hp

theorem DirExt.exists_read {F f0 : FS} (h : DirExt F f0) (p : Bytes)
    (hp : (Kozak.openRead F p).isSome = true) : fs_exists F p = true ∧ fs_exists f0 p = true := by
  rcases h p with h1 | ⟨h1, _⟩
  · rw [Kozak.openRead] at hp
    cases hf : F p with
    | none => simp [hf] at hp
    | some n => simp [fs_exists, ← h1, hf]
  · simp [Kozak.openRead, h1] at hp

theorem DirExt.exists_eq {F f0 : FS} (h : DirExt F f0) (p : Bytes)
    (hp : fs_exists F p = true → (Kozak.openRead F p).isSome = true) :
    fs_exists f0 p = fs_exists F p := by
  cases he : fs_exists F p with
  | false => exact h.exists_false p he
  | true => exact (h.exists_read p (hp he)).2

theorem collectLine_ext {F f0 : FS} (h : DirExt F f0) (m : LineMatch)
    (hr : ∀ a ∈ collectLine F m, (openRead F a).isSome = true) :
    collectLine F m = collectLine f0 m := by
  obtain ⟨i, x⟩ := m
  have key : ∀ p, p ∈ collectLine F ⟨i, x⟩ → fs_exists f0 p = true :=
    fun p hp => (h.exists_read p (hr p hp)).2
  have hx2 : collectAsset F x = collectAsset f0 x := by
    cases x with
    | none => rfl
    | some a =>
      have : fs_exists f0 a = fs_exists F a := by
        apply h.exists_eq
        intro he
        apply hr
        simp [collectLine, collectAsset, he]
      simp [collectAsset, this]
  have hi2 : collectImport F i = collectImport f0 i := by
    cases i with
    | none => rfl
    | some mn =>
      cases h1 : fs_exists F (mn ++ str ".kozak") with
      | true =>
        have := key (mn ++ str ".kozak") (by simp [collectLine, collectImport, h1])
        simp [collectImport, this, h1]
      | false =>
        have e1 := h.exists_false _ h1
        cases h2 : fs_exists F (mn ++ str ".koz") with
        | true =>
          have := key (mn ++ str ".koz") (by simp [collectLine, collectImport, h1, h2])
          simp [collectImport, this, e1, h1, h2]
        | false =>
          have e2 := h.exists_false _ h2
          cases h3 : fs_exists F mn with
          | true =>
            have := key mn (by simp [collectLine, collectImport, h1, h2, h3])
            simp [collectImport, this, e1, e2, h1, h2, h3]
          | false =>
            have e3 := h.exists_false _ h3
            simp [collectImport, e1, e2, e3, h1, h2, h3]
  simp only [collectLine, hx2, hi2]

theorem collectAssets_ext {F f0 : FS} (h : DirExt F f0) (env : Env) (script : Bytes)
    (hr : ∀ a ∈ collectAssets env F script, (openRead F a).isSome = true) :
    collectAssets env F script = collectAssets env f0 script := by
  unfold collectAssets at hr ⊢
  rw [← h.openRead script]
  cases ho : openRead F script with
  | none => rfl
  | some text =>
    rw [ho] at hr
    simp only at hr ⊢
    apply List.flatMap_congr
    intro m hm
    apply collectLine_ext h
    intro a ha
    exact hr a (List.mem_flatMap.mpr ⟨m, hm, ha⟩)

theorem presentData_ext {F f0 : FS} (h : DirExt F f0) (o : BundleOptions)
    (hr : ∀ m ∈ o.add_data, fs_exists F m.1 = true → (openRead F m.1).isSome = true) :
    presentData F o = presentData f0 o := by
  unfold presentData
  apply List.filter_congr
  intro m hm
  exact (h.exists_eq m.1 (hr m hm)).symm

theorem sourcePaths_ext {F f0 : FS} (h : DirExt F f0) (env : Env) (o : BundleOptions) :
    sourcePaths env F o = sourcePaths env f0 o := by
  simp [sourcePaths, h.fileBytes]

theorem expectedArtifact_ext {F f0 : FS} (h : DirExt F f0) (env : Env) (o : BundleOptions)
    (hr : Readable env F o) : expectedArtifact env F o = expectedArtifact env f0 o := by
  obtain ⟨_, _, _, r4, r5⟩ := hr
  have hf : fileBytes F = fileBytes f0 := funext h.fileBytes
  simp only [expectedArtifact, scriptSegment, assetSegments, dataSegments, manifestSegment,
    manifestRecords, collectAssets_ext h env _ r4, presentData_ext h o r5, hf]

theorem checkIconSupport_fs (env : Env) (o : BundleOptions) (s : St) :
    (checkIconSupport env o s).st.fs = s.fs := by
  unfold checkIconSupport
  split
  · rfl
  · simp only [St.emit]
    split <;> rfl

theorem iconStep_args (env : Env) (o : BundleOptions) (s0 s : St) :
    iconStep env o (checkIconSupport env o s0).rh_path
      (checkIconSupport env o s0).has_icon_support s =
    iconStep env o (findResourceHacker s0.fs) (!(findResourceHacker s0.fs).isEmpty) s := by
  unfold iconStep checkIconSupport
  cases h : o.icon_file.isEmpty
  · simp only [St.emit, Bool.false_eq_true, if_false]
    split <;> rfl
  · simp

/-- A successful run passed validation and the payload steps; the icon step ran last. -/
theorem bundle_true (env : Env) (o : BundleOptions) (s s' : St)
    (hb : bundle env o s = (true, s')) :
    fs_exists s.fs INTERPRETER_EXE = true ∧ fs_exists s.fs o.kozak_file = true ∧
    ∃ s3 : St, s3.fs = fs_create_directories s.fs OUTPUT_FOLDER ∧
      (payloadSteps env o s3).1 = true ∧
      s' = iconStep env o (findResourceHacker s.fs) (!(findResourceHacker s.fs).isEmpty)
        (payloadSteps env o s3).2 := by
  unfold bundle at hb
  cases h1 : fs_exists s.fs INTERPRETER_EXE
  · simp [h1] at hb
  cases h2 : fs_exists s.fs o.kozak_file
  · simp [h1, h2] at hb
  simp only [h1, h2, Bool.not_true, Bool.false_eq_true, if_false] at hb
  cases h3 : (checkIconSupport env o s).cancelled
  · simp only [h3, Bool.false_eq_true, if_false] at hb
    split at hb
    · simp at hb
    rename_i h4
    simp only [Prod.mk.injEq, true_and] at hb
    refine ⟨rfl, rfl, _, ?_, by simpa using h4, ?_⟩
    · simp only [checkIconSupport_fs]
    · rw [← hb]
      exact iconStep_args env o s _
  · simp [h3] at hb

theorem apart_ext {F f0 : FS} (h : DirExt F f0) (env : Env) (o : BundleOptions)
    (hna : Apart env f0 o) : Apart env F o := by
  unfold Apart
  rw [sourcePaths_ext h]
  exact hna

/-- The state in which a successful run leaves the payload steps: the artifact holds the
expected layout, computed from the filesystem before the call. -/
theorem bundle_assembled (env : Env) (o : BundleOptions) (s s' : St)
    (hb : bundle env o s = (true, s')) (hna : Apart env s.fs o) :
    ∃ s4 : St,
      s4.fs = (fs_create_directories s.fs OUTPUT_FOLDER).set (output_exe o)
        (some (Node.file (expectedArtifact env s.fs o))) ∧
      s' = iconStep env o (findResourceHacker s.fs) (!(findResourceHacker s.fs).isEmpty) s4 ∧
      Readable env (fs_create_directories s.fs OUTPUT_FOLDER) o := by
  obtain ⟨_, _, s3, h3, hp, hs'⟩ := bundle_true env o s s' hb
  have hext : DirExt s3.fs s.fs := by rw [h3]; exact dirExt_create s.fs OUTPUT_FOLDER
  have hna3 : Apart env s3.fs o := apart_ext hext env o hna
  have hr := payloadSteps_reads env o s3 hna3 hp
  obtain ⟨_, k2⟩ := payloadSteps_ok env o s3 hna3 hr
  refine ⟨(payloadSteps env o s3).2, ?_, hs', ?_⟩
  · rw [k2, expectedArtifact_ext hext env o hr, h3]
  · rw [← h3]; exact hr

theorem iconStep_no_icon (env : Env) (o : BundleOptions) (rh : Bytes) (b : Bool) (s : St)
    (h : o.icon_file = []) : iconStep env o rh b s = s := by
  simp [iconStep, h]

/-! ## Runs of `bundle` -/

/-- A result with a known success flag, as a pair. -/
theorem result_eq_of_fst (r : Bool × St) (b : Bool) (h : r.1 = b) : r = (b, r.2) := by
  cases r
  cases h
  rfl

/-- When validation passes, nobody cancels and every file read is a regular file, `bundle`
succeeds. -/
theorem bundle_ok (env : Env) (o : BundleOptions) (s : St)
    (h1 : fs_exists s.fs INTERPRETER_EXE = true) (h2 : fs_exists s.fs o.kozak_file = true)
    (h3 : (checkIconSupport env o s).cancelled = false) (hna : Apart env s.fs o)
    (hr : Readable env (fs_create_directories s.fs OUTPUT_FOLDER) o) :
    (bundle env o s).1 = true := by
  have hext : DirExt (fs_create_directories s.fs OUTPUT_FOLDER) s.fs := dirExt_create s.fs _
  have hp := (payloadSteps_ok env o
    ⟨fs_create_directories (checkIconSupport env o s).st.fs OUTPUT_FOLDER,
      ((checkIconSupport env o s).st.emit (Event.mkdir OUTPUT_FOLDER)).log⟩
    (by simp only [checkIconSupport_fs]; exact apart_ext hext env o hna)
    (by simp only [checkIconSupport_fs]; exact hr)).1
  unfold bundle
  simp [h1, h2, h3, hp]

/-- A run stopped by validation or at the prompt changes nothing on disk. -/
theorem bundle_early (env : Env) (o : BundleOptions) (s : St)
    (h : fs_exists s.fs INTERPRETER_EXE = false ∨ fs_exists s.fs o.kozak_file = false ∨
      (checkIconSupport env o s).cancelled = true) :
    (bundle env o s).1 = false ∧ (bundle env o s).2.fs = s.fs := by
  unfold bundle
  cases h1 : fs_exists s.fs INTERPRETER_EXE
  · simp
  cases h2 : fs_exists s.fs o.kozak_file
  · simp
  rcases h with h | h | h
  · simp [h1] at h
  · simp [h2] at h
  · simp [h, checkIconSupport_fs]

/-! ## The payload steps remove nothing -/

theorem MARKER_eq : MARKER = [45, 45, 45, 75, 79, 90, 65, 75, 95, 80, 65, 89, 76, 79, 65, 68,
    95, 83, 84, 65, 82, 84, 45, 45, 45] := by decide

theorem ASSET_START_eq : ASSET_START = [45, 45, 45, 65, 83, 83, 69, 84, 95, 83, 84, 65, 82,
    84, 45, 45, 45] := by decide

theorem firstIndex_marker (rest : Bytes) :
    firstIndex MARKER ((nl ++ MARKER ++ nl) ++ rest) = some 1 := by
  rw [MARKER_eq]
  simp [firstIndex, nl, List.isPrefixOf]

theorem firstIndex_asset_start (rest : Bytes) (j : Nat)
    (h : firstIndex ASSET_START ((nl ++ MARKER ++ nl) ++ rest) = some j) : 1 < j := by
  rw [MARKER_eq, ASSET_START_eq] at h
  simp [firstIndex, nl, List.isPrefixOf] at h
  obtain ⟨a, _, rfl⟩ := h
  omega

theorem segment_length (b e c : Bytes) :
    (segment b e c).length = (nl ++ b ++ nl).length + (nl ++ e ++ nl).length + c.length := by
  simp [segment, nl]
  omega

theorem assetSegments_length (f : FS) (assets : List Bytes) :
    (assetSegments f assets).length = (assets.map fun a => 36 + (fileBytes f a).length).sum := by
  induction assets with
  | nil => rfl
  | cons a rest ih =>
    have h1 : (nl ++ ASSET_START ++ nl).length = 19 := by decide
    have h2 : (nl ++ ASSET_END ++ nl).length = 17 := by decide
    have : assetSegments f (a :: rest) =
        segment ASSET_START ASSET_END (fileBytes f a) ++ assetSegments f rest := by
      simp [assetSegments]
    rw [this, List.length_append, ih, segment_length, h1, h2]
    simp

/-! ## Searching for markers -/

theorem firstIndex_eq_none_iff (pat s : Bytes) : firstIndex pat s = none ↔ ¬ pat <:+: s := by
  induction s with
  | nil =>
    unfold firstIndex
    cases pat with
    | nil => simp
    | cons a t => simp
  | cons c cs ih =>
    unfold firstIndex
    by_cases h : pat.isPrefixOf (c :: cs) = true
    · simp only [h, if_true]
      have hp : pat <+: c :: cs := List.isPrefixOf_iff_prefix.mp h
      simp [hp.isInfix]
    · have hp : ¬ pat <+: c :: cs := fun hp => h (List.isPrefixOf_iff_prefix.mpr hp)
      have h' : pat.isPrefixOf (c :: cs) = false := Bool.eq_false_iff.mpr h
      simp only [h', Bool.false_eq_true, if_false, Option.map_eq_none', ih]
      rw [List.infix_cons_iff]
      tauto

theorem wrapper_eq (t : Bytes) : wrapper t = 10 :: (t ++ [10]) := by
  simp [wrapper, nl]

/-- An occurrence of a wrapper that starts before a newline ends at that newline at the
latest. -/
theorem wrapper_before_newline (t x y p q : Bytes) (hnl : 10 ∉ t)
    (h : p ++ (wrapper t ++ q) = x ++ 10 :: y) (hlt : p.length < x.length) :
    p ++ wrapper t <+: x ++ [10] := by
  have hle : p.length + (wrapper t).length ≤ x.length + 1 := by
    by_contra hc
    have hlen : (wrapper t).length = t.length + 2 := by simp [wrapper_eq]
    rw [hlen] at hc
    have h1 : (x ++ 10 :: y)[x.length]? = some 10 := by
      rw [List.getElem?_append_right (le_refl _)]
      simp
    rw [← h, List.getElem?_append_right (by omega), wrapper_eq] at h1
    have hj : x.length - p.length = (x.length - p.length - 1) + 1 := by omega
    rw [hj, List.cons_append, List.getElem?_cons_succ, List.append_assoc,
      List.getElem?_append_left (by omega)] at h1
    exact hnl (List.mem_iff_getElem?.mpr ⟨_, h1⟩)
  have hp1 : p ++ wrapper t <+: x ++ 10 :: y := ⟨q, by rw [List.append_assoc, h]⟩
  have hp2 : x ++ [10] <+: x ++ 10 :: y := ⟨y, by simp⟩
  exact List.prefix_of_prefix_length_le hp1 hp2 (by simpa using hle)

/-- A wrapper that occurs in `x ++ "\n" ++ y` occurs in `x ++ "\n"` or in `"\n" ++ y`. -/
theorem wrapper_across_newline (t x y : Bytes) (hnl : 10 ∉ t)
    (h : wrapper t <:+: x ++ 10 :: y) : wrapper t <:+: x ++ [10] ∨ wrapper t <:+: 10 :: y := by
  obtain ⟨p, q, hpq⟩ := h
  rw [List.append_assoc] at hpq
  by_cases hlt : p.length < x.length
  · left
    obtain ⟨r, hr⟩ := wrapper_before_newline t x y p q hnl hpq hlt
    exact ⟨p, r, hr⟩
  · right
    have hx : x <+: p := List.prefix_of_prefix_length_le ⟨10 :: y, rfl⟩
      ⟨wrapper t ++ q, hpq⟩ (by omega)
    obtain ⟨p', rfl⟩ := hx
    rw [List.append_assoc] at hpq
    have := List.append_cancel_left hpq
    exact ⟨p', q, by rw [List.append_assoc, this]⟩

/-- Nothing of `x ++ "\n" ++ z` holds the wrapper when neither `x ++ "\n"` nor `"\n" ++ z`
does. -/
theorem lineFree_step (t x z : Bytes) (hnl : 10 ∉ t) (hx : ¬ wrapper t <:+: x ++ [10])
    (hz : ¬ wrapper t <:+: 10 :: z) : ¬ wrapper t <:+: x ++ 10 :: z := by
  intro h
  rcases wrapper_across_newline t x z hnl h with h | h
  · exact hx h
  · exact hz h

theorem firstIndex_wrapper2 (t : Bytes) (hnl : 10 ∉ t) (Y : Bytes) :
    ∀ a : Bytes, ¬ wrapper t <:+: a ++ [10] →
      firstIndex (wrapper t) (a ++ (wrapper t ++ Y)) = some a.length := by
  intro a
  induction a with
  | nil =>
    intro _
    have hp : (wrapper t).isPrefixOf (wrapper t ++ Y) = true :=
      List.isPrefixOf_iff_prefix.mpr (List.prefix_append _ _)
    rw [wrapper_eq] at hp ⊢
    simp only [List.nil_append, List.cons_append, List.length_nil]
    unfold firstIndex
    simp [hp]
  | cons x a ih =>
    intro hfree
    have hno : ¬ wrapper t <+: x :: (a ++ (wrapper t ++ Y)) := by
      rintro ⟨z, hz⟩
      have h2 : ([] : Bytes) ++ (wrapper t ++ z) = (x :: a) ++ 10 :: (t ++ [10] ++ Y) := by
        rw [List.nil_append, hz, wrapper_eq]
        simp
      obtain ⟨r, hr⟩ := wrapper_before_newline t (x :: a) _ [] z hnl h2 (by simp)
      exact hfree ⟨[], r, hr⟩
    have h' : (wrapper t).isPrefixOf (x :: (a ++ (wrapper t ++ Y))) = false :=
      Bool.eq_false_iff.mpr (fun h => hno (List.isPrefixOf_iff_prefix.mp h))
    have hfree' : ¬ wrapper t <:+: a ++ [10] := fun h => hfree (List.infix_cons h)
    simp only [List.cons_append, List.length_cons]
    unfold firstIndex
    simp only [h', Bool.false_eq_true, if_false, ih hfree', Option.map_some']

theorem splitAtFirst_wrapper2 (t : Bytes) (hnl : 10 ∉ t) (a Y : Bytes)
    (hfree : ¬ wrapper t <:+: a ++ [10]) :
    splitAtFirst (wrapper t) (a ++ (wrapper t ++ Y)) = some (a, Y) := by
  unfold splitAtFirst
  rw [firstIndex_wrapper2 t hnl Y a hfree]
  simp only [Option.map_some', Option.some.injEq, Prod.mk.injEq]
  constructor
  · simp
  · rw [← List.append_assoc, ← List.length_append, List.drop_left]

/-- The reader recovers a segment when no begin wrapper ends in what precedes the segment
or at its first newline, and no end wrapper ends in the content or at the newline after
it. -/
theorem between_segment2 (b e : Bytes) (hb : 10 ∉ b) (he : 10 ∉ e)
    (a c Y : Bytes) (ha : ¬ wrapper b <:+: a ++ [10]) (hc : ¬ wrapper e <:+: c ++ [10]) :
    between b e (a ++ (segment b e c ++ Y)) = some (c, Y) := by
  unfold between
  have : a ++ (segment b e c ++ Y) = a ++ (wrapper b ++ (c ++ (wrapper e ++ Y))) := by
    simp [segment, wrapper, List.append_assoc]
  rw [this, splitAtFirst_wrapper2 b hb a _ ha]
  exact splitAtFirst_wrapper2 e he c Y hc

theorem wrapper_not_in_newline (t : Bytes) : ¬ wrapper t <:+: [10] := by
  intro h
  have := h.length_le
  simp [wrapper_eq] at this

theorem wrapper_not_in_newlines (t : Bytes) (h0 : t ≠ []) : ¬ wrapper t <:+: [10, 10] := by
  intro h
  have := h.length_le
  simp only [wrapper_eq, List.length_cons, List.length_append, List.length_nil] at this
  have : t.length = 0 := by omega
  exact h0 (List.length_eq_zero.mp this)

/-- The `i`-th pair of a run of segments yields the `i`-th content. -/
theorem nthBetween_segments2 (b e : Bytes) (hb : 10 ∉ b) (he : 10 ∉ e) (Y : Bytes) :
    ∀ (cs : List Bytes) (a : Bytes) (i : Nat) (c : Bytes), cs[i]? = some c →
      ¬ wrapper b <:+: a ++ [10] → (∀ c ∈ cs, ¬ wrapper e <:+: c ++ [10]) →
      nthBetween b e i (a ++ (cs.flatMap (segment b e) ++ Y)) = some c := by
  intro cs
  induction cs with
  | nil => intro a i c hi; simp at hi
  | cons c0 rest ih =>
    intro a i c hi ha hcs
    have hbt : between b e (a ++ ((c0 :: rest).flatMap (segment b e) ++ Y)) =
        some (c0, [] ++ (rest.flatMap (segment b e) ++ Y)) := by
      have : a ++ ((c0 :: rest).flatMap (segment b e) ++ Y) =
          a ++ (segment b e c0 ++ (rest.flatMap (segment b e) ++ Y)) := by
        simp [List.append_assoc]
      rw [this]
      exact between_segment2 b e hb he a c0 _ ha (hcs c0 (List.mem_cons_self _ _))
    cases i with
    | zero =>
      simp only [List.getElem?_cons_zero, Option.some.injEq] at hi
      unfold nthBetween
      rw [hbt, ← hi]
      rfl
    | succ j =>
      simp only [List.getElem?_cons_succ] at hi
      unfold nthBetween
      rw [hbt]
      simp only
      exact ih [] j c hi (wrapper_not_in_newline b)
        (fun x hx => hcs x (List.mem_cons_of_mem _ hx))

/-- A wrapper does not occur, after a newline, in the rest of a segment and what follows
it, unless it is one of the wrappers of the segment, stands on a line of the content, or
occurs in what follows. -/
theorem lineFree_body (t b e c Z : Bytes) (hnl : 10 ∉ t)
    (hb : ¬ wrapper t <:+: wrapper b) (he : ¬ wrapper t <:+: wrapper e)
    (hc : ¬ wrapper t <:+: 10 :: (c ++ [10])) (hZ : ¬ wrapper t <:+: 10 :: Z) :
    ¬ wrapper t <:+: 10 :: (b ++ 10 :: (c ++ 10 :: (e ++ 10 :: Z))) := by
  have e1 : 10 :: (b ++ 10 :: (c ++ 10 :: (e ++ 10 :: Z))) =
      (10 :: b) ++ 10 :: (c ++ 10 :: (e ++ 10 :: Z)) := rfl
  rw [e1]
  apply lineFree_step t _ _ hnl (by rw [wrapper_eq] at hb; exact hb)
  have e2 : 10 :: (c ++ 10 :: (e ++ 10 :: Z)) = (10 :: c) ++ 10 :: (e ++ 10 :: Z) := rfl
  rw [e2]
  apply lineFree_step t _ _ hnl hc
  have e3 : 10 :: (e ++ 10 :: Z) = (10 :: e) ++ 10 :: Z := rfl
  rw [e3]
  exact lineFree_step t _ _ hnl (by rw [wrapper_eq] at he; exact he) hZ

theorem lineFree_segment (t b e c Z : Bytes) (hnl : 10 ∉ t) (h0 : t ≠ [])
    (hb : ¬ wrapper t <:+: wrapper b) (he : ¬ wrapper t <:+: wrapper e)
    (hc : ¬ wrapper t <:+: 10 :: (c ++ [10])) (hZ : ¬ wrapper t <:+: 10 :: Z) :
    ¬ wrapper t <:+: 10 :: (segment b e c ++ Z) := by
  have : 10 :: (segment b e c ++ Z) =
      [10] ++ 10 :: (b ++ 10 :: (c ++ 10 :: (e ++ 10 :: Z))) := by
    simp [segment, nl, List.append_assoc]
  rw [this]
  exact lineFree_step t _ _ hnl (wrapper_not_in_newlines t h0)
    (lineFree_body t b e c Z hnl hb he hc hZ)

/-- A wrapper does not occur in a first part followed by a segment and more, unless it ends
in the first part or at the newline after it, is one of the wrappers of the segment, stands
on a line of the content, or occurs in what follows. -/
theorem lineFree_prefix (t b e x c Z : Bytes) (hnl : 10 ∉ t)
    (hb : ¬ wrapper t <:+: wrapper b) (he : ¬ wrapper t <:+: wrapper e)
    (hx : ¬ wrapper t <:+: x ++ [10]) (hc : ¬ wrapper t <:+: 10 :: (c ++ [10]))
    (hZ : ¬ wrapper t <:+: 10 :: Z) :
    ¬ wrapper t <:+: x ++ (segment b e c ++ Z) := by
  have : x ++ (segment b e c ++ Z) = x ++ 10 :: (b ++ 10 :: (c ++ 10 :: (e ++ 10 :: Z))) := by
    simp [segment, nl, List.append_assoc]
  rw [this]
  exact lineFree_step t _ _ hnl hx (lineFree_body t b e c Z hnl hb he hc hZ)

theorem lineFree_segments (t b e : Bytes) (hnl : 10 ∉ t) (h0 : t ≠ [])
    (hb : ¬ wrapper t <:+: wrapper b) (he : ¬ wrapper t <:+: wrapper e) (Z : Bytes)
    (hZ : ¬ wrapper t <:+: 10 :: Z) :
    ∀ cs : List Bytes, (∀ c ∈ cs, ¬ wrapper t <:+: 10 :: (c ++ [10])) →
      ¬ wrapper t <:+: 10 :: (cs.flatMap (segment b e) ++ Z) := by
  intro cs
  induction cs with
  | nil => intro _; simpa using hZ
  | cons c rest ih =>
    intro hcs
    have : 10 :: ((c :: rest).flatMap (segment b e) ++ Z) =
        10 :: (segment b e c ++ (rest.flatMap (segment b e) ++ Z)) := by
      simp [List.append_assoc]
    rw [this]
    exact lineFree_segment t b e c _ hnl h0 hb he (hcs c (List.mem_cons_self _ _))
      (ih fun x hx => hcs x (List.mem_cons_of_mem _ hx))

theorem lineFree_iff (t x : Bytes) : LineFree t x ↔ ¬ wrapper t <:+: x :=
  firstIndex_eq_none_iff _ _

theorem assetSegments_eq_map (f : FS) (assets : List Bytes) :
    assetSegments f assets = (assets.map (fileBytes f)).flatMap (segment ASSET_START ASSET_END) := by
  induction assets with
  | nil => rfl
  | cons a rest ih =>
    have h1 : assetSegments f (a :: rest) =
        segment ASSET_START ASSET_END (fileBytes f a) ++ assetSegments f rest := by
      simp [assetSegments]
    rw [h1, ih]
    simp

theorem dataSegments_eq_map (f : FS) (o : BundleOptions) :
    dataSegments f o = ((presentData f o).map fun m => fileBytes f m.1).flatMap
      (segment DATA_FILE_START DATA_FILE_END) := by
  unfold dataSegments
  induction presentData f o with
  | nil => rfl
  | cons a rest ih => simp [ih]

/-- The reader applied to the expected layout. Each part is recovered when the markers the
reader looks for on its way to that part stand on no line of the contents it passes. -/
theorem expectedArtifact_round_trip (env : Env) (f : FS) (o : BundleOptions) :
    (LineFree MARKER (fileBytes f INTERPRETER_EXE ++ nl) →
      LineFree SCRIPT_END (fileBytes f o.kozak_file ++ nl) →
      (between MARKER SCRIPT_END (expectedArtifact env f o)).map Prod.fst =
        some (fileBytes f o.kozak_file)) ∧
    (LineFree ASSET_START (fileBytes f INTERPRETER_EXE ++ nl) →
      LineFree ASSET_START (nl ++ fileBytes f o.kozak_file ++ nl) →
      (∀ a ∈ collectAssets env f o.kozak_file, LineFree ASSET_END (fileBytes f a ++ nl)) →
      ∀ (i : Nat) (a : Bytes), (collectAssets env f o.kozak_file)[i]? = some a →
        nthBetween ASSET_START ASSET_END i (expectedArtifact env f o) = some (fileBytes f a)) ∧
    (LineFree DATA_FILE_START (fileBytes f INTERPRETER_EXE ++ nl) →
      LineFree DATA_FILE_START (nl ++ fileBytes f o.kozak_file ++ nl) →
      (∀ a ∈ collectAssets env f o.kozak_file,
        LineFree DATA_FILE_START (nl ++ fileBytes f a ++ nl)) →
      (∀ m ∈ presentData f o, LineFree DATA_FILE_END (fileBytes f m.1 ++ nl)) →
      ∀ (j : Nat) (m : Bytes × Bytes), (presentData f o)[j]? = some m →
        nthBetween DATA_FILE_START DATA_FILE_END j (expectedArtifact env f o) =
          some (fileBytes f m.1)) := by
  have n1 : (10 : Nat) ∉ MARKER := by decide
  have n2 : (10 : Nat) ∉ SCRIPT_END := by decide
  have n3 : (10 : Nat) ∉ ASSET_START := by decide
  have n4 : (10 : Nat) ∉ ASSET_END := by decide
  have n5 : (10 : Nat) ∉ DATA_FILE_START := by decide
  have n6 : (10 : Nat) ∉ DATA_FILE_END := by decide
  have z3 : ASSET_START ≠ [] := by decide
  have z5 : DATA_FILE_START ≠ [] := by decide
  have i1 : ¬ wrapper ASSET_START <:+: wrapper MARKER :=
    (firstIndex_eq_none_iff _ _).mp (by decide)
  have i2 : ¬ wrapper ASSET_START <:+: wrapper SCRIPT_END :=
    (firstIndex_eq_none_iff _ _).mp (by decide)
  have i3 : ¬ wrapper DATA_FILE_START <:+: wrapper MARKER :=
    (firstIndex_eq_none_iff _ _).mp (by decide)
  have i4 : ¬ wrapper DATA_FILE_START <:+: wrapper SCRIPT_END :=
    (firstIndex_eq_none_iff _ _).mp (by decide)
  have i5 : ¬ wrapper DATA_FILE_START <:+: wrapper ASSET_START :=
    (firstIndex_eq_none_iff _ _).mp (by decide)
  have i6 : ¬ wrapper DATA_FILE_START <:+: wrapper ASSET_END :=
    (firstIndex_eq_none_iff _ _).mp (by decide)
  refine ⟨?_, ?_, ?_⟩
  · intro hbase hscript
    have : expectedArtifact env f o = fileBytes f INTERPRETER_EXE ++
        (segment MARKER SCRIPT_END (fileBytes f o.kozak_file) ++
          (assetSegments f (collectAssets env f o.kozak_file) ++
            (if o.add_data.isEmpty then [] else dataSegments f o ++ manifestSegment f o))) := by
      simp [expectedArtifact, scriptSegment, List.append_assoc]
    rw [this, between_segment2 MARKER SCRIPT_END n1 n2 _ _ _ ((lineFree_iff _ _).mp hbase)
      ((lineFree_iff _ _).mp hscript)]
    rfl
  · intro hbase hscript hassets i a hi
    have : expectedArtifact env f o =
        (fileBytes f INTERPRETER_EXE ++ segment MARKER SCRIPT_END (fileBytes f o.kozak_file)) ++
        (((collectAssets env f o.kozak_file).map (fileBytes f)).flatMap
            (segment ASSET_START ASSET_END) ++
          (if o.add_data.isEmpty then [] else dataSegments f o ++ manifestSegment f o)) := by
      simp [expectedArtifact, scriptSegment, assetSegments_eq_map, List.append_assoc]
    rw [this]
    apply nthBetween_segments2 ASSET_START ASSET_END n3 n4
    · rw [List.getElem?_map, hi]; rfl
    · rw [List.append_assoc]
      exact lineFree_prefix ASSET_START MARKER SCRIPT_END _ _ [10] n3 i1 i2
        ((lineFree_iff _ _).mp hbase)
        (by simpa [nl] using (lineFree_iff _ _).mp hscript)
        (wrapper_not_in_newlines _ z3)
    · intro c hc
      obtain ⟨a, ha, rfl⟩ := List.mem_map.mp hc
      exact (lineFree_iff _ _).mp (hassets a ha)
  · intro hbase hscript hassets hdata j m hj
    have hne : o.add_data.isEmpty = false := by
      cases h : o.add_data.isEmpty
      · rfl
      · have : presentData f o = [] := by simp [presentData, List.isEmpty_iff.mp h]
        rw [this] at hj
        simp at hj
    have : expectedArtifact env f o =
        ((fileBytes f INTERPRETER_EXE ++ segment MARKER SCRIPT_END (fileBytes f o.kozak_file)) ++
          ((collectAssets env f o.kozak_file).map (fileBytes f)).flatMap
            (segment ASSET_START ASSET_END)) ++
        (((presentData f o).map fun m => fileBytes f m.1).flatMap
            (segment DATA_FILE_START DATA_FILE_END) ++ manifestSegment f o) := by
      simp [expectedArtifact, scriptSegment, assetSegments_eq_map, dataSegments_eq_map, hne,
        List.append_assoc]
    rw [this]
    apply nthBetween_segments2 DATA_FILE_START DATA_FILE_END n5 n6
    · rw [List.getElem?_map, hj]; rfl
    · rw [List.append_assoc, List.append_assoc]
      apply lineFree_prefix DATA_FILE_START MARKER SCRIPT_END _ _ _ n5 i3 i4
        ((lineFree_iff _ _).mp hbase)
        (by simpa [nl] using (lineFree_iff _ _).mp hscript)
      apply lineFree_segments DATA_FILE_START ASSET_START ASSET_END n5 z5 i5 i6 [10]
        (wrapper_not_in_newlines _ z5)
      intro c hc
      obtain ⟨a, ha, rfl⟩ := List.mem_map.mp hc
      simpa [nl] using (lineFree_iff _ _).mp (hassets a ha)
    · intro c hc
      obtain ⟨a, ha, rfl⟩ := List.mem_map.mp hc
      exact (lineFree_iff _ _).mp (hdata a ha)

/-! ## Reading manifests -/

theorem dropLiteral_append (lit s : Bytes) : dropLiteral lit (lit ++ s) = some s := by
  unfold dropLiteral
  have : lit.isPrefixOf (lit ++ s) = true :=
    List.isPrefixOf_iff_prefix.mpr (List.prefix_append _ _)
  simp [this]

theorem readString_append (x s : Bytes) (h : 34 ∉ x) :
    readString (x ++ 34 :: s) = (x, 34 :: s) := by
  induction x with
  | nil => simp [readString]
  | cons c cs ih =>
    have hc : c ≠ 34 := fun hc => h (by simp [hc])
    have hcs : 34 ∉ cs := fun hcs => h (List.mem_cons_of_mem _ hcs)
    simp [readString, hc, ih hcs]

theorem readDigits_digit (acc d : Nat) (rest : Bytes) (hd : d < 10) :
    readDigits acc ((48 + d) :: rest) = readDigits (10 * acc + d) rest := by
  rw [readDigits]
  have : 48 ≤ 48 + d ∧ 48 + d ≤ 57 := by omega
  simp [this]

theorem readDigits_decimal (fuel : Nat) :
    ∀ (n : Nat) (rest : Bytes), n < fuel →
      readDigits 0 (decimal fuel n ++ rest) = readDigits n rest := by
  induction fuel with
  | zero => intro n rest h; omega
  | succ k ih =>
    intro n rest h
    unfold decimal
    by_cases hn : n < 10
    · simp only [hn, if_true, List.singleton_append]
      rw [readDigits_digit 0 n rest hn]
      simp
    · simp only [hn, if_false, List.append_assoc, List.singleton_append]
      have hk : n / 10 < k := by omega
      rw [ih (n / 10) _ hk, readDigits_digit _ _ _ (Nat.mod_lt n (by norm_num))]
      have : 10 * (n / 10) + n % 10 = n := Nat.div_add_mod n 10
      rw [this]

theorem readDigits_to_string (n c : Nat) (s : Bytes) (hc : ¬ (48 ≤ c ∧ c ≤ 57)) :
    readDigits 0 (to_string n ++ c :: s) = (n, c :: s) := by
  unfold to_string
  rw [readDigits_decimal (n + 1) n _ (by omega), readDigits]
  simp [hc]

theorem lit_size : str "\",\"size\":" = 34 :: [44, 34, 115, 105, 122, 101, 34, 58] := by decide

theorem lit_original : str ",\"original\":\"" =
    44 :: [34, 111, 114, 105, 103, 105, 110, 97, 108, 34, 58, 34] := by decide

theorem lit_close : str "\"\x7d" = 34 :: [125] := by decide

theorem lit_open : str "\n  \x7b\"destination\":\"" =
    10 :: 32 :: [32, 123, 34, 100, 101, 115, 116, 105, 110, 97, 116, 105, 111, 110, 34, 58, 34] := by
  decide

/-- A rendered record whose string fields hold no double quote is read back. -/
theorem readRecord_manifestRecord (dst src : Bytes) (n : Nat) (rest : Bytes)
    (hd : 34 ∉ dst) (hs : 34 ∉ src) :
    readRecord (manifestRecord dst n src ++ rest) = some ((dst, n, src), rest) := by
  have e : manifestRecord dst n src ++ rest =
      str "\n  \x7b\"destination\":\"" ++ (dst ++ (str "\",\"size\":" ++ (to_string n ++
        (str ",\"original\":\"" ++ (src ++ (str "\"\x7d" ++ rest)))))) := by
    simp [manifestRecord, List.append_assoc]
  have r1 : readString (dst ++ (str "\",\"size\":" ++ (to_string n ++
        (str ",\"original\":\"" ++ (src ++ (str "\"\x7d" ++ rest)))))) =
      (dst, str "\",\"size\":" ++ (to_string n ++
        (str ",\"original\":\"" ++ (src ++ (str "\"\x7d" ++ rest))))) := by
    rw [lit_size]
    exact readString_append dst _ hd
  have r2 : readDigits 0 (to_string n ++
        (str ",\"original\":\"" ++ (src ++ (str "\"\x7d" ++ rest)))) =
      (n, str ",\"original\":\"" ++ (src ++ (str "\"\x7d" ++ rest))) := by
    rw [lit_original]
    exact readDigits_to_string n 44 _ (by omega)
  have r3 : readString (src ++ (str "\"\x7d" ++ rest)) = (src, str "\"\x7d" ++ rest) := by
    rw [lit_close]
    exact readString_append src _ hs
  unfold readRecord
  rw [e, dropLiteral_append]
  simp only [r1, dropLiteral_append, r2, r3]

theorem manifestRecord_head (dst src : Bytes) (n : Nat) (rest : Bytes) :
    ∃ Y, manifestRecord dst n src ++ rest = 10 :: 32 :: Y := by
  have e : manifestRecord dst n src ++ rest =
      str "\n  \x7b\"destination\":\"" ++ (dst ++ (str "\",\"size\":" ++ (to_string n ++
        (str ",\"original\":\"" ++ (src ++ (str "\"\x7d" ++ rest)))))) := by
    simp [manifestRecord, List.append_assoc]
  rw [e, lit_open]
  exact ⟨_, rfl⟩

theorem closing_eq : str "\n]" = [10, 93] := by decide

theorem comma_eq : str "," = [44] := by decide

/-- The records after the first one are read back, given one unit of fuel per record. -/
theorem readMore_render (rs : List (Bytes × Nat × Bytes)) :
    ∀ fuel : Nat, rs.length < fuel → (∀ r ∈ rs, 34 ∉ r.1 ∧ 34 ∉ r.2.2) →
      readMore fuel ((rs.map fun r => manifestRecord r.1 r.2.1 r.2.2).flatMap
        (fun x => str "," ++ x) ++ str "\n]") = some rs := by
  induction rs with
  | nil =>
    intro fuel hf _
    cases fuel with
    | zero => omega
    | succ k => simp [readMore]
  | cons r rest ih =>
    intro fuel hf hq
    cases fuel with
    | zero => omega
    | succ k =>
      have e : ((r :: rest).map fun r => manifestRecord r.1 r.2.1 r.2.2).flatMap
          (fun x => str "," ++ x) ++ str "\n]" =
          str "," ++ (manifestRecord r.1 r.2.1 r.2.2 ++
            ((rest.map fun r => manifestRecord r.1 r.2.1 r.2.2).flatMap
              (fun x => str "," ++ x) ++ str "\n]")) := by
        simp [List.append_assoc]
      have hne : str "," ++ (manifestRecord r.1 r.2.1 r.2.2 ++
            ((rest.map fun r => manifestRecord r.1 r.2.1 r.2.2).flatMap
              (fun x => str "," ++ x) ++ str "\n]")) ≠ str "\n]" := by
        rw [comma_eq, closing_eq]
        simp
      obtain ⟨h1, h2⟩ := hq r (List.mem_cons_self _ _)
      rw [e]
      unfold readMore
      simp only [hne, if_false, dropLiteral_append, readRecord_manifestRecord _ _ _ _ h1 h2]
      rw [ih k (by simpa using hf) (fun x hx => hq x (List.mem_cons_of_mem _ hx))]
      rfl

theorem flatMap_comma_length (l : List Bytes) :
    l.length ≤ (l.flatMap (fun x => str "," ++ x)).length := by
  induction l with
  | nil => simp
  | cons a t ih =>
    have h1 : (str ",").length = 1 := by decide
    simp only [List.flatMap_cons, List.length_append, List.length_cons, h1]
    omega

/-- A manifest body whose string fields hold no double quote is read back. -/
theorem readManifest_manifestBody (recs : List (Bytes × Nat × Bytes))
    (hq : ∀ r ∈ recs, 34 ∉ r.1 ∧ 34 ∉ r.2.2) :
    readManifest (manifestBody recs) = some recs := by
  cases recs with
  | nil =>
    have : manifestBody [] = str "[" ++ str "\n]" := by simp [manifestBody, commaSep]
    unfold readManifest
    rw [this, dropLiteral_append]
    simp
  | cons r rest =>
    have e : manifestBody (r :: rest) = str "[" ++ (manifestRecord r.1 r.2.1 r.2.2 ++
        ((rest.map fun r => manifestRecord r.1 r.2.1 r.2.2).flatMap
          (fun x => str "," ++ x) ++ str "\n]")) := by
      simp [manifestBody, commaSep, List.append_assoc]
    have hlen : rest.length < (manifestBody (r :: rest)).length := by
      rw [e]
      have := flatMap_comma_length (rest.map fun r => manifestRecord r.1 r.2.1 r.2.2)
      simp only [List.length_map] at this
      simp only [List.length_append]
      have h2 : (str "[").length = 1 := by decide
      omega
    obtain ⟨Y, hY⟩ := manifestRecord_head r.1 r.2.2 r.2.1
      ((rest.map fun r => manifestRecord r.1 r.2.1 r.2.2).flatMap
          (fun x => str "," ++ x) ++ str "\n]")
    have hne : manifestRecord r.1 r.2.1 r.2.2 ++
        ((rest.map fun r => manifestRecord r.1 r.2.1 r.2.2).flatMap
          (fun x => str "," ++ x) ++ str "\n]") ≠ str "\n]" := by
      rw [hY, closing_eq]
      simp
    obtain ⟨h1, h2⟩ := hq r (List.mem_cons_self _ _)
    unfold readManifest
    rw [e, dropLiteral_append]
    simp only [hne, if_false, readRecord_manifestRecord _ _ _ _ h1 h2]
    rw [← e, readMore_render rest _ hlen (fun x hx => hq x (List.mem_cons_of_mem _ hx))]
    rfl

/-! ## `applyIconNative` -/

theorem sizeof_ICONDIR_eq : sizeof_ICONDIR = 6 := by decide
theorem sizeof_ICONDIRENTRY_eq : sizeof_ICONDIRENTRY = 16 := by decide
theorem sizeof_GRPICONDIR_eq : sizeof_GRPICONDIR = 6 := by decide
theorem sizeof_GRPICONDIRENTRY_eq : sizeof_GRPICONDIRENTRY = 16 := by decide

/-- A read that the file can satisfy fills the whole buffer and leaves the stream good. -/
theorem IStream.read_enough (st : IStream) (buf : Bytes) (n : Nat) (hf : st.fail = false)
    (hlen : st.pos + n ≤ st.data.length) (hb : buf.length = n) :
    st.read buf n = ((st.data.drop st.pos).take n, ⟨st.data, st.pos + n, false⟩) := by
  have hg : ((st.data.drop st.pos).take n).length = n := by
    rw [List.length_take, List.length_drop]
    omega
  unfold IStream.read
  simp only [hf, Bool.false_eq_true, if_false, hg, lt_irrefl, decide_False]
  rw [← hb, List.drop_length, List.append_nil]

theorem u8_take (m : Bytes) (n i : Nat) (h : i < n) : u8 (m.take n) i = u8 m i := by
  unfold u8
  congr 1
  simp only [List.getD_eq_getElem?_getD, List.getElem?_take, h, if_true]

theorem u16_take (m : Bytes) (n i : Nat) (h : i + 1 < n) : u16 (m.take n) i = u16 m i := by
  unfold u16
  rw [u8_take m n i (by omega), u8_take m n (i + 1) h]

theorem u8_drop (m : Bytes) (d i : Nat) : u8 (m.drop d) i = u8 m (d + i) := by
  unfold u8
  congr 1
  simp only [List.getD_eq_getElem?_getD, List.getElem?_drop]

/-- The header that `applyIconNative` checks, for a file of at least six bytes. -/
theorem header_of_file (uninit bytes : Bytes) (hlen : 6 ≤ bytes.length) :
    ((⟨bytes, 0, false⟩ : IStream).read (uninit.take sizeof_ICONDIR ++
      List.replicate (sizeof_ICONDIR - uninit.length) 0) sizeof_ICONDIR) =
    (bytes.take 6, ⟨bytes, 6, false⟩) := by
  rw [IStream.read_enough _ _ _ rfl (by simpa [sizeof_ICONDIR_eq] using hlen)]
  · simp [sizeof_ICONDIR_eq]
  · simp only [List.length_append, List.length_take, List.length_replicate, sizeof_ICONDIR_eq]
    omega

theorem readICONDIR_take (bytes : Bytes) :
    readICONDIR (bytes.take 6) = ⟨u16 bytes 0, u16 bytes 2, u16 bytes 4⟩ := by
  unfold readICONDIR
  rw [u16_take _ _ _ (by omega), u16_take _ _ _ (by omega), u16_take _ _ _ (by omega)]

/-- What the loop appends to `group_data`: the entries for the indices `i, …, i + n - 1`. -/
theorem iconLoop_groupEntries (api : WinApi) (entries : Bytes) :
    ∀ (n i : Nat) (st : LoopState),
      (iconLoop api entries n i st).groupEntries = st.groupEntries ++
        (List.range' i n).flatMap fun j =>
          writeGRPICONDIRENTRY (readICONDIRENTRY entries 0 j) ((j + 1) % 65536) := by
  intro n
  induction n with
  | zero => intro i st; simp [iconLoop]
  | succ k ih =>
    intro i st
    rw [iconLoop, ih]
    simp [iconLoopBody, List.range'_succ, List.append_assoc]

/-- The loop only adds `UpdateResourceW` calls for resource type 3. -/
theorem iconLoop_calls (api : WinApi) (entries : Bytes) :
    ∀ (n i : Nat) (st : LoopState),
      ∃ added : List Call, (iconLoop api entries n i st).calls = st.calls ++ added ∧
        ∀ c ∈ added, ∃ id d, c = Call.UpdateResourceW 3 id d := by
  intro n
  induction n with
  | zero => intro i st; exact ⟨[], by simp [iconLoop], by simp⟩
  | succ k ih =>
    intro i st
    obtain ⟨added, h1, h2⟩ := ih (i + 1) (iconLoopBody api entries i st)
    refine ⟨Call.UpdateResourceW 3 ((i + 1) % 65536)
      (((st.ico_file.seekg (readICONDIRENTRY entries 0 i).dwImageOffset).read
        (List.replicate (readICONDIRENTRY entries 0 i).dwBytesInRes 0)
        (readICONDIRENTRY entries 0 i).dwBytesInRes).1) :: added, ?_, ?_⟩
    · rw [iconLoop, h1]
      simp [iconLoopBody]
    · intro c hc
      rcases List.mem_cons.mp hc with rfl | hc
      · exact ⟨_, _, rfl⟩
      · exact h2 c hc

/-- Byte `k` of chunk `i` in a run of chunks of equal size. -/
theorem getD_flatMap_chunks {α : Type} (g : α → Bytes) (sz : Nat)
    (hsz : ∀ a, (g a).length = sz) :
    ∀ (l : List α) (i : Nat) (a : α) (k : Nat), l[i]? = some a → k < sz →
      (l.flatMap g).getD (sz * i + k) 0 = (g a).getD k 0 := by
  intro l
  induction l with
  | nil => intro i a k h; simp at h
  | cons x rest ih =>
    intro i a k h hk
    cases i with
    | zero =>
      simp only [List.getElem?_cons_zero, Option.some.injEq] at h
      subst h
      simp only [List.flatMap_cons, Nat.mul_zero, Nat.zero_add, List.getD_eq_getElem?_getD]
      rw [List.getElem?_append_left (by rw [hsz]; exact hk)]
    | succ j =>
      simp only [List.getElem?_cons_succ] at h
      have := ih j a k h hk
      simp only [List.flatMap_cons, List.getD_eq_getElem?_getD] at this ⊢
      rw [List.getElem?_append_right (by rw [hsz]; nlinarith), hsz, ← this]
      congr 2
      rw [Nat.mul_succ]
      omega

theorem writeGRPICONDIRENTRY_length (e : ICONDIRENTRY) (id : Nat) :
    (writeGRPICONDIRENTRY e id).length = 16 := by
  simp [writeGRPICONDIRENTRY, le16, le32, sizeof_GRPICONDIRENTRY_eq]

theorem u8_lt (m : Bytes) (i : Nat) : u8 m i < 256 := Nat.mod_lt _ (by norm_num)

theorem u16_lt (m : Bytes) (i : Nat) : u16 m i < 65536 := by
  have := u8_lt m i
  have := u8_lt m (i + 1)
  unfold u16
  omega

theorem u32_lt (m : Bytes) (i : Nat) : u32 m i < 4294967296 := by
  have := u8_lt m i
  have := u8_lt m (i + 1)
  have := u8_lt m (i + 2)
  have := u8_lt m (i + 3)
  unfold u32
  omega

theorem u8_append_right (h x : Bytes) (i : Nat) : u8 (h ++ x) (h.length + i) = u8 x i := by
  unfold u8
  congr 1
  simp only [List.getD_eq_getElem?_getD]
  rw [List.getElem?_append_right (by omega)]
  congr 2
  omega

/-- A group entry read back from the bytes written for it. -/
theorem read_writeGRPICONDIRENTRY (e : ICONDIRENTRY) (id : Nat) :
    readGRPICONDIRENTRY (writeGRPICONDIRENTRY e id) 0 0 =
      ⟨e.bWidth % 256, e.bHeight % 256, e.bColorCount % 256, e.bReserved % 256,
        e.wPlanes % 65536, e.wBitCount % 65536, e.dwBytesInRes % 4294967296, id % 65536⟩ := by
  simp only [readGRPICONDIRENTRY, writeGRPICONDIRENTRY, u8, u16, u32, le16, le32,
    sizeof_GRPICONDIRENTRY_eq, GRPICONDIRENTRY.mk.injEq, Nat.mul_zero, Nat.zero_add,
    Nat.add_zero, List.cons_append, List.nil_append, List.getD_cons_zero, List.getD_cons_succ]
  refine ⟨?_, ?_, ?_, ?_, ?_, ?_, ?_, ?_⟩ <;> omega

/-- Reading element `i` of the entry array of a buffer made of a header and chunks. -/
theorem readGRPICONDIRENTRY_chunks (hdr : Bytes) (g : Nat → Bytes)
    (hg : ∀ j, (g j).length = 16) (n i : Nat) (hi : i < n) :
    readGRPICONDIRENTRY (hdr ++ (List.range' 0 n).flatMap g) hdr.length i =
      readGRPICONDIRENTRY (g i) 0 0 := by
  have key : ∀ k, k < 16 →
      u8 (hdr ++ (List.range' 0 n).flatMap g) (hdr.length + 16 * i + k) = u8 (g i) k := by
    intro k hk
    rw [Nat.add_assoc, u8_append_right]
    unfold u8
    rw [getD_flatMap_chunks g 16 hg (List.range' 0 n) i i k (by simp [List.getElem?_range', hi]) hk]
  have k0 := key 0 (by norm_num)
  simp only [Nat.add_zero] at k0
  simp only [readGRPICONDIRENTRY, u16, u32, sizeof_GRPICONDIRENTRY_eq, Nat.mul_zero,
    Nat.zero_add, Nat.add_zero, Nat.add_assoc, Nat.reduceAdd, GRPICONDIRENTRY.mk.injEq]
  simp only [← Nat.add_assoc]
  refine ⟨?_, ?_, ?_, ?_, ?_, ?_, ?_, ?_⟩ <;>
    simp only [k0, key 1 (by norm_num), key 2 (by norm_num), key 3 (by norm_num),
      key 4 (by norm_num), key 5 (by norm_num), key 6 (by norm_num), key 7 (by norm_num),
      key 8 (by norm_num), key 9 (by norm_num), key 10 (by norm_num), key 11 (by norm_num),
      key 12 (by norm_num), key 13 (by norm_num)]

/-- The directory entries `applyIconNative` holds are those of the file, when the file has
room for all of them. -/
theorem readICONDIRENTRY_file (bytes : Bytes) (n i : Nat) (hi : i < n) :
    readICONDIRENTRY ((bytes.drop 6).take (16 * n)) 0 i = readICONDIRENTRY bytes 6 i := by
  have key : ∀ k, k < 16 →
      u8 ((bytes.drop 6).take (16 * n)) (16 * i + k) = u8 bytes (6 + 16 * i + k) := by
    intro k hk
    rw [u8_take _ _ _ (by omega), u8_drop]
    congr 1
    omega
  have k0 := key 0 (by norm_num)
  simp only [Nat.add_zero] at k0
  simp only [readICONDIRENTRY, u16, u32, sizeof_ICONDIRENTRY_eq, Nat.zero_add,
    Nat.add_assoc, Nat.reduceAdd, ICONDIRENTRY.mk.injEq]
  simp only [← Nat.add_assoc]
  refine ⟨?_, ?_, ?_, ?_, ?_, ?_, ?_, ?_⟩ <;>
    simp only [k0, key 1 (by norm_num), key 2 (by norm_num), key 3 (by norm_num),
      key 4 (by norm_num), key 5 (by norm_num), key 6 (by norm_num), key 7 (by norm_num),
      key 8 (by norm_num), key 9 (by norm_num), key 10 (by norm_num), key 11 (by norm_num),
      key 12 (by norm_num), key 13 (by norm_num), key 14 (by norm_num), key 15 (by norm_num)]

/-! ## The paths through `applyIconNative` -/

/-- The icon handle could not be loaded: one call, failure. -/
theorem applyIconNative_no_icon (api : WinApi) (uninit : Bytes) (f : FS)
    (exe_path icon_path : Bytes) (hload : api.loadImage = false) :
    applyIconNative api uninit f exe_path icon_path = (false, [Call.LoadImageW icon_path]) := by
  simp [applyIconNative, hload]

/-- The update session could not be opened. -/
theorem applyIconNative_no_session (api : WinApi) (uninit : Bytes) (f : FS)
    (exe_path icon_path : Bytes) (hload : api.loadImage = true)
    (hbegin : api.beginUpdate = false) :
    applyIconNative api uninit f exe_path icon_path =
      (false, [Call.LoadImageW icon_path, Call.BeginUpdateResourceW exe_path,
        Call.DestroyIcon]) := by
  simp [applyIconNative, hload, hbegin]

/-- The icon file could not be opened: the session is discarded. -/
theorem applyIconNative_unreadable (api : WinApi) (uninit : Bytes) (f : FS)
    (exe_path icon_path : Bytes) (hload : api.loadImage = true)
    (hbegin : api.beginUpdate = true) (hopen : openRead f icon_path = none) :
    applyIconNative api uninit f exe_path icon_path =
      (false, [Call.LoadImageW icon_path, Call.BeginUpdateResourceW exe_path,
        Call.EndUpdateResourceW true, Call.DestroyIcon]) := by
  simp [applyIconNative, hload, hbegin, hopen]

/-- The header check fails: the session is discarded. -/
theorem applyIconNative_rejected (api : WinApi) (uninit : Bytes) (f : FS)
    (exe_path icon_path bytes : Bytes) (hload : api.loadImage = true)
    (hbegin : api.beginUpdate = true) (hopen : openRead f icon_path = some bytes)
    (hrej : headerAccepted uninit bytes = false) :
    applyIconNative api uninit f exe_path icon_path =
      (false, [Call.LoadImageW icon_path, Call.BeginUpdateResourceW exe_path,
        Call.EndUpdateResourceW true, Call.DestroyIcon]) := by
  have h : ((decodedHeader uninit bytes).idReserved != 0 ||
      (decodedHeader uninit bytes).idType != 1) = true := by
    unfold headerAccepted at hrej
    cases hx : ((decodedHeader uninit bytes).idReserved != 0 ||
      (decodedHeader uninit bytes).idType != 1)
    · rw [hx] at hrej; cases hrej
    · rfl
  simp only [decodedHeader, readHeader] at h
  unfold applyIconNative
  simp only [hload, hbegin, hopen, h]
  simp

/-- The header check passes: the loop runs, the group is registered, the session is
committed; the result is success when every call succeeded. -/
theorem applyIconNative_accepted (api : WinApi) (uninit : Bytes) (f : FS)
    (exe_path icon_path bytes : Bytes) (hload : api.loadImage = true)
    (hbegin : api.beginUpdate = true) (hopen : openRead f icon_path = some bytes)
    (hacc : headerAccepted uninit bytes = true) :
    applyIconNative api uninit f exe_path icon_path =
      (api.endUpdate && (api.updateResource 14 1 (groupData api uninit exe_path icon_path bytes)
          && (loopResult api uninit exe_path icon_path bytes).success),
        (loopResult api uninit exe_path icon_path bytes).calls ++
          [Call.UpdateResourceW 14 1 (groupData api uninit exe_path icon_path bytes),
            Call.EndUpdateResourceW false, Call.DestroyIcon]) := by
  have h : ((decodedHeader uninit bytes).idReserved != 0 ||
      (decodedHeader uninit bytes).idType != 1) = false := by
    unfold headerAccepted at hacc
    cases hx : ((decodedHeader uninit bytes).idReserved != 0 ||
      (decodedHeader uninit bytes).idType != 1)
    · rfl
    · rw [hx] at hacc; cases hacc
  simp only [decodedHeader, readHeader] at h
  unfold applyIconNative
  simp only [hload, hbegin, hopen, h]
  simp only [groupData, loopResult, readEntries, decodedHeader, readHeader]
  cases api.endUpdate <;> cases api.updateResource 14 1 _ <;> simp

/-- The calls of the loop: load, begin, then registrations only. -/
theorem loopResult_calls (api : WinApi) (uninit exe_path icon_path bytes : Bytes) :
    ∃ regs : List Call,
      (loopResult api uninit exe_path icon_path bytes).calls =
        [Call.LoadImageW icon_path, Call.BeginUpdateResourceW exe_path] ++ regs ∧
      ∀ c ∈ regs, ∃ id d, c = Call.UpdateResourceW 3 id d := by
  obtain ⟨added, h1, h2⟩ := iconLoop_calls api (readEntries uninit bytes).1
    (decodedHeader uninit bytes).idCount 0
    ⟨(readEntries uninit bytes).2, true,
      [Call.LoadImageW icon_path] ++ [Call.BeginUpdateResourceW exe_path], []⟩
  exact ⟨added, by rw [loopResult, h1]; rfl, h2⟩

/-- In a list that splits into a part without end-of-session calls and a part without
registrations, nothing is registered after an end-of-session call. -/
theorem no_update_after_end (A B : List Call) (hA : ∀ d, Call.EndUpdateResourceW d ∉ A)
    (hB : ∀ t id data, Call.UpdateResourceW t id data ∉ B) :
    ∀ (pre : List Call) (d : Bool) (post : List Call),
      A ++ B = pre ++ Call.EndUpdateResourceW d :: post →
      ∀ t id data, Call.UpdateResourceW t id data ∉ post := by
  intro pre d post h t id data hm
  rw [List.append_eq_append_iff] at h
  rcases h with ⟨a, _, hB2⟩ | ⟨c, hA2, hc⟩
  · apply hB t id data
    rw [hB2]
    simp [hm]
  · cases c with
    | nil =>
      simp only [List.nil_append] at hc
      apply hB t id data
      rw [← hc]
      exact List.mem_cons_of_mem _ hm
    | cons c0 c1 =>
      simp only [List.cons_append, List.cons.injEq] at hc
      apply hA d
      rw [hA2, ← hc.1]
      simp

/-! ## Icon files with a valid header and room for the directory -/

theorem readHeader_file (uninit bytes : Bytes) (hlen : 6 ≤ bytes.length) :
    readHeader uninit bytes = (bytes.take 6, ⟨bytes, 6, false⟩) := by
  rw [readHeader, header_of_file uninit bytes hlen]

theorem decodedHeader_file (uninit bytes : Bytes) (hlen : 6 ≤ bytes.length) :
    decodedHeader uninit bytes = ⟨u16 bytes 0, u16 bytes 2, u16 bytes 4⟩ := by
  rw [decodedHeader, readHeader_file uninit bytes hlen, readICONDIR_take]

theorem headerAccepted_file (uninit bytes : Bytes) (hlen : 6 ≤ bytes.length)
    (hres : u16 bytes 0 = 0) (htype : u16 bytes 2 = 1) : headerAccepted uninit bytes = true := by
  rw [headerAccepted, decodedHeader_file uninit bytes hlen, hres, htype]
  rfl

theorem readEntries_file (uninit bytes : Bytes) (N : Nat) (hcount : u16 bytes 4 = N)
    (hlen : 6 + 16 * N ≤ bytes.length) :
    readEntries uninit bytes = ((bytes.drop 6).take (16 * N), ⟨bytes, 6 + 16 * N, false⟩) := by
  have h6 : 6 ≤ bytes.length := by omega
  rw [readEntries, decodedHeader_file uninit bytes h6, readHeader_file uninit bytes h6]
  simp only [hcount, sizeof_ICONDIRENTRY_eq]
  rw [IStream.read_enough _ _ _ rfl hlen (by simp)]

/-- One image read of the loop, when the image lies inside the file. -/
theorem image_read (st : IStream) (bytes : Bytes) (off size : Nat) (hd : st.data = bytes)
    (hf : st.fail = false) (hin : off + size ≤ bytes.length) :
    (st.seekg off).read (List.replicate size 0) size =
      ((bytes.drop off).take size, ⟨bytes, off + size, false⟩) := by
  have hs : st.seekg off = ⟨bytes, off, false⟩ := by
    unfold IStream.seekg
    rw [hf]
    simp [hd, hf]
  rw [hs, IStream.read_enough _ _ _ rfl hin (by simp)]

/-- The loop on a good stream whose images lie inside the file: the registrations it makes
and the flag it leaves. -/
theorem iconLoop_wellformed (api : WinApi) (entries bytes : Bytes) :
    ∀ (n i : Nat) (st : LoopState), st.ico_file.data = bytes → st.ico_file.fail = false →
      (∀ j, i ≤ j → j < i + n →
        (readICONDIRENTRY entries 0 j).dwImageOffset +
          (readICONDIRENTRY entries 0 j).dwBytesInRes ≤ bytes.length) →
      (iconLoop api entries n i st).calls = st.calls ++ (List.range' i n).map (fun j =>
        Call.UpdateResourceW 3 ((j + 1) % 65536) (imageBytes bytes (readICONDIRENTRY entries 0 j))) ∧
      (iconLoop api entries n i st).success = (st.success && (List.range' i n).all (fun j =>
        api.updateResource 3 ((j + 1) % 65536) (imageBytes bytes (readICONDIRENTRY entries 0 j)))) := by
  intro n
  induction n with
  | zero => intro i st _ _ _; simp [iconLoop]
  | succ k ih =>
    intro i st hd hf hin
    have hr := image_read st.ico_file bytes _ _ hd hf (hin i (le_refl i) (by omega))
    have hbody : iconLoopBody api entries i st =
        ⟨⟨bytes, (readICONDIRENTRY entries 0 i).dwImageOffset +
            (readICONDIRENTRY entries 0 i).dwBytesInRes, false⟩,
          (if api.updateResource 3 ((i + 1) % 65536) (imageBytes bytes (readICONDIRENTRY entries 0 i))
            then st.success else false),
          st.calls ++ [Call.UpdateResourceW 3 ((i + 1) % 65536) (imageBytes bytes (readICONDIRENTRY entries 0 i))],
          st.groupEntries ++
            writeGRPICONDIRENTRY (readICONDIRENTRY entries 0 i) ((i + 1) % 65536)⟩ := by
      simp only [iconLoopBody, hr, imageBytes]
    obtain ⟨h1, h2⟩ := ih (i + 1) (iconLoopBody api entries i st) (by rw [hbody])
      (by rw [hbody]) (fun j hj1 hj2 => hin j (by omega) (by omega))
    rw [iconLoop, h1, h2, hbody]
    constructor
    · simp [List.range'_succ]
    · simp only [List.range'_succ, List.all_cons]
      cases api.updateResource 3 ((i + 1) % 65536) (imageBytes bytes (readICONDIRENTRY entries 0 i)) <;>
        cases st.success <;> simp

theorem flatMap_congr_mem {α β : Type} (f g : α → List β) :
    ∀ l : List α, (∀ a ∈ l, f a = g a) → l.flatMap f = l.flatMap g := by
  intro l
  induction l with
  | nil => intro _; rfl
  | cons x rest ih =>
    intro h
    rw [List.flatMap_cons, List.flatMap_cons, h x (List.mem_cons_self _ _),
      ih fun a ha => h a (List.mem_cons_of_mem _ ha)]

theorem flatMap_chunks_length {α : Type} (g : α → Bytes) (sz : Nat)
    (hsz : ∀ a, (g a).length = sz) : ∀ l : List α, (l.flatMap g).length = sz * l.length := by
  intro l
  induction l with
  | nil => simp
  | cons x rest ih =>
    rw [List.flatMap_cons, List.length_append, ih, hsz, List.length_cons, Nat.mul_succ]
    omega

/-- Chunk `i` of a run of chunks of equal size. -/
theorem drop_take_flatMap_chunks {α : Type} (g : α → Bytes) (sz : Nat)
    (hsz : ∀ a, (g a).length = sz) :
    ∀ (l : List α) (i : Nat) (a : α), l[i]? = some a →
      ((l.flatMap g).drop (sz * i)).take sz = g a := by
  intro l
  induction l with
  | nil => intro i a h; simp at h
  | cons x rest ih =>
    intro i a h
    cases i with
    | zero =>
      simp only [List.getElem?_cons_zero, Option.some.injEq] at h
      subst h
      rw [Nat.mul_zero, List.drop_zero, List.flatMap_cons, ← hsz x, List.take_left]
    | succ j =>
      simp only [List.getElem?_cons_succ] at h
      have hd : sz * (j + 1) = (g x).length + sz * j := by rw [hsz, Nat.mul_succ]; omega
      rw [List.flatMap_cons, hd, List.drop_append]
      exact ih j a h

/-- The group buffer that `applyIconNative` builds for a file with room for the directory
its header announces. -/
theorem groupData_file (api : WinApi) (uninit exe_path icon_path bytes : Bytes) (N : Nat)
    (hcount : u16 bytes 4 = N) (hlen : 6 + 16 * N ≤ bytes.length) :
    groupData api uninit exe_path icon_path bytes = le16 0 ++ le16 1 ++ le16 N ++
      (List.range' 0 N).flatMap fun j =>
        writeGRPICONDIRENTRY (readICONDIRENTRY bytes 6 j) (j + 1) := by
  have hN : N < 65536 := by rw [← hcount]; exact u16_lt bytes 4
  have h6 : 6 ≤ bytes.length := by omega
  rw [groupData, loopResult, iconLoop_groupEntries, readEntries_file uninit bytes N hcount hlen,
    decodedHeader_file uninit bytes h6]
  simp only [hcount, List.nil_append]
  congr 1
  apply flatMap_congr_mem
  intro j hj
  have hj2 : j < N := by
    have := List.mem_range'.mp hj
    omega
  rw [readICONDIRENTRY_file bytes N j hj2, Nat.mod_eq_of_lt (by omega)]

/-- Entry `i` of the buffer of `groupData_file`, seen through `GRPICONDIRENTRY`. -/
theorem groupEntry_file (bytes : Bytes) (N i : Nat) (hi : i < N) (hN : N < 65536) :
    readGRPICONDIRENTRY (le16 0 ++ le16 1 ++ le16 N ++ (List.range' 0 N).flatMap fun j =>
        writeGRPICONDIRENTRY (readICONDIRENTRY bytes 6 j) (j + 1)) 6 i =
      ⟨(readICONDIRENTRY bytes 6 i).bWidth, (readICONDIRENTRY bytes 6 i).bHeight,
        (readICONDIRENTRY bytes 6 i).bColorCount, (readICONDIRENTRY bytes 6 i).bReserved,
        (readICONDIRENTRY bytes 6 i).wPlanes, (readICONDIRENTRY bytes 6 i).wBitCount,
        (readICONDIRENTRY bytes 6 i).dwBytesInRes, i + 1⟩ := by
  have := readGRPICONDIRENTRY_chunks (le16 0 ++ le16 1 ++ le16 N)
    (fun j => writeGRPICONDIRENTRY (readICONDIRENTRY bytes 6 j) (j + 1))
    (fun j => writeGRPICONDIRENTRY_length _ _) N i hi
  have hhdr : (le16 0 ++ le16 1 ++ le16 N).length = 6 := by simp [le16]
  rw [hhdr] at this
  rw [this, read_writeGRPICONDIRENTRY]
  simp only [readICONDIRENTRY, GRPICONDIRENTRY.mk.injEq]
  refine ⟨Nat.mod_eq_of_lt (u8_lt _ _), Nat.mod_eq_of_lt (u8_lt _ _),
    Nat.mod_eq_of_lt (u8_lt _ _), Nat.mod_eq_of_lt (u8_lt _ _),
    Nat.mod_eq_of_lt (u16_lt _ _), Nat.mod_eq_of_lt (u16_lt _ _),
    Nat.mod_eq_of_lt (u32_lt _ _), ?_⟩
  omega

theorem writeGRPICONDIRENTRY_padded (e : ICONDIRENTRY) (id : Nat) :
    writeGRPICONDIRENTRY e id = packedGroupEntry e id ++ [0, 0] := by
  simp [writeGRPICONDIRENTRY, packedGroupEntry, sizeof_GRPICONDIRENTRY_eq, List.replicate]

theorem packedGroupEntry_length (e : ICONDIRENTRY) (id : Nat) :
    (packedGroupEntry e id).length = 14 := by
  simp [packedGroupEntry, le16, le32]

theorem packedGroupData_length (bytes : Bytes) (N : Nat) :
    (packedGroupData bytes N).length = 6 + 14 * N := by
  rw [packedGroupData, List.length_append,
    flatMap_chunks_length _ 14 (fun i => packedGroupEntry_length _ _), List.length_range]
  simp [le16]

theorem all_congr_mem {α : Type} (f g : α → Bool) :
    ∀ l : List α, (∀ a ∈ l, f a = g a) → l.all f = l.all g := by
  intro l
  induction l with
  | nil => intro _; rfl
  | cons x rest ih =>
    intro h
    rw [List.all_cons, List.all_cons, h x (List.mem_cons_self _ _),
      ih fun a ha => h a (List.mem_cons_of_mem _ ha)]

/-- The calls and the result of `applyIconNative` for a well-formed icon file. -/
theorem applyIconNative_wellformed (api : WinApi) (uninit : Bytes) (f : FS)
    (exe_path icon_path bytes : Bytes) (N : Nat)
    (hload : api.loadImage = true) (hbegin : api.beginUpdate = true)
    (hopen : openRead f icon_path = some bytes)
    (hres : u16 bytes 0 = 0) (htype : u16 bytes 2 = 1) (hcount : u16 bytes 4 = N)
    (hlen : 6 + 16 * N ≤ bytes.length)
    (himg : ∀ i, i < N → (readICONDIRENTRY bytes 6 i).dwImageOffset +
      (readICONDIRENTRY bytes 6 i).dwBytesInRes ≤ bytes.length) :
    applyIconNative api uninit f exe_path icon_path =
      (api.endUpdate && (api.updateResource 14 1 (groupData api uninit exe_path icon_path bytes)
        && (List.range' 0 N).all fun j =>
          api.updateResource 3 (j + 1) (imageBytes bytes (readICONDIRENTRY bytes 6 j))),
       [Call.LoadImageW icon_path, Call.BeginUpdateResourceW exe_path] ++
        (List.range' 0 N).map (fun j => Call.UpdateResourceW 3 (j + 1)
          (imageBytes bytes (readICONDIRENTRY bytes 6 j))) ++
        [Call.UpdateResourceW 14 1 (groupData api uninit exe_path icon_path bytes),
          Call.EndUpdateResourceW false, Call.DestroyIcon]) := by
  have hN : N < 65536 := by rw [← hcount]; exact u16_lt bytes 4
  have h6 : 6 ≤ bytes.length := by omega
  have hloop := iconLoop_wellformed api ((bytes.drop 6).take (16 * N)) bytes N 0
    ⟨⟨bytes, 6 + 16 * N, false⟩, true,
      [Call.LoadImageW icon_path] ++ [Call.BeginUpdateResourceW exe_path], []⟩ rfl rfl
    (fun j _ hj => by
      rw [readICONDIRENTRY_file bytes N j (by omega)]
      exact himg j (by omega))
  have hres2 : loopResult api uninit exe_path icon_path bytes =
      iconLoop api ((bytes.drop 6).take (16 * N)) N 0
        ⟨⟨bytes, 6 + 16 * N, false⟩, true,
          [Call.LoadImageW icon_path] ++ [Call.BeginUpdateResourceW exe_path], []⟩ := by
    rw [loopResult, readEntries_file uninit bytes N hcount hlen,
      decodedHeader_file uninit bytes h6]
    simp only [hcount]
  have hmap : ∀ j ∈ List.range' 0 N,
      (Call.UpdateResourceW 3 ((j + 1) % 65536)
        (imageBytes bytes (readICONDIRENTRY ((bytes.drop 6).take (16 * N)) 0 j))) =
      Call.UpdateResourceW 3 (j + 1) (imageBytes bytes (readICONDIRENTRY bytes 6 j)) := by
    intro j hj
    have hj2 : j < N := by
      have := List.mem_range'.mp hj
      omega
    rw [readICONDIRENTRY_file bytes N j hj2, Nat.mod_eq_of_lt (by omega)]
  have hall : ∀ j ∈ List.range' 0 N,
      api.updateResource 3 ((j + 1) % 65536)
        (imageBytes bytes (readICONDIRENTRY ((bytes.drop 6).take (16 * N)) 0 j)) =
      api.updateResource 3 (j + 1) (imageBytes bytes (readICONDIRENTRY bytes 6 j)) := by
    intro j hj
    have hj2 : j < N := by
      have := List.mem_range'.mp hj
      omega
    rw [readICONDIRENTRY_file bytes N j hj2, Nat.mod_eq_of_lt (by omega)]
  rw [applyIconNative_accepted api uninit f exe_path icon_path bytes hload hbegin hopen
    (headerAccepted_file uninit bytes h6 hres htype), hres2, hloop.1, hloop.2,
    List.map_congr_left hmap]
  rw [all_congr_mem _ _ _ hall]
  simp

/-! ## The frame of `bundle` -/

theorem Within.refl (env : Env) (o : BundleOptions) (s : St) : Within env o s s :=
  ⟨⟨[], by simp, by simp⟩, fun _ _ _ _ _ _ => rfl⟩

theorem Within.trans {env : Env} {o : BundleOptions} {s t u : St} (h1 : Within env o s t)
    (h2 : Within env o t u) : Within env o s u := by
  obtain ⟨⟨a1, hl1, ha1⟩, hf1⟩ := h1
  obtain ⟨⟨a2, hl2, ha2⟩, hf2⟩ := h2
  refine ⟨⟨a1 ++ a2, by rw [hl2, hl1, List.append_assoc], ?_⟩, ?_⟩
  · intro e he
    rcases List.mem_append.mp he with h | h
    · exact ha1 e h
    · exact ha2 e h
  · intro p h1 h2 h3 h4 h5
    rw [hf2 p h1 h2 h3 h4 h5, hf1 p h1 h2 h3 h4 h5]

theorem appendToFile_within (env : Env) (o : BundleOptions) (d : Bytes) (s : St) :
    Within env o s (appendToFile (output_exe o) d s).2 := by
  unfold appendToFile
  simp only [St.emit]
  split
  · exact ⟨⟨[Event.append (output_exe o) d], rfl, by simp [Event.within]⟩,
      fun _ _ _ _ _ _ => rfl⟩
  split
  · exact ⟨⟨[Event.append (output_exe o) d], rfl, by simp [Event.within]⟩,
      fun _ _ _ _ _ _ => rfl⟩
  · exact ⟨⟨[Event.append (output_exe o) d], rfl, by simp [Event.within]⟩,
      fun p _ hp _ _ _ => FS.set_ne _ _ hp⟩
  · exact ⟨⟨[Event.append (output_exe o) d], rfl, by simp [Event.within]⟩,
      fun p _ hp _ _ _ => FS.set_ne _ _ hp⟩

theorem andThen_within (env : Env) (o : BundleOptions) (s : St) (r : Bool × St)
    (k : St → Bool × St) (hr : Within env o s r.2)
    (hk : ∀ t : St, Within env o s t → Within env o s (k t).2) :
    Within env o s (andThen r k).2 := by
  unfold andThen
  split
  · exact hk _ hr
  · exact hr

theorem embedScript_within (env : Env) (o : BundleOptions) (s0 s : St)
    (h : Within env o s0 s) : Within env o s0 (embedScript o (output_exe o) s).2 := by
  unfold embedScript
  apply andThen_within _ _ _ _ _ (h.trans (appendToFile_within env o _ s))
  intro t ht
  split
  · exact ht
  · apply andThen_within _ _ _ _ _ (ht.trans (appendToFile_within env o _ t))
    intro u hu
    exact hu.trans (appendToFile_within env o _ u)

theorem embedAssets_within (env : Env) (o : BundleOptions) (s0 : St) (assets : List Bytes) :
    ∀ s : St, Within env o s0 s → Within env o s0 (embedAssets (output_exe o) assets s).2 := by
  induction assets with
  | nil => intro s h; exact h
  | cons a rest ih =>
    intro s h
    unfold embedAssets
    apply andThen_within _ _ _ _ _ (h.trans (appendToFile_within env o _ s))
    intro t ht
    split
    · exact ht
    · apply andThen_within _ _ _ _ _ (ht.trans (appendToFile_within env o _ t))
      intro u hu
      apply andThen_within _ _ _ _ _ (hu.trans (appendToFile_within env o _ u))
      intro v hv
      exact ih v hv

theorem embedData_within (env : Env) (o : BundleOptions) (s0 : St) (l : List (Bytes × Bytes)) :
    ∀ (M : Bytes) (first : Bool) (s : St), Within env o s0 s →
      Within env o s0 (embedData (output_exe o) l M first s).2.2 := by
  induction l with
  | nil => intro M first s h; exact h
  | cons m rest ih =>
    intro M first s h
    obtain ⟨src, dst⟩ := m
    unfold embedData
    split
    · exact ih _ _ _ h
    · split
      · exact h
      · have a := h.trans (appendToFile_within env o (nl ++ DATA_FILE_START ++ nl) s)
        simp only
        split
        · exact a
        · have b := a.trans (appendToFile_within env o ‹Bytes› _)
          split
          · exact b
          · have c := b.trans (appendToFile_within env o (nl ++ DATA_FILE_END ++ nl) _)
            split
            · exact c
            · exact ih _ _ _ c

theorem embedDataFiles_within (env : Env) (o : BundleOptions) (s0 s : St)
    (h : Within env o s0 s) : Within env o s0 (embedDataFiles o (output_exe o) s).2 := by
  unfold embedDataFiles
  split
  · exact h
  · have d := embedData_within env o s0 o.add_data (str "[") true s h
    simp only
    split
    · exact d
    · apply andThen_within _ _ _ _ _ (d.trans (appendToFile_within env o _ _))
      intro t ht
      apply andThen_within _ _ _ _ _ (ht.trans (appendToFile_within env o _ t))
      intro u hu
      exact hu.trans (appendToFile_within env o _ u)

theorem fs_copy_file_frame (f : FS) (src dst p : Bytes) (hp : p ≠ dst) :
    (fs_copy_file f src dst).2 p = f p := by
  unfold fs_copy_file
  simp only
  split <;> split <;> simp [FS.set_ne _ _ hp]

theorem payloadSteps_within (env : Env) (o : BundleOptions) (s : St) :
    Within env o s (payloadSteps env o s).2 := by
  unfold payloadSteps
  apply andThen_within
  · exact ⟨⟨[Event.copy INTERPRETER_EXE (output_exe o)], rfl, by simp [Event.within]⟩,
      fun p _ hp _ _ _ => fs_copy_file_frame _ _ _ _ hp⟩
  intro t ht
  apply andThen_within _ _ _ _ _ (embedScript_within env o s t ht)
  intro u hu
  apply andThen_within _ _ _ _ _ (embedAssets_within env o s _ u hu)
  intro v hv
  exact embedDataFiles_within env o s v hv

theorem applyIcon_within (env : Env) (o : BundleOptions) (exe icon rh : Bytes) (s : St) :
    Within env o s (applyIconWithResourceHacker env exe icon rh s).2 := by
  unfold applyIconWithResourceHacker
  simp only [St.emit]
  cases h1 : canOpenWrite s.fs rh_script_path
  · simp only [Bool.false_eq_true, if_false]
    split
    · refine ⟨⟨[Event.create rh_script_path (rh_script exe icon),
        Event.run (rh ++ str " -script \"" ++ rh_script_path ++ str "\""),
        Event.remove rh_script_path, Event.remove rh_log_path], by simp,
        by simp [Event.within]⟩, ?_⟩
      intro p _ _ h3 h4 htool
      simp only [fs_remove]
      rw [FS.set_ne _ _ h4, FS.set_ne _ _ h3, htool]
    · refine ⟨⟨[Event.create rh_script_path (rh_script exe icon),
        Event.run (rh ++ str " -script \"" ++ rh_script_path ++ str "\""),
        Event.remove rh_script_path], by simp, by simp [Event.within]⟩, ?_⟩
      intro p _ _ h3 h4 htool
      simp only [fs_remove]
      rw [FS.set_ne _ _ h3, htool]
  · simp only [if_true]
    split
    · refine ⟨⟨[Event.create rh_script_path (rh_script exe icon),
        Event.run (rh ++ str " -script \"" ++ rh_script_path ++ str "\""),
        Event.remove rh_script_path, Event.remove rh_log_path], by simp,
        by simp [Event.within]⟩, ?_⟩
      intro p _ _ h3 h4 htool
      simp only [fs_remove]
      rw [FS.set_ne _ _ h4, FS.set_ne _ _ h3, htool, FS.set_ne _ _ h3]
    · refine ⟨⟨[Event.create rh_script_path (rh_script exe icon),
        Event.run (rh ++ str " -script \"" ++ rh_script_path ++ str "\""),
        Event.remove rh_script_path], by simp, by simp [Event.within]⟩, ?_⟩
      intro p _ _ h3 h4 htool
      simp only [fs_remove]
      rw [FS.set_ne _ _ h3, htool, FS.set_ne _ _ h3]

theorem checkIconSupport_within (env : Env) (o : BundleOptions) (s : St) :
    Within env o s (checkIconSupport env o s).st := by
  unfold checkIconSupport
  split
  · exact Within.refl env o s
  · simp only [St.emit]
    split
    · exact ⟨⟨[Event.toolProbe, Event.prompt], by simp, by simp [Event.within]⟩,
        fun _ _ _ _ _ _ => rfl⟩
    · exact ⟨⟨[Event.toolProbe], rfl, by simp [Event.within]⟩, fun _ _ _ _ _ _ => rfl⟩

theorem fs_create_directories_frame (f : FS) (d p : Bytes) (hp : p ≠ d) :
    fs_create_directories f d p = f p := by
  unfold fs_create_directories
  cases f d with
  | none => exact FS.set_ne _ _ hp
  | some _ => rfl

theorem iconStep_within (env : Env) (o : BundleOptions) (rh : Bytes) (b : Bool) (s : St) :
    Within env o s (iconStep env o rh b s) := by
  unfold iconStep
  split
  · exact applyIcon_within env o _ _ _ s
  · exact Within.refl env o s

theorem bundle_within (env : Env) (o : BundleOptions) (s : St) :
    Within env o s (bundle env o s).2 := by
  have hmk : Within env o (checkIconSupport env o s).st
      { ((checkIconSupport env o s).st.emit (Event.mkdir OUTPUT_FOLDER)) with
        fs := fs_create_directories (checkIconSupport env o s).st.fs OUTPUT_FOLDER } :=
    ⟨⟨[Event.mkdir OUTPUT_FOLDER], rfl, by simp [Event.within]⟩,
      fun p hp _ _ _ _ => fs_create_directories_frame _ _ _ hp⟩
  have hpay := ((checkIconSupport_within env o s).trans hmk).trans
    (payloadSteps_within env o _)
  unfold bundle
  split
  · exact Within.refl env o s
  · split
    · exact Within.refl env o s
    · simp only
      split
      · exact checkIconSupport_within env o s
      · split
        · exact hpay
        · exact hpay.trans (iconStep_within env o _ _ _)

/-- Without an icon request the external tool plays no part in `bundle`. -/
theorem bundle_no_icon (env : Env) (sys : Bytes → FS → Int × FS) (o : BundleOptions) (s : St)
    (h : o.icon_file = []) : bundle { env with system := sys } o s = bundle env o s := by
  have h1 : ∀ t, payloadSteps { env with system := sys } o t = payloadSteps env o t := by
    intro t
    simp [payloadSteps, collectAssets]
  have h2 : checkIconSupport { env with system := sys } o s = checkIconSupport env o s := by
    simp [checkIconSupport]
  have h3 : ∀ rh b t, iconStep { env with system := sys } o rh b t = iconStep env o rh b t := by
    intro rh b t
    simp [iconStep, h]
  unfold bundle
  simp only [h1, h2, h3]

/-! ## `fs::path::stem` -/

theorem find_last_of_none (chars : Bytes) :
    ∀ p : Bytes, find_last_of p chars = none → ∀ c ∈ p, chars.contains c = false := by
  intro p
  induction p with
  | nil => intro _ c hc; cases hc
  | cons x rest ih =>
    intro h c hc
    rw [find_last_of] at h
    cases hr : find_last_of rest chars with
    | some k => rw [hr] at h; cases h
    | none =>
      rw [hr] at h
      cases hx : chars.contains x with
      | true => rw [hx] at h; simp at h
      | false =>
        rcases List.mem_cons.mp hc with rfl | hc
        · exact hx
        · exact ih hr c hc

theorem find_last_of_some (chars : Bytes) :
    ∀ (p : Bytes) (k : Nat), find_last_of p chars = some k →
      ∀ c ∈ p.drop (k + 1), chars.contains c = false := by
  intro p
  induction p with
  | nil => intro k h; cases h
  | cons x rest ih =>
    intro k h c hc
    rw [find_last_of] at h
    cases hr : find_last_of rest chars with
    | some j =>
      rw [hr] at h
      simp only [Option.some.injEq] at h
      subst h
      rw [List.drop_succ_cons] at hc
      exact ih j hr c hc
    | none =>
      rw [hr] at h
      cases hx : chars.contains x with
      | true =>
        rw [hx] at h
        simp only [if_true, Option.some.injEq] at h
        subst h
        rw [List.drop_succ_cons, List.drop_zero] at hc
        exact find_last_of_none chars rest hr c hc
      | false => rw [hx] at h; simp at h

/-- The stem of a path holds none of the characters `/` and `\`. -/
theorem path_stem_no_separator (p : Bytes) :
    ∀ c ∈ path_stem p, (str "/\\").contains c = false := by
  intro c hc
  unfold path_stem at hc
  cases hs : find_last_of p (str "/\\") with
  | none =>
    have hnone := find_last_of_none (str "/\\") p hs
    rw [hs] at hc
    simp only at hc
    apply hnone
    split at hc
    · split at hc
      · exact List.mem_of_mem_take (by simpa [substr] using hc)
      · exact hc
    · exact hc
  | some k =>
    have hsome := find_last_of_some (str "/\\") p k hs
    rw [hs] at hc
    simp only at hc
    apply hsome
    split at hc
    · split at hc
      · exact List.mem_of_mem_take (by simpa [substr] using hc)
      · exact hc
    · exact hc

/-! ## Source paths outside the output folder -/

theorem components_append_separator (c : Nat) (hc : c = 47 ∨ c = 92 ∨ c = 58) (r : Bytes) :
    ∀ a : Bytes, (∀ x ∈ a, ¬ (x = 47 ∨ x = 92 ∨ x = 58)) →
      components (a ++ c :: r) = a :: components r := by
  intro a
  induction a with
  | nil => intro _; simp [components, hc]
  | cons x a ih =>
    intro h
    have hx := h x (List.mem_cons_self _ _)
    have := ih fun y hy => h y (List.mem_cons_of_mem _ hy)
    rw [List.cons_append, components, if_neg hx, this]

/-- The artifact path passes through the output folder. -/
theorem inOutputFolder_output_exe (o : BundleOptions) : inOutputFolder (output_exe o) = true := by
  have h : (output_exe o).map toLower =
      OUTPUT_FOLDER ++ 47 :: (path_stem o.kozak_file ++ str ".exe").map toLower := by
    simp [output_exe, OUTPUT_FOLDER, str, toLower]
  unfold inOutputFolder
  rw [h, components_append_separator 47 (Or.inl rfl) _ OUTPUT_FOLDER (by decide),
    List.any_cons]
  have : (trimEnd OUTPUT_FOLDER == OUTPUT_FOLDER) = true := by decide
  rw [this, Bool.true_or, Bool.true_or]

theorem find_last_of_eq_none (chars : Bytes) :
    ∀ p : Bytes, (∀ c ∈ p, chars.contains c = false) → find_last_of p chars = none := by
  intro p
  induction p with
  | nil => intro _; rfl
  | cons x rest ih =>
    intro h
    rw [find_last_of, ih fun c hc => h c (List.mem_cons_of_mem _ hc),
      h x (List.mem_cons_self _ _)]
    rfl

theorem find_last_of_last (chars : Bytes) (c : Nat) (hc : chars.contains c = true)
    (b : Bytes) (hb : ∀ x ∈ b, chars.contains x = false) :
    ∀ a : Bytes, find_last_of (a ++ c :: b) chars = some a.length := by
  intro a
  induction a with
  | nil =>
    rw [List.nil_append, find_last_of, find_last_of_eq_none chars b hb, hc]
    rfl
  | cons x a ih =>
    rw [List.cons_append, find_last_of, ih]
    rfl

/-- The artifact sits in the output folder. -/
theorem parentIsDir_output_exe (F : FS) (o : BundleOptions) :
    parentIsDir F (output_exe o) = decide (F OUTPUT_FOLDER = some Node.dir) := by
  have hsplit : output_exe o = OUTPUT_FOLDER ++ 47 :: (path_stem o.kozak_file ++ str ".exe") := by
    simp [output_exe, str]
  have hb : ∀ x ∈ path_stem o.kozak_file ++ str ".exe", (str "/\\").contains x = false := by
    intro x hx
    have hexe : ∀ y ∈ str ".exe", (str "/\\").contains y = false := by decide
    rcases List.mem_append.mp hx with h | h
    · exact path_stem_no_separator _ x h
    · exact hexe x h
  have hl := find_last_of_last (str "/\\") 47 (by decide) _ hb OUTPUT_FOLDER
  have hlen : OUTPUT_FOLDER.length = 8 + 1 := by decide
  unfold parentIsDir
  rw [hsplit, hl, hlen]
  simp only
  rw [← hlen, List.take_left]

/-- Source paths outside the output folder differ from the artifact path. -/
theorem NoAlias.apart {env : Env} {f : FS} {o : BundleOptions} (h : NoAlias env f o) :
    Apart env f o := by
  intro p hp he
  have := h p hp
  rw [he, inOutputFolder_output_exe] at this
  cases this

/-! # The claims -/

/-- C1, the claim as stated fails. First run: a successful request without data-file
mappings produces an artifact that ends after the asset segment, so it is not the claimed
layout followed by a Manifest segment, whatever the manifest body. Second run: the script
path `build_exe/a.koz.exe` is also the artifact path, the copy of step 1 overwrites the
script before it is read, and the Script segment does not wrap the bytes the script file
held. -/
theorem C1_counterexample :
    ((bundle demoEnv plainOptions demoSt).1 = true ∧
      ∀ body : Bytes, (bundle demoEnv plainOptions demoSt).2.fs (output_exe plainOptions) ≠
        some (Node.file (fileBytes demoFS INTERPRETER_EXE ++ scriptSegment demoFS plainOptions ++
          assetSegments demoFS (collectAssets demoEnv demoFS plainOptions.kozak_file) ++
          dataSegments demoFS plainOptions ++
          segment DATA_MANIFEST_START DATA_MANIFEST_END body))) ∧
    ((bundle demoEnv aliasOptions aliasSt).1 = true ∧
      output_exe aliasOptions = aliasOptions.kozak_file ∧
      (bundle demoEnv aliasOptions aliasSt).2.fs (output_exe aliasOptions) ≠
        some (Node.file (expectedArtifact demoEnv aliasFS aliasOptions))) := by
  refine ⟨⟨by decide, ?_⟩, by decide, by decide, by decide⟩
  intro body h
  have h1 : (bundle demoEnv plainOptions demoSt).2.fs (output_exe plainOptions) =
      some (Node.file (fileBytes demoFS INTERPRETER_EXE ++ scriptSegment demoFS plainOptions ++
        assetSegments demoFS (collectAssets demoEnv demoFS plainOptions.kozak_file) ++
        dataSegments demoFS plainOptions)) := by decide
  rw [h1] at h
  simp only [Option.some.injEq, Node.file.injEq, List.self_eq_append_right] at h
  simp [segment, nl] at h

/-- C1, amended. For every request on which `bundle` succeeds and none of whose source
paths passes through the output folder `build_exe` (so that none of them is the artifact
under another spelling), the artifact the payload steps hand to the icon step (the final
artifact when no icon is requested) is exactly: the interpreter bytes, one Script segment
around the script bytes, one Asset segment per discovered asset in scan order and, only when
the request has a data-file mapping, one DataFile segment per mapping whose source exists
followed by exactly one Manifest segment. -/
theorem C1_artifact_layout (env : Env) (o : BundleOptions) (s s' : St)
    (hb : bundle env o s = (true, s')) (hna : NoAlias env s.fs o) :
    ∃ s4 : St,
      s' = iconStep env o (findResourceHacker s.fs) (!(findResourceHacker s.fs).isEmpty) s4 ∧
      (o.icon_file = [] → s' = s4) ∧
      s4.fs (output_exe o) = some (Node.file (
        fileBytes s.fs INTERPRETER_EXE ++
        segment MARKER SCRIPT_END (fileBytes s.fs o.kozak_file) ++
        (collectAssets env s.fs o.kozak_file).flatMap
          (fun a => segment ASSET_START ASSET_END (fileBytes s.fs a)) ++
        (if o.add_data.isEmpty then []
         else
          ((o.add_data.filter fun m => fs_exists s.fs m.1).flatMap
            fun m => segment DATA_FILE_START DATA_FILE_END (fileBytes s.fs m.1)) ++
          segment DATA_MANIFEST_START DATA_MANIFEST_END (manifestBody (manifestRecords s.fs o))))) := by
  obtain ⟨s4, h4, hs', _⟩ := bundle_assembled env o s s' hb hna.apart
  refine ⟨s4, hs', ?_, ?_⟩
  · intro hi
    rw [hs', iconStep_no_icon env o _ _ _ hi]
  · rw [h4, FS.set_same]
    rfl

/-- C1, the amended claim at a concrete request with one present and one missing data
mapping. -/
theorem C1_artifact_layout_witness :
    ∃ s4 : St,
      (bundle demoEnv demoOptions demoSt).2 = iconStep demoEnv demoOptions
        (findResourceHacker demoSt.fs) (!(findResourceHacker demoSt.fs).isEmpty) s4 ∧
      (demoOptions.icon_file = [] → (bundle demoEnv demoOptions demoSt).2 = s4) ∧
      s4.fs (output_exe demoOptions) = some (Node.file (
        fileBytes demoSt.fs INTERPRETER_EXE ++
        segment MARKER SCRIPT_END (fileBytes demoSt.fs demoOptions.kozak_file) ++
        (collectAssets demoEnv demoSt.fs demoOptions.kozak_file).flatMap
          (fun a => segment ASSET_START ASSET_END (fileBytes demoSt.fs a)) ++
        (if demoOptions.add_data.isEmpty then []
         else
          ((demoOptions.add_data.filter fun m => fs_exists demoSt.fs m.1).flatMap
            fun m => segment DATA_FILE_START DATA_FILE_END (fileBytes demoSt.fs m.1)) ++
          segment DATA_MANIFEST_START DATA_MANIFEST_END
            (manifestBody (manifestRecords demoSt.fs demoOptions))))) :=
  C1_artifact_layout demoEnv demoOptions demoSt (bundle demoEnv demoOptions demoSt).2
    (result_eq_of_fst _ _ (by decide)) (by unfold NoAlias; decide)

/-- C2, the claim as stated fails. First run: the script is `a`, the text of the Script end
wrapper, `b`; `bundle` succeeds and the reader recovers `a` instead of the script. Second
run: the script path is the artifact path, and what the reader recovers is not what the
script file held. -/
theorem C2_counterexample :
    ((bundle demoEnv plainOptions collisionSt).1 = true ∧
      (between MARKER SCRIPT_END
        (fileBytes (bundle demoEnv plainOptions collisionSt).2.fs (output_exe plainOptions))).map
          Prod.fst = some [97] ∧
      fileBytes collisionFS plainOptions.kozak_file ≠ [97]) ∧
    ((bundle demoEnv aliasOptions aliasSt).1 = true ∧
      (between MARKER SCRIPT_END
        (fileBytes (bundle demoEnv aliasOptions aliasSt).2.fs (output_exe aliasOptions))).map
          Prod.fst ≠ some (fileBytes aliasFS aliasOptions.kozak_file)) := by
  decide

/-- C2, amended. For every request on which `bundle` succeeds and none of whose source paths
passes through the output folder, the reader recovers from the assembled artifact (the final
artifact when no icon is requested), byte for byte, what follows. A line of a content is a
run of bytes between two newlines, or up to its end; `LineFree t (x ++ nl)` says that the
marker `t` is no line of `x` other than its first, `LineFree t (nl ++ x ++ nl)` that it is
no line of `x` at all. The script is recovered from between the Script wrappers when the
Script begin marker is no such line of the interpreter and the Script end marker no such
line of the script. The `i`-th asset is recovered from the `i`-th ASSET_START/ASSET_END
pair when ASSET_START is no such line of the interpreter and no line of the script, and
ASSET_END no such line of an asset. The `j`-th embedded data file is recovered from the
`j`-th DATA_FILE_START/DATA_FILE_END pair when DATA_FILE_START is no such line of the
interpreter and no line of the script or of an asset, and DATA_FILE_END no such line of an
embedded data file. Marker text elsewhere in the contents does no harm. -/
theorem C2_round_trip (env : Env) (o : BundleOptions) (s s' : St)
    (hb : bundle env o s = (true, s')) (hna : NoAlias env s.fs o) :
    ∃ (s4 : St) (artifact : Bytes),
      s' = iconStep env o (findResourceHacker s.fs) (!(findResourceHacker s.fs).isEmpty) s4 ∧
      (o.icon_file = [] → s' = s4) ∧
      s4.fs (output_exe o) = some (Node.file artifact) ∧
      (LineFree MARKER (fileBytes s.fs INTERPRETER_EXE ++ nl) →
        LineFree SCRIPT_END (fileBytes s.fs o.kozak_file ++ nl) →
        (between MARKER SCRIPT_END artifact).map Prod.fst =
          some (fileBytes s.fs o.kozak_file)) ∧
      (LineFree ASSET_START (fileBytes s.fs INTERPRETER_EXE ++ nl) →
        LineFree ASSET_START (nl ++ fileBytes s.fs o.kozak_file ++ nl) →
        (∀ a ∈ collectAssets env s.fs o.kozak_file,
          LineFree ASSET_END (fileBytes s.fs a ++ nl)) →
        ∀ (i : Nat) (a : Bytes), (collectAssets env s.fs o.kozak_file)[i]? = some a →
          nthBetween ASSET_START ASSET_END i artifact = some (fileBytes s.fs a)) ∧
      (LineFree DATA_FILE_START (fileBytes s.fs INTERPRETER_EXE ++ nl) →
        LineFree DATA_FILE_START (nl ++ fileBytes s.fs o.kozak_file ++ nl) →
        (∀ a ∈ collectAssets env s.fs o.kozak_file,
          LineFree DATA_FILE_START (nl ++ fileBytes s.fs a ++ nl)) →
        (∀ m ∈ presentData s.fs o, LineFree DATA_FILE_END (fileBytes s.fs m.1 ++ nl)) →
        ∀ (j : Nat) (m : Bytes × Bytes), (presentData s.fs o)[j]? = some m →
          nthBetween DATA_FILE_START DATA_FILE_END j artifact =
            some (fileBytes s.fs m.1)) := by
  obtain ⟨s4, h4, hs', _⟩ := bundle_assembled env o s s' hb hna.apart
  obtain ⟨r1, r2, r3⟩ := expectedArtifact_round_trip env s.fs o
  refine ⟨s4, expectedArtifact env s.fs o, hs', ?_, ?_, r1, r2, r3⟩
  · intro hi
    rw [hs', iconStep_no_icon env o _ _ _ hi]
  · rw [h4, FS.set_same]

/-- C2 amended, at the demo request: script, the asset `hero.png` and the data file
`level.dat` are read back from the artifact. -/
theorem C2_round_trip_witness :
    (between MARKER SCRIPT_END
        (fileBytes (bundle demoEnv demoOptions demoSt).2.fs (output_exe demoOptions))).map
          Prod.fst = some [112, 114, 105, 110, 116] ∧
    nthBetween ASSET_START ASSET_END 0
        (fileBytes (bundle demoEnv demoOptions demoSt).2.fs (output_exe demoOptions)) =
      some [137, 80] ∧
    nthBetween DATA_FILE_START DATA_FILE_END 0
        (fileBytes (bundle demoEnv demoOptions demoSt).2.fs (output_exe demoOptions)) =
      some [1, 2, 3, 4, 5] := by
  obtain ⟨s4, artifact, _, h2, h3, h4, h5, h6⟩ := C2_round_trip demoEnv demoOptions demoSt
    (bundle demoEnv demoOptions demoSt).2 (result_eq_of_fst _ _ (by decide))
    (by unfold NoAlias; decide)
  have e : fileBytes (bundle demoEnv demoOptions demoSt).2.fs (output_exe demoOptions) =
      artifact := by
    rw [h2 rfl]
    simp [fileBytes, openRead, h3]
  rw [e]
  exact ⟨h4 (by unfold LineFree; decide) (by unfold LineFree; decide),
    h5 (by unfold LineFree; decide) (by unfold LineFree; decide)
      (by unfold LineFree; decide) 0 (str "hero.png") (by decide),
    h6 (by unfold LineFree; decide) (by unfold LineFree; decide)
      (by unfold LineFree; decide) (by unfold LineFree; decide) 0
      (str "level.dat", str "data/level.dat") (by decide)⟩

set_option maxRecDepth 8000 in
/-- C3, the claim as stated fails. The request with the two mappings `level.dat -> a`,
`hero.png -> b` and the request with the single mapping of `hero.png` to a destination that
contains double quotes produce, in successful runs, the same manifest text from different
record lists: the fields cannot be read back from the manifest text, by any reader. And a
mapping whose source is the artifact path does not exist before the call, yet it is
embedded and listed. -/
theorem C3_counterexample :
    ((bundle demoEnv twoOptions demoSt).2.fs (output_exe twoOptions) =
        some (Node.file (expectedArtifact demoEnv demoFS twoOptions)) ∧
      (bundle demoEnv forgedOptions demoSt).2.fs (output_exe forgedOptions) =
        some (Node.file (expectedArtifact demoEnv demoFS forgedOptions)) ∧
      manifestBody (manifestRecords demoFS twoOptions) =
        manifestBody (manifestRecords demoFS forgedOptions) ∧
      manifestRecords demoFS twoOptions ≠ manifestRecords demoFS forgedOptions) ∧
    (fs_exists demoFS (str "build_exe/game.exe") = false ∧
      (bundle demoEnv selfOptions demoSt).1 = true ∧
      (bundle demoEnv selfOptions demoSt).2.fs (output_exe selfOptions) ≠
        some (Node.file (fileBytes demoFS INTERPRETER_EXE ++ scriptSegment demoFS selfOptions ++
          assetSegments demoFS (collectAssets demoEnv demoFS selfOptions.kozak_file) ++
          segment DATA_MANIFEST_START DATA_MANIFEST_END (manifestBody [])))) := by
  refine ⟨⟨?_, ?_, ?_, ?_⟩, ?_, ?_, ?_⟩ <;> decide

/-- C3, amended. For every request with at least one data-file mapping on which `bundle`
succeeds, none of whose source paths passes through the output folder `build_exe` (so that
none of them is the artifact under another spelling), the assembled artifact is the
interpreter, the Script segment and the Asset segments, then one DataFile segment per
mapping whose source exists, in request order, and nothing else before the Manifest
segment, with which it ends; the manifest body is the bracket-delimited list with one record per such
mapping, in the same order, carrying the destination, the byte length of the embedded
content and the source path; a mapping whose source does not exist contributes to neither.
When no source or destination of a present mapping contains a double quote, the reader gets
the records back from the manifest body unchanged. -/
theorem C3_manifest_matches_data_segments (env : Env) (o : BundleOptions) (s s' : St)
    (hb : bundle env o s = (true, s')) (hna : NoAlias env s.fs o)
    (hne : o.add_data.isEmpty = false) :
    ∃ s4 : St,
      s' = iconStep env o (findResourceHacker s.fs) (!(findResourceHacker s.fs).isEmpty) s4 ∧
      (o.icon_file = [] → s' = s4) ∧
      s4.fs (output_exe o) = some (Node.file (
        (fileBytes s.fs INTERPRETER_EXE ++
          segment MARKER SCRIPT_END (fileBytes s.fs o.kozak_file) ++
          (collectAssets env s.fs o.kozak_file).flatMap
            (fun a => segment ASSET_START ASSET_END (fileBytes s.fs a))) ++
        ((o.add_data.filter fun m => fs_exists s.fs m.1).flatMap
          fun m => segment DATA_FILE_START DATA_FILE_END (fileBytes s.fs m.1)) ++
        segment DATA_MANIFEST_START DATA_MANIFEST_END (manifestBody
          ((o.add_data.filter fun m => fs_exists s.fs m.1).map
            fun m => (m.2, (fileBytes s.fs m.1).length, m.1))))) ∧
      ((∀ m ∈ o.add_data.filter fun m => fs_exists s.fs m.1, 34 ∉ m.1 ∧ 34 ∉ m.2) →
        readManifest (manifestBody ((o.add_data.filter fun m => fs_exists s.fs m.1).map
            fun m => (m.2, (fileBytes s.fs m.1).length, m.1))) =
          some ((o.add_data.filter fun m => fs_exists s.fs m.1).map
            fun m => (m.2, (fileBytes s.fs m.1).length, m.1))) := by
  obtain ⟨s4, h4, hs', _⟩ := bundle_assembled env o s s' hb hna.apart
  refine ⟨s4, hs', ?_, ?_, ?_⟩
  · intro hi
    rw [hs', iconStep_no_icon env o _ _ _ hi]
  · rw [h4, FS.set_same]
    simp [expectedArtifact, hne, dataSegments, manifestSegment, manifestRecords, presentData,
      scriptSegment, assetSegments, List.append_assoc]
  · intro hq
    apply readManifest_manifestBody
    intro r hr
    obtain ⟨m, hm, rfl⟩ := List.mem_map.mp hr
    exact ⟨(hq m hm).2, (hq m hm).1⟩

/-- C3 amended, at the demo request: of the mappings `level.dat -> data/level.dat` and
`gone.dat -> gone.dat` only the first has a record, with size 5, and it is read back. -/
theorem C3_manifest_matches_data_segments_witness :
    (demoOptions.add_data.filter fun m => fs_exists demoSt.fs m.1) =
      [(str "level.dat", str "data/level.dat")] ∧
    readManifest (manifestBody ((demoOptions.add_data.filter fun m => fs_exists demoSt.fs m.1).map
        fun m => (m.2, (fileBytes demoSt.fs m.1).length, m.1))) =
      some [(str "data/level.dat", 5, str "level.dat")] := by
  obtain ⟨_, _, _, _, h⟩ := C3_manifest_matches_data_segments demoEnv demoOptions demoSt
    (bundle demoEnv demoOptions demoSt).2 (result_eq_of_fst _ _ (by decide))
    (by unfold NoAlias; decide) (by decide)
  exact ⟨by decide, (h (by decide)).trans (by decide)⟩

/-- C4. When `main.exe` does not exist, or the script does not exist, `bundle` returns
failure in the state it was called in: the filesystem is the same function (nothing is
created, modified or removed) and the effect log is the same (no tool probe, no prompt,
no `mkdir`, no write). -/
theorem C4_missing_input_no_effect (env : Env) (o : BundleOptions) (s : St)
    (h : fs_exists s.fs INTERPRETER_EXE = false ∨ fs_exists s.fs o.kozak_file = false) :
    bundle env o s = (false, s) := by
  unfold bundle
  rcases h with h | h
  · simp [h]
  · cases h1 : fs_exists s.fs INTERPRETER_EXE <;> simp [h]

/-- C4 at a concrete request: the script `missing.kozak` is not there. -/
theorem C4_missing_input_no_effect_witness :
    (fs_exists demoSt.fs INTERPRETER_EXE = false ∨
      fs_exists demoSt.fs (str "missing.kozak") = false) ∧
    bundle demoEnv ⟨str "missing.kozak", str "app.ico", []⟩ demoSt = (false, demoSt) :=
  ⟨Or.inr (by decide),
    C4_missing_input_no_effect demoEnv ⟨str "missing.kozak", str "app.ico", []⟩ demoSt
      (Or.inr (by decide))⟩

/-- C5, the claim as stated fails. The script path `mods.kozak` is a directory: it passes
`fs::exists`, the interpreter is copied to `build_exe/mods.exe`, the begin wrapper is
appended, `readBinaryFile` throws, `bundle` returns failure, and the artifact, which did not
exist before the call, is left behind with the interpreter bytes and the begin wrapper. -/
theorem C5_counterexample :
    (bundle demoEnv ⟨str "mods.kozak", [], []⟩ demoSt).1 = false ∧
    demoSt.fs (str "build_exe/mods.exe") = none ∧
    (bundle demoEnv ⟨str "mods.kozak", [], []⟩ demoSt).2.fs (str "build_exe/mods.exe") =
      some (Node.file ([77, 90, 144] ++ (nl ++ MARKER ++ nl))) := by
  decide

/-- C5, amended. When `bundle` fails before the copy step (the interpreter is missing, the
script is missing, or the user does not answer `y` at the prompt), it returns failure and
the filesystem is unchanged, the artifact path included. -/
theorem C5_failure_before_copy (env : Env) (o : BundleOptions) (s : St)
    (h : fs_exists s.fs INTERPRETER_EXE = false ∨ fs_exists s.fs o.kozak_file = false ∨
      (checkIconSupport env o s).cancelled = true) :
    (bundle env o s).1 = false ∧ (bundle env o s).2.fs = s.fs ∧
    (bundle env o s).2.fs (output_exe o) = s.fs (output_exe o) := by
  obtain ⟨h1, h2⟩ := bundle_early env o s h
  exact ⟨h1, h2, by rw [h2]⟩

/-- C5 amended, at a concrete request: an icon is requested, no tool is installed, and the
user answers nothing at the prompt. -/
theorem C5_failure_before_copy_witness :
    (fs_exists demoSt.fs INTERPRETER_EXE = false ∨ fs_exists demoSt.fs (str "game.kozak") = false ∨
      (checkIconSupport demoEnv ⟨str "game.kozak", str "app.ico", []⟩ demoSt).cancelled = true) ∧
    ((bundle demoEnv ⟨str "game.kozak", str "app.ico", []⟩ demoSt).1 = false ∧
    (bundle demoEnv ⟨str "game.kozak", str "app.ico", []⟩ demoSt).2.fs = demoSt.fs ∧
    (bundle demoEnv ⟨str "game.kozak", str "app.ico", []⟩ demoSt).2.fs
        (output_exe ⟨str "game.kozak", str "app.ico", []⟩) =
      demoSt.fs (output_exe ⟨str "game.kozak", str "app.ico", []⟩)) :=
  ⟨Or.inr (Or.inr (by decide)),
    C5_failure_before_copy demoEnv ⟨str "game.kozak", str "app.ico", []⟩ demoSt
      (Or.inr (Or.inr (by decide)))⟩

/-- C6, the claim as stated fails. The scan hands over `sounds`, which exists (it is a
directory) but cannot be read, and then `hero.png`. `bundle` returns failure, the artifact
ends with a stray ASSET_START wrapper, and no segment for `hero.png` was appended. -/
theorem C6_counterexample :
    collectAssets dirAssetEnv demoFS (str "game.kozak") = [str "sounds", str "hero.png"] ∧
    (bundle dirAssetEnv plainOptions demoSt).1 = false ∧
    (bundle dirAssetEnv plainOptions demoSt).2.fs (output_exe plainOptions) =
      some (Node.file ([77, 90, 144] ++ segment MARKER SCRIPT_END [112, 114, 105, 110, 116] ++
        (nl ++ ASSET_START ++ nl))) := by
  decide

/-- C6, amended. In every filesystem, a line of the scan none of whose names exists
contributes no asset, and every asset `collectAssets` returns exists: a missing name is
dropped by the scan itself and never reaches the assembly step. For a run that passes
validation and the prompt and whose source paths do not pass through the output folder:
`bundle` succeeds exactly when every file it reads is a regular file and the artifact can
be opened in the output folder; an asset that exists but cannot be read is not skipped,
`bundle` fails; so it does when `build_exe` is a regular file; and after a successful run
the assembled artifact is the interpreter, the Script segment, one Asset segment per
discovered asset in scan order and the data part, with nothing else in between. -/
theorem C6_missing_assets_are_dropped_by_the_scan (env : Env) (o : BundleOptions) (s : St)
    (h1 : fs_exists s.fs INTERPRETER_EXE = true) (h2 : fs_exists s.fs o.kozak_file = true)
    (h3 : (checkIconSupport env o s).cancelled = false) (hna : NoAlias env s.fs o) :
    (∀ (F : FS) (m : LineMatch), (∀ p ∈ lineCandidates m, fs_exists F p = false) →
      collectLine F m = []) ∧
    (∀ F : FS, ∀ a ∈ collectAssets env F o.kozak_file, fs_exists F a = true) ∧
    ((bundle env o s).1 = true ↔ Readable env (fs_create_directories s.fs OUTPUT_FOLDER) o) ∧
    ((∃ a ∈ collectAssets env s.fs o.kozak_file, openRead s.fs a = none) →
      (bundle env o s).1 = false) ∧
    ((∃ d, s.fs OUTPUT_FOLDER = some (Node.file d)) → (bundle env o s).1 = false) ∧
    ((bundle env o s).1 = true → ∃ s4 : St,
      (bundle env o s).2 =
        iconStep env o (findResourceHacker s.fs) (!(findResourceHacker s.fs).isEmpty) s4 ∧
      s4.fs (output_exe o) = some (Node.file (fileBytes s.fs INTERPRETER_EXE ++
        segment MARKER SCRIPT_END (fileBytes s.fs o.kozak_file) ++
        (collectAssets env s.fs o.kozak_file).flatMap
          (fun a => segment ASSET_START ASSET_END (fileBytes s.fs a)) ++
        (if o.add_data.isEmpty then []
         else dataSegments s.fs o ++ manifestSegment s.fs o)))) := by
  have hext : DirExt (fs_create_directories s.fs OUTPUT_FOLDER) s.fs := dirExt_create s.fs _
  have hread : (bundle env o s).1 = true →
      Readable env (fs_create_directories s.fs OUTPUT_FOLDER) o := fun hb =>
    (bundle_assembled env o s _ (result_eq_of_fst _ _ hb) hna.apart).choose_spec.2.2
  refine ⟨?_, ?_, ⟨hread, ?_⟩, ?_, ?_, ?_⟩
  · intro F m hm
    obtain ⟨i, x⟩ := m
    cases i <;> cases x <;> simp [lineCandidates] at hm <;>
      simp [collectLine, collectImport, collectAsset, hm]
  · intro F a ha
    unfold collectAssets at ha
    cases hr : openRead F o.kozak_file with
    | none => rw [hr] at ha; cases ha
    | some text =>
      rw [hr] at ha
      obtain ⟨m, _, hp⟩ := List.mem_flatMap.mp ha
      obtain ⟨i, x⟩ := m
      simp only [collectLine, List.mem_append] at hp
      rcases hp with hp | hp
      · cases i with
        | none => simp [collectImport] at hp
        | some mn =>
          simp only [collectImport] at hp
          (repeat' split at hp) <;> simp_all
      · cases x with
        | none => simp [collectAsset] at hp
        | some af =>
          simp only [collectAsset] at hp
          split at hp <;> simp_all
  · intro hr
    exact bundle_ok env o s h1 h2 h3 hna.apart hr
  · rintro ⟨a, ha, hnone⟩
    cases hb : (bundle env o s).1 with
    | false => rfl
    | true =>
      obtain ⟨_, _, _, r4, _⟩ := hread hb
      have hc := collectAssets_ext hext env o.kozak_file r4
      have := r4 a (by rw [hc]; exact ha)
      rw [hext.openRead, hnone] at this
      cases this
  · rintro ⟨d, hd⟩
    cases hb : (bundle env o s).1 with
    | false => rfl
    | true =>
      obtain ⟨_, r2, _⟩ := hread hb
      have hp := canOpenWrite_parent _ _ r2
      rw [parentIsDir_output_exe] at hp
      have hF : fs_create_directories s.fs OUTPUT_FOLDER OUTPUT_FOLDER = some (Node.file d) := by
        simp [fs_create_directories, hd]
      rw [hF] at hp
      simp at hp
  · intro hb
    obtain ⟨s4, h4, hs', _⟩ := bundle_assembled env o s _ (result_eq_of_fst _ _ hb) hna.apart
    refine ⟨s4, hs', ?_⟩
    rw [h4, FS.set_same]
    rfl

/-- C6 amended, at the demo request: the import of `lib` is dropped, `hero.png` is
embedded, and the artifact holds the interpreter, the Script segment and the segment of
`hero.png`; with a regular file in the place of the output folder the same request
fails. -/
theorem C6_missing_assets_are_dropped_by_the_scan_witness :
    collectAssets demoEnv demoSt.fs plainOptions.kozak_file = [str "hero.png"] ∧
    ((bundle demoEnv plainOptions demoSt).1 = true ↔
      Readable demoEnv (fs_create_directories demoSt.fs OUTPUT_FOLDER) plainOptions) ∧
    (bundle demoEnv plainOptions demoSt).2.fs (output_exe plainOptions) =
      some (Node.file ([77, 90, 144] ++ segment MARKER SCRIPT_END [112, 114, 105, 110, 116] ++
        segment ASSET_START ASSET_END [137, 80])) ∧
    (bundle demoEnv plainOptions blockedSt).1 = false :=
  ⟨by decide,
    (C6_missing_assets_are_dropped_by_the_scan demoEnv plainOptions demoSt (by decide)
      (by decide) (by decide) (by unfold NoAlias; decide)).2.2.1,
    by decide,
    (C6_missing_assets_are_dropped_by_the_scan demoEnv plainOptions blockedSt (by decide)
      (by decide) (by decide) (by unfold NoAlias; decide)).2.2.2.2.1 ⟨[120], by decide⟩⟩

/-- C7, the claim as stated fails. The request has no data-file mapping and no icon and
`bundle` succeeds, with an interpreter of 3 bytes, a script of 5 bytes and no asset; but the
script path `build_exe/a.koz.exe` is also the artifact path, step 1 overwrites the script
before step 2 reads it, and the artifact has 3 + 27 + (3 + 27) + 25 = 85 bytes instead of
3 + (52 + 5) = 60. -/
theorem C7_counterexample :
    (bundle demoEnv ⟨str "build_exe/a.koz.exe", [], []⟩ aliasSt).1 = true ∧
    (fileBytes aliasFS INTERPRETER_EXE).length = 3 ∧
    (fileBytes aliasFS (str "build_exe/a.koz.exe")).length = 5 ∧
    collectAssets demoEnv aliasFS (str "build_exe/a.koz.exe") = [] ∧
    (fileBytes (bundle demoEnv ⟨str "build_exe/a.koz.exe", [], []⟩ aliasSt).2.fs
      (output_exe ⟨str "build_exe/a.koz.exe", [], []⟩)).length = 85 ∧
    3 + (52 + 5) ≠ 85 := by
  decide

/-- C7, amended. For every successful request with no data-file mapping and no icon, none
of whose source paths passes through the output folder `build_exe` (so that none of them is
the artifact under another spelling), the artifact is the interpreter followed by the
appended bytes, its length is `b + (52 + s) + Σ (36 + a_i)`, where 52 = 27 + 25 and
36 = 19 + 17 are the lengths of the wrappers, and among the appended bytes the Script begin
marker first occurs at offset 1, strictly before any occurrence of the Asset begin marker. -/
theorem C7_artifact_size (env : Env) (o : BundleOptions) (s s' : St)
    (hb : bundle env o s = (true, s')) (hna : NoAlias env s.fs o)
    (hd : o.add_data = []) (hi : o.icon_file = []) :
    ∃ appended : Bytes,
      s'.fs (output_exe o) = some (Node.file (fileBytes s.fs INTERPRETER_EXE ++ appended)) ∧
      (fileBytes s.fs INTERPRETER_EXE ++ appended).length =
        (fileBytes s.fs INTERPRETER_EXE).length + (52 + (fileBytes s.fs o.kozak_file).length) +
        ((collectAssets env s.fs o.kozak_file).map fun a => 36 + (fileBytes s.fs a).length).sum ∧
      (nl ++ MARKER ++ nl).length = 27 ∧ (nl ++ SCRIPT_END ++ nl).length = 25 ∧
      (nl ++ ASSET_START ++ nl).length = 19 ∧ (nl ++ ASSET_END ++ nl).length = 17 ∧
      firstIndex MARKER appended = some 1 ∧
      ∀ j : Nat, firstIndex ASSET_START appended = some j → 1 < j := by
  obtain ⟨s4, h4, hs', _⟩ := bundle_assembled env o s s' hb hna.apart
  rw [iconStep_no_icon env o _ _ _ hi] at hs'
  subst hs'
  refine ⟨segment MARKER SCRIPT_END (fileBytes s.fs o.kozak_file) ++
    assetSegments s.fs (collectAssets env s.fs o.kozak_file), ?_, ?_, by decide, by decide,
    by decide, by decide, ?_, ?_⟩
  · rw [h4, FS.set_same]
    simp [expectedArtifact, scriptSegment, hd, List.append_assoc]
  · have h1 : (nl ++ MARKER ++ nl).length = 27 := by decide
    have h2 : (nl ++ SCRIPT_END ++ nl).length = 25 := by decide
    rw [List.length_append, List.length_append, segment_length, assetSegments_length, h1, h2]
    omega
  · have : segment MARKER SCRIPT_END (fileBytes s.fs o.kozak_file) ++
        assetSegments s.fs (collectAssets env s.fs o.kozak_file) =
        (nl ++ MARKER ++ nl) ++ (fileBytes s.fs o.kozak_file ++ (nl ++ SCRIPT_END ++ nl) ++
          assetSegments s.fs (collectAssets env s.fs o.kozak_file)) := by
      simp [segment, List.append_assoc]
    rw [this]
    exact firstIndex_marker _
  · intro j hj
    have : segment MARKER SCRIPT_END (fileBytes s.fs o.kozak_file) ++
        assetSegments s.fs (collectAssets env s.fs o.kozak_file) =
        (nl ++ MARKER ++ nl) ++ (fileBytes s.fs o.kozak_file ++ (nl ++ SCRIPT_END ++ nl) ++
          assetSegments s.fs (collectAssets env s.fs o.kozak_file)) := by
      simp [segment, List.append_assoc]
    rw [this] at hj
    exact firstIndex_asset_start _ j hj

/-- C7 amended, at the end-to-end example of the specification: interpreter of 500,000
bytes, script of 2,000 bytes, one asset of 50,000 bytes, artifact of 552,088 bytes. -/
theorem C7_artifact_size_witness :
    ∃ artifact : Bytes,
      (bundle demoEnv plainOptions bigSt).2.fs (output_exe plainOptions) =
        some (Node.file artifact) ∧
      artifact.length = 500000 + (52 + 2000) + (36 + 50000) ∧ artifact.length = 552088 := by
  have hr : Readable demoEnv (fs_create_directories bigSt.fs OUTPUT_FOLDER) plainOptions := by
    unfold Readable
    decide
  have hb : (bundle demoEnv plainOptions bigSt).1 = true :=
    bundle_ok demoEnv plainOptions bigSt (by decide) (by decide) (by decide)
      (NoAlias.apart (by unfold NoAlias; decide)) hr
  obtain ⟨appended, h1, h2, _⟩ := C7_artifact_size demoEnv plainOptions bigSt
    (bundle demoEnv plainOptions bigSt).2 (result_eq_of_fst _ _ hb) (by unfold NoAlias; decide) rfl rfl
  have e1 : fileBytes bigSt.fs INTERPRETER_EXE = List.replicate 500000 0 := rfl
  have e2 : fileBytes bigSt.fs plainOptions.kozak_file = List.replicate 2000 32 := rfl
  have e3 : collectAssets demoEnv bigSt.fs plainOptions.kozak_file = [str "hero.png"] := by
    decide
  have e4 : fileBytes bigSt.fs (str "hero.png") = List.replicate 50000 1 := rfl
  have l1 : (fileBytes bigSt.fs INTERPRETER_EXE).length = 500000 := by
    rw [e1, List.length_replicate]
  have l2 : (fileBytes bigSt.fs plainOptions.kozak_file).length = 2000 := by
    rw [e2, List.length_replicate]
  have l4 : (fileBytes bigSt.fs (str "hero.png")).length = 50000 := by
    rw [e4, List.length_replicate]
  rw [e3, l1, l2] at h2
  rw [List.map_cons, List.map_nil, List.sum_cons, List.sum_nil, l4] at h2
  exact ⟨_, h1, h2.trans (by norm_num), h2.trans (by norm_num)⟩


/-- C8, the claim as stated fails. The icon file holds the four bytes `00 00 01 00`, fewer
than the six of the header, and the icon handle and the update session were obtained. The
unchecked `read` fills `idReserved` and `idType` with 0 and 1, the header check passes
whatever `icondir` held before, and with a count of 0 left in that memory the function
registers an icon group, commits the session and returns success. -/
theorem C8_counterexample :
    (∀ uninit : Bytes,
      (readICONDIR ((⟨[0, 0, 1, 0], 0, false⟩ : IStream).read (uninit.take sizeof_ICONDIR ++
        List.replicate (sizeof_ICONDIR - uninit.length) 0) sizeof_ICONDIR).1).idReserved = 0 ∧
      (readICONDIR ((⟨[0, 0, 1, 0], 0, false⟩ : IStream).read (uninit.take sizeof_ICONDIR ++
        List.replicate (sizeof_ICONDIR - uninit.length) 0) sizeof_ICONDIR).1).idType = 1) ∧
    applyIconNative ⟨true, true, fun _ _ _ => true, true⟩ [9, 9, 9, 9, 0, 0]
        (fun _ => some (Node.file [0, 0, 1, 0])) (str "build_exe/game.exe") (str "app.ico") =
      (true, [Call.LoadImageW (str "app.ico"),
        Call.BeginUpdateResourceW (str "build_exe/game.exe"),
        Call.UpdateResourceW 14 1 [0, 0, 1, 0, 0, 0],
        Call.EndUpdateResourceW false, Call.DestroyIcon]) := by
  refine ⟨?_, by decide⟩
  intro uninit
  simp [IStream.read, readICONDIR, u16, u8, sizeof_ICONDIR_eq]

/-- C8, amended. For every icon file of at least six bytes whose header decodes to
reserved ≠ 0 or type ≠ 1, `applyIconNative` returns failure, registers no resource
(no `UpdateResourceW` call) and commits nothing; when the icon handle and the update session
were obtained, the calls are exactly: load, begin, end with discard, destroy. -/
theorem C8_invalid_header_is_rejected (api : WinApi) (uninit : Bytes) (f : FS)
    (exe_path icon_path bytes : Bytes) (hopen : openRead f icon_path = some bytes)
    (hlen : 6 ≤ bytes.length) (hbad : u16 bytes 0 ≠ 0 ∨ u16 bytes 2 ≠ 1) :
    (applyIconNative api uninit f exe_path icon_path).1 = false ∧
    (∀ (t id : Nat) (d : Bytes),
      Call.UpdateResourceW t id d ∉ (applyIconNative api uninit f exe_path icon_path).2) ∧
    Call.EndUpdateResourceW false ∉ (applyIconNative api uninit f exe_path icon_path).2 ∧
    (api.loadImage = true → api.beginUpdate = true →
      (applyIconNative api uninit f exe_path icon_path).2 =
        [Call.LoadImageW icon_path, Call.BeginUpdateResourceW exe_path,
          Call.EndUpdateResourceW true, Call.DestroyIcon]) := by
  have hchk : ((u16 bytes 0 != 0) || (u16 bytes 2 != 1)) = true := by
    rcases hbad with h | h <;> simp [h]
  unfold applyIconNative
  cases h1 : api.loadImage
  · simp
  cases h2 : api.beginUpdate
  · simp
  simp only [hopen, header_of_file uninit bytes hlen, readICONDIR_take, hchk]
  simp

/-- C8 amended, at a concrete icon file: a header with type 2 (a cursor). -/
theorem C8_invalid_header_is_rejected_witness :
    (applyIconNative ⟨true, true, fun _ _ _ => true, true⟩ [] iconFileFS
        (str "build_exe/game.exe") (str "cursor.ico")).1 = false ∧
    (applyIconNative ⟨true, true, fun _ _ _ => true, true⟩ [] iconFileFS
        (str "build_exe/game.exe") (str "cursor.ico")).2 =
      [Call.LoadImageW (str "cursor.ico"), Call.BeginUpdateResourceW (str "build_exe/game.exe"),
        Call.EndUpdateResourceW true, Call.DestroyIcon] :=
  have h := C8_invalid_header_is_rejected ⟨true, true, fun _ _ _ => true, true⟩ [] iconFileFS
    (str "build_exe/game.exe") (str "cursor.ico") [0, 0, 2, 0, 1, 0, 7, 7] (by decide)
    (by decide) (Or.inr (by decide))
  ⟨h.1, h.2.2.2 rfl rfl⟩

/-- C9. For every icon file with a valid header that announces `N` directory entries and
has room for them, when the icon handle and the update session were obtained,
`applyIconNative` registers one icon group (type 14, identifier 1) whose buffer, seen
through `GRPICONDIR` and `GRPICONDIRENTRY` as the code writes it, has reserved 0, type 1,
count `N`, holds exactly `N` entries, and entry `i` carries width, height, colour count,
planes, bit count and byte size of directory entry `i` of the file and the identifier
`i + 1`; the identifiers are 1, …, N, pairwise distinct. -/
theorem C9_group_mirrors_directory (api : WinApi) (uninit : Bytes) (f : FS)
    (exe_path icon_path bytes : Bytes) (N : Nat)
    (hload : api.loadImage = true) (hbegin : api.beginUpdate = true)
    (hopen : openRead f icon_path = some bytes)
    (hres : u16 bytes 0 = 0) (htype : u16 bytes 2 = 1) (hcount : u16 bytes 4 = N)
    (hlen : sizeof_ICONDIR + sizeof_ICONDIRENTRY * N ≤ bytes.length) :
    N ≤ 65535 ∧
    ∃ group : Bytes,
      Call.UpdateResourceW 14 1 group ∈ (applyIconNative api uninit f exe_path icon_path).2 ∧
      readICONDIR group = ⟨0, 1, N⟩ ∧
      group.length = sizeof_GRPICONDIR + sizeof_GRPICONDIRENTRY * N ∧
      (∀ i : Nat, i < N →
        (readGRPICONDIRENTRY group sizeof_GRPICONDIR i).bWidth =
          (readICONDIRENTRY bytes sizeof_ICONDIR i).bWidth ∧
        (readGRPICONDIRENTRY group sizeof_GRPICONDIR i).bHeight =
          (readICONDIRENTRY bytes sizeof_ICONDIR i).bHeight ∧
        (readGRPICONDIRENTRY group sizeof_GRPICONDIR i).bColorCount =
          (readICONDIRENTRY bytes sizeof_ICONDIR i).bColorCount ∧
        (readGRPICONDIRENTRY group sizeof_GRPICONDIR i).wPlanes =
          (readICONDIRENTRY bytes sizeof_ICONDIR i).wPlanes ∧
        (readGRPICONDIRENTRY group sizeof_GRPICONDIR i).wBitCount =
          (readICONDIRENTRY bytes sizeof_ICONDIR i).wBitCount ∧
        (readGRPICONDIRENTRY group sizeof_GRPICONDIR i).dwBytesInRes =
          (readICONDIRENTRY bytes sizeof_ICONDIR i).dwBytesInRes ∧
        (readGRPICONDIRENTRY group sizeof_GRPICONDIR i).nID = i + 1) ∧
      (List.range N).map (fun i => (readGRPICONDIRENTRY group sizeof_GRPICONDIR i).nID) =
        (List.range N).map (fun i => i + 1) ∧
      ((List.range N).map
        fun i => (readGRPICONDIRENTRY group sizeof_GRPICONDIR i).nID).Nodup := by
  have hN : N < 65536 := by rw [← hcount]; exact u16_lt bytes 4
  rw [sizeof_ICONDIR_eq, sizeof_ICONDIRENTRY_eq] at hlen
  have h6 : 6 ≤ bytes.length := by omega
  -- the entries the loop works on
  have hentries : ((⟨bytes, 6, false⟩ : IStream).read
      (List.replicate (sizeof_ICONDIRENTRY * N) 0) (sizeof_ICONDIRENTRY * N)).1 =
      (bytes.drop 6).take (16 * N) := by
    rw [IStream.read_enough _ _ _ rfl (by simpa [sizeof_ICONDIRENTRY_eq] using hlen) (by simp)]
    simp [sizeof_ICONDIRENTRY_eq]
  -- the group buffer
  let g : Nat → Bytes := fun j =>
    writeGRPICONDIRENTRY (readICONDIRENTRY ((bytes.drop 6).take (16 * N)) 0 j) ((j + 1) % 65536)
  have hg : ∀ j, (g j).length = 16 := fun j => writeGRPICONDIRENTRY_length _ _
  let hdr : Bytes := le16 0 ++ le16 1 ++ le16 N
  have hhdr : hdr.length = 6 := by simp [hdr, le16]
  have hlenflat : ∀ n : Nat, ((List.range' 0 n).flatMap g).length = 16 * n := by
    intro n
    induction n with
    | zero => simp
    | succ k ih =>
      rw [List.range'_concat, List.flatMap_append, List.length_append, ih]
      simp [hg]
      omega
  have hentry : ∀ i, i < N → readGRPICONDIRENTRY (hdr ++ (List.range' 0 N).flatMap g) 6 i =
      ⟨(readICONDIRENTRY bytes 6 i).bWidth, (readICONDIRENTRY bytes 6 i).bHeight,
        (readICONDIRENTRY bytes 6 i).bColorCount, (readICONDIRENTRY bytes 6 i).bReserved,
        (readICONDIRENTRY bytes 6 i).wPlanes, (readICONDIRENTRY bytes 6 i).wBitCount,
        (readICONDIRENTRY bytes 6 i).dwBytesInRes, i + 1⟩ := by
    intro i hi
    have := readGRPICONDIRENTRY_chunks hdr g hg N i hi
    rw [hhdr] at this
    rw [this, read_writeGRPICONDIRENTRY, readICONDIRENTRY_file bytes N i hi]
    simp only [readICONDIRENTRY, GRPICONDIRENTRY.mk.injEq]
    refine ⟨Nat.mod_eq_of_lt (u8_lt _ _), Nat.mod_eq_of_lt (u8_lt _ _),
      Nat.mod_eq_of_lt (u8_lt _ _), Nat.mod_eq_of_lt (u8_lt _ _),
      Nat.mod_eq_of_lt (u16_lt _ _), Nat.mod_eq_of_lt (u16_lt _ _),
      Nat.mod_eq_of_lt (u32_lt _ _), ?_⟩
    omega
  have hids : (List.range N).map
      (fun i => (readGRPICONDIRENTRY (hdr ++ (List.range' 0 N).flatMap g) 6 i).nID) =
      (List.range N).map (fun i => i + 1) := by
    apply List.map_congr_left
    intro i hi
    rw [hentry i (List.mem_range.mp hi)]
  refine ⟨by omega, hdr ++ (List.range' 0 N).flatMap g, ?_, ?_, ?_, ?_, ?_, ?_⟩
  · unfold applyIconNative
    simp only [hload, hbegin, hopen, header_of_file uninit bytes h6, readICONDIR_take, hres,
      htype, hcount, hentries, iconLoop_groupEntries, Bool.not_true, Bool.false_eq_true,
      if_false, bne_self_eq_false, Bool.or_self, List.nil_append]
    split <;> simp [hdr, g]
  · simp [readICONDIR, hdr, le16, u16, u8]
    omega
  · rw [List.length_append, hhdr, hlenflat, sizeof_GRPICONDIR_eq, sizeof_GRPICONDIRENTRY_eq]
  · intro i hi
    rw [sizeof_GRPICONDIR_eq, sizeof_ICONDIR_eq, hentry i hi]
    simp
  · rw [sizeof_GRPICONDIR_eq]
    exact hids
  · rw [sizeof_GRPICONDIR_eq, hids]
    exact (List.nodup_range N).map (fun a b h => by simpa using h)

/-- C9 at a concrete icon file with two images. -/
theorem C9_group_mirrors_directory_witness :
    Call.UpdateResourceW 14 1
        ([0, 0, 1, 0, 2, 0] ++ [16, 16, 0, 0, 1, 0, 32, 0, 3, 0, 0, 0, 1, 0, 0, 0] ++
          [32, 32, 0, 0, 1, 0, 32, 0, 2, 0, 0, 0, 2, 0, 0, 0]) ∈
      (applyIconNative okApi [] iconFileFS (str "build_exe/game.exe") (str "app.ico")).2 ∧
    ∃ group : Bytes,
      Call.UpdateResourceW 14 1 group ∈
        (applyIconNative okApi [] iconFileFS (str "build_exe/game.exe") (str "app.ico")).2 ∧
      readICONDIR group = ⟨0, 1, 2⟩ ∧
      (List.range 2).map (fun i => (readGRPICONDIRENTRY group sizeof_GRPICONDIR i).nID) =
        [1, 2] := by
  obtain ⟨_, group, h1, h2, _, _, h5, _⟩ := C9_group_mirrors_directory okApi []
    iconFileFS (str "build_exe/game.exe") (str "app.ico") demoIcon 2 rfl rfl (by decide)
    (by decide) (by decide) (by decide) (by decide)
  exact ⟨by decide, group, h1, h2, h5⟩

/-- C11, the code against the claim. For every icon file with a valid header that announces
`N` directory entries and has room for them, when the icon handle and the update session
were obtained, the one buffer `applyIconNative` registers under type 14 has
`6 + 16 * N` bytes, not the `6 + 14 * N` of the packed icon-group format: the entries are
laid out with `sizeof(GRPICONDIRENTRY)`, which is 16 without `#pragma pack`, so entry `i`
starts at byte `6 + 16 * i` and its 14 bytes of the packed layout are followed by two
padding bytes. For `N > 0` the buffer differs from the packed group. -/
theorem C11_group_entries_are_padded (api : WinApi) (uninit : Bytes) (f : FS)
    (exe_path icon_path bytes : Bytes) (N : Nat)
    (hload : api.loadImage = true) (hbegin : api.beginUpdate = true)
    (hopen : openRead f icon_path = some bytes)
    (hres : u16 bytes 0 = 0) (htype : u16 bytes 2 = 1) (hcount : u16 bytes 4 = N)
    (hlen : sizeof_ICONDIR + sizeof_ICONDIRENTRY * N ≤ bytes.length) :
    ∃ group : Bytes,
      Call.UpdateResourceW 14 1 group ∈ (applyIconNative api uninit f exe_path icon_path).2 ∧
      (∀ id data, Call.UpdateResourceW 14 id data ∈
        (applyIconNative api uninit f exe_path icon_path).2 → id = 1 ∧ data = group) ∧
      group.length = sizeof_GRPICONDIR + sizeof_GRPICONDIRENTRY * N ∧
      group.length = 6 + 16 * N ∧
      (packedGroupData bytes N).length = 6 + 14 * N ∧
      (0 < N → group ≠ packedGroupData bytes N) ∧
      (∀ i, i < N → (group.drop (6 + 16 * i)).take 16 =
        packedGroupEntry (readICONDIRENTRY bytes sizeof_ICONDIR i) (i + 1) ++ [0, 0]) := by
  rw [sizeof_ICONDIR_eq, sizeof_ICONDIRENTRY_eq] at hlen
  have h6 : 6 ≤ bytes.length := by omega
  have hrun := applyIconNative_accepted api uninit f exe_path icon_path bytes hload hbegin hopen
    (headerAccepted_file uninit bytes h6 hres htype)
  have hgroup := groupData_file api uninit exe_path icon_path bytes N hcount hlen
  have hchunk : ∀ j : Nat, (writeGRPICONDIRENTRY (readICONDIRENTRY bytes 6 j) (j + 1)).length
      = 16 := fun j => writeGRPICONDIRENTRY_length _ _
  have hhdr : (le16 0 ++ le16 1 ++ le16 N).length = 6 := by simp [le16]
  have hlength : (groupData api uninit exe_path icon_path bytes).length = 6 + 16 * N := by
    rw [hgroup, List.length_append, hhdr,
      flatMap_chunks_length _ 16 hchunk, List.length_range']
  obtain ⟨regs, hcalls, hregs⟩ := loopResult_calls api uninit exe_path icon_path bytes
  refine ⟨groupData api uninit exe_path icon_path bytes, ?_, ?_, ?_, hlength,
    packedGroupData_length bytes N, ?_, ?_⟩
  · rw [hrun]
    simp
  · intro id data hmem
    rw [hrun, hcalls] at hmem
    simp only [List.mem_append, List.mem_cons, List.mem_singleton, List.not_mem_nil,
      or_false] at hmem
    rcases hmem with ((h | h) | h) | h | h | h
    · cases h
    · cases h
    · obtain ⟨id2, d2, hc⟩ := hregs _ h
      cases hc
    · cases h
      exact ⟨rfl, rfl⟩
    · cases h
    · cases h
  · rw [hlength, sizeof_GRPICONDIR_eq, sizeof_GRPICONDIRENTRY_eq]
  · intro hpos heq
    have := congrArg List.length heq
    rw [hlength, packedGroupData_length] at this
    omega
  · intro i hi
    have hdrop : ∀ H X : Bytes, H.length = 6 → (H ++ X).drop (6 + 16 * i) = X.drop (16 * i) := by
      intro H X h
      rw [← h, List.drop_append]
    rw [hgroup, sizeof_ICONDIR_eq, hdrop _ _ hhdr,
      drop_take_flatMap_chunks _ 16 hchunk (List.range' 0 N) i i
        (by simp [List.getElem?_range', hi]),
      writeGRPICONDIRENTRY_padded]

/-- C11 at an icon file with two images: the registered group has 38 bytes where the packed
format has 34, and bytes 20 to 33, where the packed format keeps the second entry, hold
the padding of the first entry and the first twelve bytes of the second. -/
theorem C11_group_entries_are_padded_witness :
    Call.UpdateResourceW 14 1
        ([0, 0, 1, 0, 2, 0] ++ [16, 16, 0, 0, 1, 0, 32, 0, 3, 0, 0, 0, 1, 0, 0, 0] ++
          [32, 32, 0, 0, 1, 0, 32, 0, 2, 0, 0, 0, 2, 0, 0, 0]) ∈
      (applyIconNative okApi [] iconFileFS (str "build_exe/game.exe") (str "app.ico")).2 ∧
    packedGroupData demoIcon 2 =
      [0, 0, 1, 0, 2, 0] ++ [16, 16, 0, 0, 1, 0, 32, 0, 3, 0, 0, 0, 1, 0] ++
        [32, 32, 0, 0, 1, 0, 32, 0, 2, 0, 0, 0, 2, 0] ∧
    ∃ group : Bytes,
      Call.UpdateResourceW 14 1 group ∈
        (applyIconNative okApi [] iconFileFS (str "build_exe/game.exe") (str "app.ico")).2 ∧
      group.length = 38 ∧ (packedGroupData demoIcon 2).length = 34 ∧
      group ≠ packedGroupData demoIcon 2 ∧
      (group.drop 22).take 16 = [32, 32, 0, 0, 1, 0, 32, 0, 2, 0, 0, 0, 2, 0, 0, 0] := by
  obtain ⟨group, h1, _, _, h4, h5, h6, h7⟩ := C11_group_entries_are_padded okApi []
    iconFileFS (str "build_exe/game.exe") (str "app.ico") demoIcon 2 rfl rfl (by decide)
    (by decide) (by decide) (by decide) (by decide)
  refine ⟨by decide, by decide, group, h1, h4, h5, h6 (by decide), ?_⟩
  have := h7 1 (by decide)
  rw [this]
  decide

/-- C12. For every icon file with a valid header that announces `N` directory entries, has
room for them and holds every image range they name, when the icon handle and the update
session were obtained and whatever the results of the registrations: `applyIconNative`
calls `UpdateResourceW` for type 3 once per image, in index order, image `i` with
identifier `i + 1` and the bytes of the file from its offset for its size, then once for
type 14 with identifier 1, then commits; the calls do not depend on any result; group
entry `i` stores the identifier `i + 1`; and the result is `true` exactly when every image
registration, the group registration and the commit succeeded. -/
theorem C12_registrations_in_order (api : WinApi) (uninit : Bytes) (f : FS)
    (exe_path icon_path bytes : Bytes) (N : Nat)
    (hload : api.loadImage = true) (hbegin : api.beginUpdate = true)
    (hopen : openRead f icon_path = some bytes)
    (hres : u16 bytes 0 = 0) (htype : u16 bytes 2 = 1) (hcount : u16 bytes 4 = N)
    (hlen : sizeof_ICONDIR + sizeof_ICONDIRENTRY * N ≤ bytes.length)
    (himg : ∀ i, i < N → (readICONDIRENTRY bytes sizeof_ICONDIR i).dwImageOffset +
      (readICONDIRENTRY bytes sizeof_ICONDIR i).dwBytesInRes ≤ bytes.length) :
    ∃ group : Bytes,
      (applyIconNative api uninit f exe_path icon_path).2 =
        [Call.LoadImageW icon_path, Call.BeginUpdateResourceW exe_path] ++
          (List.range N).map (fun i => Call.UpdateResourceW 3 (i + 1)
            ((bytes.drop (readICONDIRENTRY bytes sizeof_ICONDIR i).dwImageOffset).take
              (readICONDIRENTRY bytes sizeof_ICONDIR i).dwBytesInRes)) ++
          [Call.UpdateResourceW 14 1 group, Call.EndUpdateResourceW false, Call.DestroyIcon] ∧
      (∀ i, i < N → (readGRPICONDIRENTRY group sizeof_GRPICONDIR i).nID = i + 1) ∧
      ((applyIconNative api uninit f exe_path icon_path).1 = true ↔
        (∀ i, i < N → api.updateResource 3 (i + 1)
          ((bytes.drop (readICONDIRENTRY bytes sizeof_ICONDIR i).dwImageOffset).take
            (readICONDIRENTRY bytes sizeof_ICONDIR i).dwBytesInRes) = true) ∧
        api.updateResource 14 1 group = true ∧ api.endUpdate = true) := by
  rw [sizeof_ICONDIR_eq, sizeof_ICONDIRENTRY_eq] at hlen
  rw [sizeof_ICONDIR_eq] at himg
  have hN : N < 65536 := by rw [← hcount]; exact u16_lt bytes 4
  have hrun := applyIconNative_wellformed api uninit f exe_path icon_path bytes N hload hbegin
    hopen hres htype hcount hlen himg
  refine ⟨groupData api uninit exe_path icon_path bytes, ?_, ?_, ?_⟩
  · rw [hrun, sizeof_ICONDIR_eq, List.range_eq_range']
    rfl
  · intro i hi
    rw [groupData_file api uninit exe_path icon_path bytes N hcount hlen, sizeof_GRPICONDIR_eq,
      groupEntry_file bytes N i hi hN]
  · rw [hrun, sizeof_ICONDIR_eq]
    simp only [Bool.and_eq_true, List.all_eq_true, List.mem_range'_1, imageBytes]
    constructor
    · rintro ⟨h1, h2, h3⟩
      exact ⟨fun i hi => h3 i ⟨Nat.zero_le i, by omega⟩, h2, h1⟩
    · rintro ⟨h1, h2, h3⟩
      exact ⟨h3, h2, fun i hi => h1 i (by omega)⟩

/-- C12 at an icon file with two images, when the first image cannot be registered: the
second image and the group are registered all the same, and the result is `false`. -/
theorem C12_registrations_in_order_witness :
    applyIconNative ⟨true, true, fun t id _ => decide (t = 14 ∨ id = 2), true⟩ []
        iconFileFS (str "build_exe/game.exe") (str "app.ico") =
      (false, [Call.LoadImageW (str "app.ico"),
        Call.BeginUpdateResourceW (str "build_exe/game.exe"),
        Call.UpdateResourceW 3 1 [1, 2, 3], Call.UpdateResourceW 3 2 [4, 5],
        Call.UpdateResourceW 14 1
          ([0, 0, 1, 0, 2, 0] ++ [16, 16, 0, 0, 1, 0, 32, 0, 3, 0, 0, 0, 1, 0, 0, 0] ++
            [32, 32, 0, 0, 1, 0, 32, 0, 2, 0, 0, 0, 2, 0, 0, 0]),
        Call.EndUpdateResourceW false, Call.DestroyIcon]) ∧
    ∃ group : Bytes,
      (applyIconNative ⟨true, true, fun t id _ => decide (t = 14 ∨ id = 2), true⟩ []
          iconFileFS (str "build_exe/game.exe") (str "app.ico")).2 =
        [Call.LoadImageW (str "app.ico"), Call.BeginUpdateResourceW (str "build_exe/game.exe"),
          Call.UpdateResourceW 3 1 [1, 2, 3], Call.UpdateResourceW 3 2 [4, 5],
          Call.UpdateResourceW 14 1 group, Call.EndUpdateResourceW false, Call.DestroyIcon] ∧
      (readGRPICONDIRENTRY group sizeof_GRPICONDIR 0).nID = 1 ∧
      (readGRPICONDIRENTRY group sizeof_GRPICONDIR 1).nID = 2 := by
  obtain ⟨group, h1, h2, _⟩ := C12_registrations_in_order
    ⟨true, true, fun t id _ => decide (t = 14 ∨ id = 2), true⟩ []
    iconFileFS (str "build_exe/game.exe") (str "app.ico") demoIcon 2 rfl rfl (by decide)
    (by decide) (by decide) (by decide) (by decide) (by decide)
  have hm : [Call.LoadImageW (str "app.ico"), Call.BeginUpdateResourceW (str "build_exe/game.exe")]
      ++ (List.range 2).map (fun i => Call.UpdateResourceW 3 (i + 1)
        ((demoIcon.drop (readICONDIRENTRY demoIcon sizeof_ICONDIR i).dwImageOffset).take
          (readICONDIRENTRY demoIcon sizeof_ICONDIR i).dwBytesInRes)) =
      [Call.LoadImageW (str "app.ico"), Call.BeginUpdateResourceW (str "build_exe/game.exe"),
        Call.UpdateResourceW 3 1 [1, 2, 3], Call.UpdateResourceW 3 2 [4, 5]] := by decide
  refine ⟨by decide, group, ?_, h2 0 (by decide), h2 1 (by decide)⟩
  rw [h1, hm]
  rfl

/-- C13. On every path through `applyIconNative`: when the update session was not opened
(no icon handle, or `BeginUpdateResourceW` failed) there is no end-of-session call and no
registration; when it was opened there is exactly one end-of-session call, it discards
exactly when the icon file cannot be opened or the header check rejects it and commits
otherwise, and only `DestroyIcon` follows it; on every path no registration comes after
an end-of-session call. -/
theorem C13_session_discipline (api : WinApi) (uninit : Bytes) (f : FS)
    (exe_path icon_path : Bytes) :
    ((api.loadImage = false ∨ api.beginUpdate = false) →
      (∀ d, Call.EndUpdateResourceW d ∉ (applyIconNative api uninit f exe_path icon_path).2) ∧
      (∀ t id data,
        Call.UpdateResourceW t id data ∉ (applyIconNative api uninit f exe_path icon_path).2)) ∧
    (api.loadImage = true → api.beginUpdate = true →
      ∃ (pre : List Call) (discard : Bool),
        (applyIconNative api uninit f exe_path icon_path).2 =
          pre ++ [Call.EndUpdateResourceW discard, Call.DestroyIcon] ∧
        (∀ d, Call.EndUpdateResourceW d ∉ pre) ∧
        (discard = true ↔ (openRead f icon_path = none ∨
          ∃ bytes, openRead f icon_path = some bytes ∧ headerAccepted uninit bytes = false))) ∧
    (∀ (pre : List Call) (d : Bool) (post : List Call),
      (applyIconNative api uninit f exe_path icon_path).2 =
        pre ++ Call.EndUpdateResourceW d :: post →
      ∀ t id data, Call.UpdateResourceW t id data ∉ post) := by
  cases hload : api.loadImage with
  | false =>
    rw [applyIconNative_no_icon api uninit f exe_path icon_path hload]
    refine ⟨fun _ => ⟨by simp, by simp⟩, fun h => (by cases h), ?_⟩
    exact no_update_after_end [] _ (by simp) (by simp)
  | true =>
    cases hbegin : api.beginUpdate with
    | false =>
      rw [applyIconNative_no_session api uninit f exe_path icon_path hload hbegin]
      refine ⟨fun _ => ⟨by simp, by simp⟩, fun _ h => (by cases h), ?_⟩
      exact no_update_after_end [] _ (by simp) (by simp)
    | true =>
      refine ⟨fun h => (by simp at h), ?_⟩
      cases hopen : openRead f icon_path with
      | none =>
        rw [applyIconNative_unreadable api uninit f exe_path icon_path hload hbegin hopen]
        refine ⟨fun _ _ => ⟨[Call.LoadImageW icon_path, Call.BeginUpdateResourceW exe_path],
          true, rfl, by simp, by simp⟩, ?_⟩
        exact no_update_after_end [] _ (by simp) (by simp)
      | some bytes =>
        cases hacc : headerAccepted uninit bytes with
        | false =>
          rw [applyIconNative_rejected api uninit f exe_path icon_path bytes hload hbegin hopen
            hacc]
          refine ⟨fun _ _ => ⟨[Call.LoadImageW icon_path,
            Call.BeginUpdateResourceW exe_path], true, rfl, by simp, by simp [hacc]⟩, ?_⟩
          exact no_update_after_end [] _ (by simp) (by simp)
        | true =>
          rw [applyIconNative_accepted api uninit f exe_path icon_path bytes hload hbegin hopen
            hacc]
          obtain ⟨regs, hcalls, hregs⟩ := loopResult_calls api uninit exe_path icon_path bytes
          have hpre : ∀ d, Call.EndUpdateResourceW d ∉
              (loopResult api uninit exe_path icon_path bytes).calls ++
                [Call.UpdateResourceW 14 1 (groupData api uninit exe_path icon_path bytes)] := by
            intro d hd
            rw [hcalls] at hd
            simp only [List.mem_append, List.mem_cons, List.mem_singleton, List.not_mem_nil,
              or_false] at hd
            rcases hd with ((h | h) | h) | h
            · cases h
            · cases h
            · obtain ⟨id, dd, hc⟩ := hregs _ h
              cases hc
            · cases h
          refine ⟨fun _ _ => ⟨(loopResult api uninit exe_path icon_path bytes).calls ++
            [Call.UpdateResourceW 14 1 (groupData api uninit exe_path icon_path bytes)],
            false, by simp, hpre, by simp [hacc]⟩, ?_⟩
          have := no_update_after_end _ [Call.EndUpdateResourceW false, Call.DestroyIcon]
            hpre (by simp)
          intro pre d post h
          apply this pre d post
          rw [← h]
          simp

/-- C13 on a concrete path: the icon is valid, the second image cannot be registered and
the commit fails; the session is still ended once, by the commit, after the last
registration. -/
theorem C13_session_discipline_witness :
    applyIconNative ⟨true, true, fun t id _ => decide (t = 14 ∨ id = 1), false⟩ []
        iconFileFS (str "build_exe/game.exe") (str "app.ico") =
      (false, [Call.LoadImageW (str "app.ico"),
        Call.BeginUpdateResourceW (str "build_exe/game.exe"),
        Call.UpdateResourceW 3 1 [1, 2, 3], Call.UpdateResourceW 3 2 [4, 5],
        Call.UpdateResourceW 14 1
          ([0, 0, 1, 0, 2, 0] ++ [16, 16, 0, 0, 1, 0, 32, 0, 3, 0, 0, 0, 1, 0, 0, 0] ++
            [32, 32, 0, 0, 1, 0, 32, 0, 2, 0, 0, 0, 2, 0, 0, 0]),
        Call.EndUpdateResourceW false, Call.DestroyIcon]) ∧
    ∀ (pre : List Call) (d : Bool) (post : List Call),
      (applyIconNative ⟨true, true, fun t id _ => decide (t = 14 ∨ id = 1), false⟩ []
        iconFileFS (str "build_exe/game.exe") (str "app.ico")).2 =
        pre ++ Call.EndUpdateResourceW d :: post →
      ∀ t id data, Call.UpdateResourceW t id data ∉ post :=
  ⟨by decide,
    (C13_session_discipline ⟨true, true, fun t id _ => decide (t = 14 ∨ id = 1), false⟩ []
      iconFileFS (str "build_exe/game.exe") (str "app.ico")).2.2⟩

/-- C14. For every request, environment and state, whether `bundle` succeeds or fails:
the stem of the script path holds neither `/` nor `\`; the artifact path is
`build_exe/<stem>.exe`, the two files of the external tool lie under `build_exe/`, and
none of them, nor the output folder, is `main.exe`; every effect of the run stays within
the request (the output folder is created, `main.exe` is only read by the copy to the
artifact, data is appended to the artifact only, only the instruction file is created,
only the two tool files are removed); every other path holds afterwards what it held
before, as far as the external tool leaves it alone; so `main.exe` holds afterwards what
it held before when the external tool leaves it alone, and without an icon request
unconditionally. -/
theorem C14_interpreter_is_framed (env : Env) (o : BundleOptions) (s : St) :
    (∀ c ∈ path_stem o.kozak_file, c ≠ 47 ∧ c ≠ 92) ∧
    (output_exe o = str "build_exe/" ++ path_stem o.kozak_file ++ str ".exe" ∧
      rh_script_path = str "build_exe/" ++ str "_rh_script.txt" ∧
      rh_log_path = str "build_exe/" ++ str "_rh_log.txt") ∧
    (output_exe o ≠ INTERPRETER_EXE ∧ rh_script_path ≠ INTERPRETER_EXE ∧
      rh_log_path ≠ INTERPRETER_EXE ∧ OUTPUT_FOLDER ≠ INTERPRETER_EXE) ∧
    (∃ added : List Event, (bundle env o s).2.log = s.log ++ added ∧
      ∀ e ∈ added, Event.within o e) ∧
    (∀ p : Bytes, p ≠ OUTPUT_FOLDER → p ≠ output_exe o → p ≠ rh_script_path →
      p ≠ rh_log_path → (∀ cmd f, (env.system cmd f).2 p = f p) →
      (bundle env o s).2.fs p = s.fs p) ∧
    ((∀ cmd f, (env.system cmd f).2 INTERPRETER_EXE = f INTERPRETER_EXE) →
      (bundle env o s).2.fs INTERPRETER_EXE = s.fs INTERPRETER_EXE) ∧
    (o.icon_file = [] → (bundle env o s).2.fs INTERPRETER_EXE = s.fs INTERPRETER_EXE) := by
  have hout : output_exe o ≠ INTERPRETER_EXE := fun h => interpreter_ne_output o h.symm
  have hscript : rh_script_path ≠ INTERPRETER_EXE := by decide
  have hlog : rh_log_path ≠ INTERPRETER_EXE := by decide
  have hfolder : OUTPUT_FOLDER ≠ INTERPRETER_EXE := by decide
  have hw := bundle_within env o s
  refine ⟨?_, ⟨?_, by decide, by decide⟩, ⟨hout, hscript, hlog, hfolder⟩, hw.1, hw.2, ?_, ?_⟩
  · intro c hc
    have h := path_stem_no_separator o.kozak_file c hc
    constructor
    · rintro rfl
      exact absurd h (by decide)
    · rintro rfl
      exact absurd h (by decide)
  · simp [output_exe, OUTPUT_FOLDER, str]
  · exact hw.2 INTERPRETER_EXE hfolder.symm hout.symm hscript.symm hlog.symm
  · intro hicon
    have hq := (bundle_within { env with system := fun _ f => (0, f) } o s).2 INTERPRETER_EXE
      hfolder.symm hout.symm hscript.symm hlog.symm (fun _ _ => rfl)
    rw [bundle_no_icon env _ o s hicon] at hq
    exact hq

/-- C14 on a run with an icon, in which the external tool rewrites the artifact and leaves
a log file: `main.exe` ends as it began, and so does the script. -/
theorem C14_interpreter_is_framed_witness :
    (bundle iconEnv iconOptions iconSt).1 = true ∧
    output_exe iconOptions = str "build_exe/game.exe" ∧
    (bundle iconEnv iconOptions iconSt).2.fs (str "main.exe") =
      some (Node.file [77, 90, 144]) ∧
    (bundle iconEnv iconOptions iconSt).2.fs (str "game.kozak") =
      iconSt.fs (str "game.kozak") ∧
    (bundle iconEnv iconOptions iconSt).2.log =
      [Event.toolProbe, Event.mkdir (str "build_exe"),
        Event.copy (str "main.exe") (str "build_exe/game.exe"),
        Event.append (str "build_exe/game.exe") (nl ++ MARKER ++ nl),
        Event.append (str "build_exe/game.exe") [112, 114, 105, 110, 116],
        Event.append (str "build_exe/game.exe") (nl ++ SCRIPT_END ++ nl),
        Event.append (str "build_exe/game.exe") (nl ++ ASSET_START ++ nl),
        Event.append (str "build_exe/game.exe") [137, 80],
        Event.append (str "build_exe/game.exe") (nl ++ ASSET_END ++ nl),
        Event.create (str "build_exe/_rh_script.txt")
          (rh_script (str "build_exe/game.exe") (str "app.ico")),
        Event.run (str "ResourceHacker.exe -script \"build_exe/_rh_script.txt\""),
        Event.remove (str "build_exe/_rh_script.txt"),
        Event.remove (str "build_exe/_rh_log.txt")] := by
  have h := C14_interpreter_is_framed iconEnv iconOptions iconSt
  have htool : ∀ (p : Bytes), p ≠ str "build_exe/game.exe" → p ≠ rh_log_path →
      ∀ cmd f, (iconEnv.system cmd f).2 p = f p := by
    intro p h1 h2 cmd f
    simp only [iconEnv]
    rw [FS.set_ne _ _ h2, FS.set_ne _ _ h1]
  refine ⟨by decide, by decide, ?_, ?_, by decide⟩
  · exact h.2.2.2.2.2.1 (htool _ (by decide) (by decide))
  · exact h.2.2.2.2.1 _ (by decide) (by decide) (by decide) (by decide)
      (htool _ (by decide) (by decide))

end Kozak
